import Mathlib

/-!
# turnx: the STUN-shaped HTTP tunnel server

A shallow embedding of `server/go/main.go` and `server/go/turnrpc.go`.

Conventions of the embedding.

* A Go `byte` is a `Fin 256`; a Go `[]byte` and a Go `string` are both a list of bytes
  (Go strings are byte sequences, and the program converts freely between the two).
* Go `int` is the 64-bit signed integer: values are kept in `Int` and every operation
  that can leave the range is wrapped with `wrap64`.
* A run-time panic of the Go program (index or slice out of range, negative `make`
  length) is an explicit outcome, distinct from a returned `error`.
-/

namespace Turnx

/-- A Go `byte`. -/
abbrev Byte := Fin 256

/-- A Go `[]byte` (contents only). -/
abbrev Bytes := List Byte

/-- A Go `string`: a sequence of bytes. -/
abbrev Str := List Byte

/-- The byte of an ASCII character. -/
def ch (c : Char) : Byte := Fin.ofNat c.toNat

/-- The bytes of an ASCII string literal. -/
def str (s : String) : Str := s.toList.map ch

/-! ## `handleRequest`, ALLOCATE branch: packing the payload (main.go, lines 110-119) -/

/-- The synthetic relay address carried in XOR-RELAYED-ADDRESS. -/
structure Relay where
  ip : Bytes
  port : Nat
deriving DecidableEq, Repr

/-- Lines 110-116: normalise the payload to 16 bytes, remembering `payload_len`. -/
def padPayload (payload : Bytes) : Bytes × Nat :=
  if payload.length > 16 then
    (payload.take 16, 16)
  else if payload.length < 16 then
    (payload ++ List.replicate (16 - payload.length) (0 : Byte), payload.length)
  else
    (payload, payload.length)

/-- Lines 110-119 of `handleRequest`: `ipBytes` and `port` computed from the payload that
`turnpoke` returned.  `none` stands for the index panic of `payload[0]` and `payload[1:]`
on an empty slice. -/
def allocateRelay (payload : Bytes) : Option Relay :=
  match padPayload payload with
  | ([], _) => none
  | (topByte :: rest, payload_len) =>
    some { ip := (0xfc : Byte) :: rest
           port := 0xc000 ||| (payload_len <<< 8) ||| topByte.val }

/-! ## The Go standard library, as far as the program uses it

These are executable models of the documented behaviour of `strings.SplitN`,
`strconv.ParseInt` and `encoding/base64.StdEncoding`, restricted to the arguments the
program passes (separator `":"`, base 10, bit size 64, padded standard alphabet). -/

/-- The value of a Go `int64`/`int` expression after wrap-around. -/
def wrap64 (x : Int) : Int := (x + 2 ^ 63) % 2 ^ 64 - 2 ^ 63

/-- Split at the first separator byte (`strings.Index` plus the two reslicings). -/
def cut (sep : Byte) : Str → Option (Str × Str)
  | [] => none
  | c :: cs =>
    if c = sep then some ([], cs)
    else match cut sep cs with
      | none => none
      | some (a, b) => some (c :: a, b)

/-- The function `strings.SplitN(s, sep, n)` for a one-byte separator and `n ≥ 0`: at most
`n` pieces, the last one being the unsplit remainder. -/
def splitN (sep : Byte) (s : Str) : Nat → List Str
  | 0 => []
  | 1 => [s]
  | n + 2 =>
    match cut sep s with
    | none => [s]
    | some (a, b) => a :: splitN sep b (n + 1)

/-- The two failure kinds of `strconv.NumError`: a malformed numeral, and a value outside
the range of the target type. -/
inductive NumError where
  | invalid
  | outOfRange
deriving DecidableEq, Repr

/-- The digit loop of `strconv.ParseUint(s, 10, 64)`, `n` being the value so far.  The
result is the pair Go returns: on overflow it is `(maxVal, ErrRange)`. -/
def parseUintLoop : Nat → Str → Nat × Option NumError
  | n, [] => (n, none)
  | n, c :: cs =>
    if ch '0' ≤ c ∧ c ≤ ch '9' then
      let d := c.val - (ch '0').val
      if n ≥ (2 ^ 64 - 1) / 10 + 1 then
        (2 ^ 64 - 1, some .outOfRange)
      else
        let n10 := (n * 10) % 2 ^ 64
        let n1 := (n10 + d) % 2 ^ 64
        if n1 < n10 ∨ n1 > 2 ^ 64 - 1 then
          (2 ^ 64 - 1, some .outOfRange)
        else
          parseUintLoop n1 cs
    else
      (0, some .invalid)

/-- The function `strconv.ParseUint(s, 10, 64)`. -/
def parseUint (s : Str) : Nat × Option NumError :=
  if s = [] then (0, some .invalid) else parseUintLoop 0 s

/-- The function `strconv.ParseInt(s, 10, 64)`. -/
def parseInt (s : Str) : Except NumError Int :=
  match s with
  | [] => .error .invalid
  | c :: cs =>
    let neg := decide (c = ch '-')
    let body := if c = ch '+' ∨ c = ch '-' then cs else s
    match parseUint body with
    | (_, some .invalid) => .error .invalid
    | (un, _) =>
      if !neg ∧ un ≥ 2 ^ 63 then .error .outOfRange
      else if neg ∧ un > 2 ^ 63 then .error .outOfRange
      else
        let n := wrap64 (un : Int)
        .ok (if neg then wrap64 (-n) else n)

/-- The decimal digit `d` as an ASCII byte. -/
def digitByte (d : Nat) : Byte := Fin.ofNat ((ch '0').val + d % 10)

/-- The decimal numeral of a natural number, most significant digit first. -/
def decimal (n : Nat) : Str :=
  if n < 10 then [digitByte n] else decimal (n / 10) ++ [digitByte (n % 10)]
decreasing_by omega

/-- The decimal numeral of an integer (`strconv.FormatInt(i, 10)`). -/
def decimalInt (i : Int) : Str :=
  if i < 0 then ch '-' :: decimal (-i).toNat else decimal i.toNat

/-- The alphabet of `base64.StdEncoding`. -/
def encodeStd : Str :=
  str "ABCDEFGHIJKLMNOPQRSTUVWXYZabcdefghijklmnopqrstuvwxyz0123456789+/"

/-- The lookup `enc.encode[i]`, for a six-bit index. -/
def b64char (i : Nat) : Byte := encodeStd.getD i 0

/-- The lookup `enc.decodeMap[c]`: the index of `c` in the alphabet, `0xff` for every
byte outside it. -/
def decodeMap (c : Byte) : Nat :=
  if encodeStd.indexOf c < 64 then encodeStd.indexOf c else 0xff

/-- The method `base64.StdEncoding.EncodeToString`. -/
def encodeToString : Bytes → Str
  | a :: b :: c :: rest =>
    let val := a.val <<< 16 ||| b.val <<< 8 ||| c.val
    b64char (val >>> 18 &&& 0x3F) :: b64char (val >>> 12 &&& 0x3F) ::
      b64char (val >>> 6 &&& 0x3F) :: b64char (val &&& 0x3F) :: encodeToString rest
  | [a, b] =>
    let val := a.val <<< 16 ||| b.val <<< 8
    [b64char (val >>> 18 &&& 0x3F), b64char (val >>> 12 &&& 0x3F),
      b64char (val >>> 6 &&& 0x3F), ch '=']
  | [a] =>
    let val := a.val <<< 16
    [b64char (val >>> 18 &&& 0x3F), b64char (val >>> 12 &&& 0x3F), ch '=', ch '=']
  | [] => []

/-- The tail of `decodeQuantum`: turn the `dlen` six-bit values read so far (missing ones
count as zero) into `dlen - 1` bytes. -/
def assemble (dbuf : List Nat) : Bytes :=
  let val := dbuf.getD 0 0 <<< 18 ||| dbuf.getD 1 0 <<< 12 ||| dbuf.getD 2 0 <<< 6 |||
    dbuf.getD 3 0
  ([Fin.ofNat (val >>> 16), Fin.ofNat (val >>> 8), Fin.ofNat val] : Bytes).take
    (dbuf.length - 1)

/-- Skip the line breaks that the decoder ignores. -/
def skipNewlines : Str → Str
  | [] => []
  | c :: cs => if c = ch '\n' ∨ c = ch '\r' then skipNewlines cs else c :: cs

/-- The loop of `Decode` over `decodeQuantum`, with `dbuf` the six-bit values of the
quantum being read.  `none` is a `CorruptInputError`. -/
def decodeFrom (dbuf : List Nat) : Str → Option Bytes
  | [] => if dbuf = [] then some [] else none
  | c :: cs =>
    if decodeMap c ≠ 0xff then
      if dbuf.length = 3 then
        (decodeFrom [] cs).map (assemble (dbuf ++ [decodeMap c]) ++ ·)
      else
        decodeFrom (dbuf ++ [decodeMap c]) cs
    else if c = ch '\n' ∨ c = ch '\r' then
      decodeFrom dbuf cs
    else if c ≠ ch '=' then
      none
    else if dbuf.length = 2 then
      match skipNewlines cs with
      | [] => none
      | p :: ps =>
        if p = ch '=' ∧ skipNewlines ps = [] then some (assemble dbuf) else none
    else if dbuf.length = 3 then
      if skipNewlines cs = [] then some (assemble dbuf) else none
    else
      none

/-- The method `base64.StdEncoding.DecodeString`.  On corrupt input Go returns the bytes
decoded so far together with the error; the program drops them, so the error case is
`none`. -/
def decodeString (s : Str) : Option Bytes := decodeFrom [] s

/-- The function `binary.BigEndian.PutUint32` into a fresh four-byte slice. -/
def putUint32 (v : Nat) : Bytes :=
  [Fin.ofNat (v >>> 24), Fin.ofNat (v >>> 16), Fin.ofNat (v >>> 8), Fin.ofNat v]

/-- The function `copy(dst, src)`: the new contents of `dst`. -/
def goCopy (dst src : Bytes) : Bytes := src.take dst.length ++ dst.drop src.length

/-- The method `(*bytes.Buffer).Bytes` of a buffer into which exactly `written` went: a
buffer never written to yields the nil slice. -/
def bufferBytes (written : Bytes) : Option Bytes :=
  if written = [] then none else some written

/-! ## The session store (turnrpc.go, lines 177-192) -/

/-- A point in time (`time.Time`), in nanoseconds. -/
abbrev Time := Int

/-- The constant `longReqValidity = 30 * time.Second`. -/
def longReqValidity : Int := 30 * 1000000000

/-- A Go map from `string`.  For the two maps of byte slices, `none` stands both for a
missing key and for a key bound to the nil slice: the program only indexes these maps
and compares the result with `nil`, so it cannot tell the two apart. -/
abbrev GoMap (V : Type) := Str → Option V

/-- The assignment `m[k] = v`, with `v = none` for a nil slice. -/
def GoMap.set {V : Type} (m : GoMap V) (k : Str) (v : Option V) : GoMap V :=
  fun k2 => if k2 = k then v else m k2

/-- The statement `delete(m, k)`. -/
def GoMap.delete {V : Type} (m : GoMap V) (k : Str) : GoMap V :=
  fun k2 => if k2 = k then none else m k2

/-- The three package-level maps guarded by `longReqLock`. -/
structure Store where
  longReqValidUntils : GoMap Time
  longReqs : GoMap Bytes
  longResps : GoMap Bytes

/-- The store at program start. -/
def Store.empty : Store :=
  { longReqValidUntils := fun _ => none, longReqs := fun _ => none,
    longResps := fun _ => none }

/-- The test `until.Before(time.Now())` of `reapLong` for the entry of `id`, if any. -/
def expiredAt (st : Store) (now : Time) (id : Str) : Bool :=
  match st.longReqValidUntils id with
  | some until_ => decide (until_ < now)
  | none => false

/-- The function `reapLong`, run at time `now`. -/
def reapLong (now : Time) (st : Store) : Store :=
  { longReqValidUntils := fun id => if expiredAt st now id then none else st.longReqValidUntils id
    longReqs := fun id => if expiredAt st now id then none else st.longReqs id
    longResps := fun id => if expiredAt st now id then none else st.longResps id }

/-! ## The tunnel command (turnrpc.go, lines 248-371) -/

/-- What the world supplies to one call of `turnpoke`. -/
structure Env where
  /-- The value of `time.Now()`. -/
  now : Time
  /-- The sixteen bytes `rand.Read` puts into `id`. -/
  rnd : { l : Bytes // l.length = 16 }
  /-- The zlib reader with the shared dictionary, reading the whole stream; `none` when
  `zlib.NewReaderDict` or `io.ReadAll` fails. -/
  inflate : Bytes → Option Bytes
  /-- Everything the zlib writer (best compression, shared dictionary) puts into the
  buffer for one `Write` followed by `Close`. -/
  deflate : Bytes → Bytes
  /-- The HTTP bridge `turnx`. -/
  turnx : Bytes → Bytes
  /-- The times at which the reaper runs while `e` has released the lock. -/
  reaps : List Time

/-- The errors `turnpoke` returns. -/
inductive TurnError where
  | invalidRequest
  | unknownRequest
  | contentTooLong
  | unknownMethod
  | num (e : NumError)
  | corruptInput
  | zlib
deriving DecidableEq, Repr

/-- The result of one call: a payload, an error, or a run-time panic.  The store is the
one left behind when the lock is released. -/
inductive Outcome where
  | ok (payload : Bytes) (st : Store)
  | error (e : TurnError) (st : Store)
  | panic

/-- The largest length that `make([]byte, n)` accepts on a 64-bit platform (the
constant `maxAlloc` of the Go runtime, 2^48); beyond it `make` panics with "makeslice: len
out of range", as it does for a negative length.  Whether the operating system grants the
memory of an accepted length is not modelled. -/
def maxAlloc : Nat := 2 ^ 48

/-- Verb `s` (lines 258-267).  The `panic` is the one of `make([]byte, l)`. -/
def pokeS (env : Env) (st : Store) (args : Str) : Outcome :=
  match parseInt args with
  | .error e => .error (.num e) st
  | .ok l =>
    if l < 0 ∨ l > (maxAlloc : Int) then .panic
    else
      let id := env.rnd.val
      .ok id
        { longReqs := st.longReqs.set id (some (List.replicate l.toNat (0 : Byte)))
          longReqValidUntils := st.longReqValidUntils.set id (some (env.now + longReqValidity))
          longResps := st.longResps }

/-- Verb `c` (lines 268-295). -/
def pokeC (st : Store) (args : Str) : Outcome :=
  let parts := splitN (ch ':') args 3
  match parts[0]? with
  | none => .panic
  | some idStr =>
  match decodeString idStr with
  | none => .error .corruptInput st
  | some id =>
  match parts[1]? with
  | none => .panic
  | some offsetStr =>
  match parseInt offsetStr with
  | .error e => .error (.num e) st
  | .ok offset =>
  match parts[2]? with
  | none => .panic
  | some contentStr =>
  match decodeString contentStr with
  | none => .error .corruptInput st
  | some content =>
  match st.longReqs id with
  | none => .error .unknownRequest st
  | some long =>
    let maxLen := wrap64 ((long.length : Int) - offset)
    if (content.length : Int) > maxLen then .error .contentTooLong st
    else if offset < 0 ∨ offset > (long.length : Int) then .panic
    else
      let long2 := long.take offset.toNat ++ goCopy (long.drop offset.toNat) content
      .ok id { st with longReqs := st.longReqs.set id (some long2) }

/-- Verb `e`, up to the release of the lock (lines 297-318): the inflated request and
the store left behind. -/
def eBegin (env : Env) (st : Store) (args : Str) : Except TurnError (Str × Bytes × Store) :=
  match decodeString args with
  | none => .error .corruptInput
  | some id =>
    match st.longReqs id with
    | none => .error .unknownRequest
    | some longReq =>
      match env.inflate longReq with
      | none => .error .zlib
      | some decomped =>
        .ok (id, decomped, { st with longReqs := st.longReqs.delete id })

/-- Lines 340-341: the four bytes `e` returns, `uint32(len(comped))` in big-endian
order. -/
def lenBytes (comped : Bytes) : Bytes := putUint32 (comped.length % 2 ^ 32)

/-- Verb `e`, from the re-acquisition of the lock (lines 320-342), on the store found
then. -/
def eFinish (env : Env) (st : Store) (id : Str) (longResp : Bytes) : Outcome :=
  match st.longReqValidUntils id with
  | none => .error .unknownRequest st
  | some _ =>
    let comped := env.deflate longResp
    .ok (lenBytes comped)
      { st with longResps := st.longResps.set id (bufferBytes comped) }

/-- Verb `e` (lines 296-342): the HTTP call happens with the lock released, and only
the reaper runs meanwhile (the receive loop handles one datagram at a time). -/
def pokeE (env : Env) (st : Store) (args : Str) : Outcome :=
  match eBegin env st args with
  | .error e => .error e st
  | .ok (id, decomped, st1) =>
    let longResp := env.turnx decomped
    eFinish env (env.reaps.foldl (fun s t => reapLong t s) st1) id longResp

/-- Verb `r` (lines 343-367). -/
def pokeR (st : Store) (args : Str) : Outcome :=
  match splitN (ch ':') args 2 with
  | [idStr, offsetStr] =>
    match decodeString idStr with
    | none => .error .corruptInput st
    | some id =>
      match parseInt offsetStr with
      | .error e => .error (.num e) st
      | .ok offset =>
        match st.longResps id with
        | none => .error .unknownRequest st
        | some long =>
          if offset < 0 ∨ offset > (long.length : Int) then .panic
          else
            let out := long.drop offset.toNat
            .ok (if out.length > 16 then out.take 16 else out) st
  | _ => .error .invalidRequest st

/-- The function `turnpoke`. -/
def turnpoke (env : Env) (st : Store) (req : Str) : Outcome :=
  match splitN (ch ':') req 2 with
  | [method, args] =>
    if method = str "s" then pokeS env st args
    else if method = str "c" then pokeC st args
    else if method = str "e" then pokeE env st args
    else if method = str "r" then pokeR st args
    else .error .unknownMethod st
  | _ => .error .invalidRequest st

/-! ## The client side of the packing -/

/-- Modelled from the spec: the client half of the ALLOCATE packing is not part of the
sources.  This is the mirror decoding of section 4.3: `L` is bits 8-11 of the port, the
first byte is the low byte of the port, the remaining bytes are bytes 1..15 of the IPv6
address, and the first `L` bytes are kept. -/
def mirrorDecode (r : Relay) : Bytes :=
  let L := (r.port >>> 8) &&& 0x0F
  let first : Byte := Fin.ofNat (r.port &&& 0xFF)
  (first :: (r.ip.drop 1).take 15).take L

/-! ## The client side of the tunnel: command strings and read-back -/

/-- The command string `<verb>:<args>`. -/
def command (verb args : Str) : Str := verb ++ ch ':' :: args

/-- The command `s:<N>` with the length in decimal. -/
def cmdS (n : Nat) : Str := command (str "s") (decimal n)

/-- The command `c:<base64 id>:<offset>:<base64 content>`. -/
def cmdC (id : Bytes) (offset : Int) (content : Bytes) : Str :=
  command (str "c")
    (encodeToString id ++ ch ':' :: (decimalInt offset ++ ch ':' :: encodeToString content))

/-- The command `e:<base64 id>`. -/
def cmdE (id : Bytes) : Str := command (str "e") (encodeToString id)

/-- The command `r:<base64 id>:<offset>`. -/
def cmdR (id : Bytes) (offset : Int) : Str :=
  command (str "r") (encodeToString id ++ ch ':' :: decimalInt offset)

/-- The function `binary.BigEndian.Uint32`, with which the client reads the payload of
`e`; zero on a slice of another length. -/
def beUint32 : Bytes → Nat
  | [b0, b1, b2, b3] => b0.val <<< 24 ||| b1.val <<< 16 ||| b2.val <<< 8 ||| b3.val
  | _ => 0

/-- Issue `k` commands `r` at offsets `offset`, `offset + 16`, ... and concatenate the
payloads; `none` as soon as one of them does not return a payload. -/
def readFrom (env : Env) (id : Bytes) : Nat → Nat → Store → Option Bytes
  | 0, _, _ => some []
  | k + 1, offset, st =>
    match turnpoke env st (cmdR id offset) with
    | .ok payload st2 => (readFrom env id k (offset + 16) st2).map (payload ++ ·)
    | _ => none

/-- Read a response of `len` bytes back: one `r` for every multiple of 16 below `len`. -/
def readAll (env : Env) (id : Bytes) (len : Nat) (st : Store) : Option Bytes :=
  readFrom env id ((len + 15) / 16) 0 st

/-- A world in which nothing happens: the clock stands at zero, the random source yields
zero bytes, compression only adds one header byte, the upstream echoes the request and
the reaper does not run during `e`. -/
def Env.quiet : Env :=
  { now := 0
    rnd := ⟨List.replicate 16 0, by decide⟩
    inflate := fun b => match b with
      | [] => none
      | _ :: t => some t
    deflate := fun b => 0x78 :: b
    turnx := fun b => b
    reaps := [] }

/-- A response of 2^32 zero bytes, the shortest whose length does not fit the four bytes
that `e` returns. -/
def bigResponse : Bytes := List.replicate (2 ^ 32) 0

/-- A world as quiet as `Env.quiet`, except that the upstream answers every request with
the 2^32 bytes of `bigResponse`, which the compressor only frames. -/
def Env.flood : Env := { Env.quiet with turnx := fun _ => bigResponse }

/-- A world five seconds after `Env.quiet`, in which the random source yields sixteen
bytes of value one. -/
def Env.second : Env :=
  { Env.quiet with now := 5000000000, rnd := ⟨List.replicate 16 1, by decide⟩ }

/-- A world at 31 seconds in which the reaper runs once, at 32 seconds, while `e` has
released the lock. -/
def Env.reaping : Env := { Env.quiet with now := 31000000000, reaps := [32000000000] }

/-! ## STUN messages and the dispatcher (main.go)

The wire codec is the library `pion/stun`.  A decoded request is its type, its
transaction id and its raw attributes; a response is the list of setters the program
hands to `stun.MustBuild`, in order.  Every setter below succeeds on the values the
program passes to it, so `MustBuild` does not panic. -/

/-- The STUN methods the dispatcher tells apart. -/
inductive Method where
  | binding
  | allocate
  | refresh
  | other (code : Nat)
deriving DecidableEq, Repr

/-- The STUN message classes. -/
inductive MsgClass where
  | request
  | indication
  | successResponse
  | errorResponse
deriving DecidableEq, Repr

/-- The attribute types the program names. -/
inductive AttrType where
  | username
  | nonce
  | realm
  | messageIntegrity
  | lifetime
  | other (code : Nat)
deriving DecidableEq, Repr

/-- The method `AttrType.String` on the four credential attributes. -/
def AttrType.name : AttrType → String
  | .username => "USERNAME"
  | .nonce => "NONCE"
  | .realm => "REALM"
  | .messageIntegrity => "MESSAGE-INTEGRITY"
  | .lifetime => "LIFETIME"
  | .other code => "0x" ++ String.mk (Nat.toDigits 16 code)

/-- A `stun.RawAttribute`. -/
structure RawAttribute where
  typ : AttrType
  value : Bytes
deriving DecidableEq, Repr

/-- A decoded `stun.Message`. -/
structure Message where
  method : Method
  msgClass : MsgClass
  transactionID : Bytes
  attributes : List RawAttribute
deriving DecidableEq, Repr

/-- The method `Attributes.Get`: the first attribute of the given type. -/
def Message.get (m : Message) (t : AttrType) : Option RawAttribute :=
  m.attributes.find? (fun a => decide (a.typ = t))

/-- The sender of a datagram (`*net.UDPAddr`): an IPv4 or IPv6 address and a port. -/
structure UDPAddr where
  ip : { l : Bytes // l.length = 4 ∨ l.length = 16 }
  port : Int

/-- The arguments of `stun.MustBuild`. -/
inductive Setter where
  | transactionID (id : Bytes)
  | msgType (method : Method) (msgClass : MsgClass)
  | errorCode (code : Nat) (reason : Str)
  | nonce (value : Str)
  | realm (value : Str)
  | software (value : Str)
  | xorMappedAddress (ip : Bytes) (port : Int)
  | xorRelayedAddress (ip : Bytes) (port : Int)
  | rawAttribute (typ : AttrType) (value : Bytes)
  | longTermIntegrity (username realm password : Str)
deriving DecidableEq, Repr

/-- The constant `password`. -/
def password : Str := str "turnrpc"

/-- The constant `software`. -/
def software : Str := str "webrtcsocket"

/-- The constant `realm`. -/
def realm : Str := str "webrtcsocket.org"

/-- The constant `turnrpcPrefix`. -/
def turnrpcPrefix : Str := str "turnrpc:"

/-- The table `hextable` of `encoding/hex`. -/
def hextable : Str := str "0123456789abcdef"

/-- The function `hex.EncodeToString`: two digits for every byte. -/
def hexEncodeToString : Bytes → Str
  | [] => []
  | b :: rest =>
    hextable.getD (b.val >>> 4) 0 :: hextable.getD (b.val &&& 0x0f) 0 ::
      hexEncodeToString rest

/-- The function `randHex(n)`, given what `rand.Read` does with the `n`-byte slice: it
fills it, or fails and the function panics (`none`). -/
def randHex (n : Nat) (read : Option { l : Bytes // l.length = n }) : Option Str :=
  match read with
  | none => none
  | some b => some (hexEncodeToString b.val)

/-- What the world supplies to one call of `handleRequest`. -/
structure World where
  /-- The clock, random id, zlib, HTTP bridge and reaper seen by `turnpoke`. -/
  env : Env
  /-- The call `msg.Check(stun.NewLongTermIntegrity(username, realm, password))`: the
  error it returns, `none` when the integrity attribute verifies. -/
  integrityError : Str → Str → Str → Message → Option String
  /-- The result of `rand.Read` on the 24-byte slice of `randHex`. -/
  entropy : Option { l : Bytes // l.length = 24 }

/-- The function `genUnauthResponse`; `none` is the panic of `randHex`. -/
def genUnauthResponse (w : World) (msg : Message) : Option (List Setter) :=
  match randHex 24 w.entropy with
  | none => none
  | some nonce =>
    some [.transactionID msg.transactionID,
      .msgType msg.method .errorResponse,
      .errorCode 401 (str "Unauthorized"),
      .nonce nonce,
      .realm realm,
      .software software]

/-- The list `requiredAttrs` of `checkAuth`. -/
def requiredAttrs : List AttrType := [.username, .nonce, .realm, .messageIntegrity]

/-- The function `checkAuth`: the username and the nonce, or the error. -/
def checkAuth (w : World) (msg : Message) : Except String (Str × Bytes) :=
  match requiredAttrs.find? (fun attr => (msg.get attr).isNone) with
  | some attr => .error ("No authentication factor " ++ attr.name)
  | none =>
    let username : Str := ((msg.get .username).map (·.value)).getD []
    if ¬ turnrpcPrefix.isPrefixOf username then
      .error "Invalid username"
    else
      let nonce : Bytes := ((msg.get .nonce).map (·.value)).getD []
      match w.integrityError username realm password msg with
      | some err => .error err
      | none => .ok (username, nonce)

/-- What one call of `handleRequest` does: the response it writes to the socket (none
for a dropped message), and the store afterwards; or a panic. -/
inductive Handled where
  | reply (response : List Setter) (st : Store)
  | silent (st : Store)
  | panic

/-- Send the unauthorized response, as both failure paths of ALLOCATE and the failure
path of REFRESH do. -/
def replyUnauth (w : World) (msg : Message) (st : Store) : Handled :=
  match genUnauthResponse w msg with
  | none => .panic
  | some response => .reply response st

/-- The ALLOCATE branch of `handleRequest` (lines 96-142).  The first `panic` is the
slice `username[len(turnrpcPrefix):]` on a username shorter than the prefix. -/
def handleAllocate (w : World) (st : Store) (addr : UDPAddr) (msg : Message) : Handled :=
  match checkAuth w msg with
  | .error _ => replyUnauth w msg st
  | .ok (username, _) =>
    if username.length < turnrpcPrefix.length then .panic
    else
      let req := username.drop turnrpcPrefix.length
      match turnpoke w.env st req with
      | .panic => .panic
      | .error _ st2 => replyUnauth w msg st2
      | .ok payload st2 =>
        match allocateRelay payload with
        | none => .panic
        | some relay =>
          .reply
            [.transactionID msg.transactionID,
              .msgType .allocate .successResponse,
              .xorRelayedAddress relay.ip relay.port,
              .rawAttribute .lifetime [0xef, 0xff, 0xff, 0xff],
              .xorMappedAddress addr.ip.val addr.port,
              .realm realm,
              .software software,
              .longTermIntegrity username realm password]
            st2

/-- The REFRESH branch of `handleRequest` (lines 143-183). -/
def handleRefresh (w : World) (st : Store) (msg : Message) : Handled :=
  match checkAuth w msg with
  | .error _ => replyUnauth w msg st
  | .ok (username, _) =>
    let isDealloc :=
      match msg.get .lifetime with
      | some lifetime => lifetime.value.all (fun v => decide (v = 0))
      | none => false
    if isDealloc then
      .reply
        [.transactionID msg.transactionID,
          .msgType .refresh .successResponse,
          .rawAttribute .lifetime [0x00, 0x00, 0x00, 0x00],
          .longTermIntegrity username realm password]
        st
    else
      .reply
        [.transactionID msg.transactionID,
          .msgType .refresh .errorResponse,
          .errorCode 508 (str "Insufficient Capacity"),
          .longTermIntegrity username realm password]
        st

/-- The function `handleRequest`. -/
def handleRequest (w : World) (st : Store) (addr : UDPAddr) (msg : Message) : Handled :=
  match msg.msgClass with
  | .request =>
    match msg.method with
    | .binding =>
      .reply
        [.transactionID msg.transactionID,
          .msgType .binding .successResponse,
          .xorMappedAddress addr.ip.val addr.port]
        st
    | .allocate => handleAllocate w st addr msg
    | .refresh => handleRefresh w st msg
    | .other _ => .silent st
  | _ => .silent st

/-! ## Runs of the server -/

/-- The store an outcome leaves behind; none after a panic, which ends the process. -/
def Outcome.store? : Outcome → Option Store
  | .ok _ st => some st
  | .error _ st => some st
  | .panic => none

/-- The text of the errors that `turnpoke` creates with `errors.New`; the errors of
`strconv`, `base64` and `zlib` carry the text of their library. -/
def TurnError.text : TurnError → Option String
  | .invalidRequest => some "Invalid request"
  | .unknownRequest => some "Unknown request"
  | .contentTooLong => some "Content too long"
  | .unknownMethod => some "Unknown method"
  | .num _ => none
  | .corruptInput => none
  | .zlib => none

/-- The stores the server can be in: it starts with empty maps, and every step is one
call of `turnpoke` (with any command and any world) or one run of the reaper. -/
inductive Reachable : Store → Prop where
  | start : Reachable Store.empty
  | poke (env : Env) (req : Str) (st st2 : Store) :
      Reachable st → (turnpoke env st req).store? = some st2 → Reachable st2
  | reap (t : Time) (st : Store) : Reachable st → Reachable (reapLong t st)

/-- The stores the server can be in while the clock advances.  `Timed now h st pending`
says that the clock stands at `now`, that the reaper last ran at time `h` (the start of
the program counting as a run), that the store is `st`, and that `pending` lists the `e`
calls waiting for their HTTP round-trip.  No step happens before the previous one.  The
two locked phases of `e` are steps of their own, so every reaper run, also one that falls
into an HTTP call, is a step and moves `h`. -/
inductive Timed : Time → Time → Store → List (Str × Bytes) → Prop where
  | start (t0 : Time) : Timed t0 t0 Store.empty []
  | verbS (env : Env) (args : Str) (now h : Time) (st st2 : Store)
      (pending : List (Str × Bytes)) :
      Timed now h st pending → now ≤ env.now → (pokeS env st args).store? = some st2 →
      Timed env.now h st2 pending
  | verbC (t : Time) (args : Str) (now h : Time) (st st2 : Store)
      (pending : List (Str × Bytes)) :
      Timed now h st pending → now ≤ t → (pokeC st args).store? = some st2 →
      Timed t h st2 pending
  | verbR (t : Time) (args : Str) (now h : Time) (st st2 : Store)
      (pending : List (Str × Bytes)) :
      Timed now h st pending → now ≤ t → (pokeR st args).store? = some st2 →
      Timed t h st2 pending
  | eLock (env : Env) (t : Time) (args : Str) (id decomped : Bytes) (now h : Time)
      (st st1 : Store) (pending : List (Str × Bytes)) :
      Timed now h st pending → now ≤ t → eBegin env st args = .ok (id, decomped, st1) →
      Timed t h st1 ((id, decomped) :: pending)
  | eRelock (env : Env) (t : Time) (id decomped : Bytes) (now h : Time) (st st2 : Store)
      (pending : List (Str × Bytes)) :
      Timed now h st pending → now ≤ t → (id, decomped) ∈ pending →
      (eFinish env st id (env.turnx decomped)).store? = some st2 →
      Timed t h st2 (pending.erase (id, decomped))
  | reap (t now h : Time) (st : Store) (pending : List (Str × Bytes)) :
      Timed now h st pending → now ≤ t → Timed t t (reapLong t st) pending

/-- A world for examples: the quiet environment, every integrity check passes, and the
random source of `randHex` yields zero bytes. -/
def World.quiet : World :=
  { env := Env.quiet
    integrityError := fun _ _ _ _ => none
    entropy := some ⟨List.replicate 24 0, by decide⟩ }

/-- A request of the given method that carries the four credential attributes with the
given username, and the given further attributes. -/
def Message.authenticated (method : Method) (username : Str) (more : List RawAttribute) :
    Message :=
  { method := method
    msgClass := .request
    transactionID := List.replicate 12 7
    attributes :=
      [⟨.username, username⟩, ⟨.nonce, str "abc"⟩, ⟨.realm, realm⟩,
        ⟨.messageIntegrity, List.replicate 20 0⟩] ++ more }

/-- Every key of the request map is a 16-byte id. -/
def Store.keysSixteen (st : Store) : Prop :=
  ∀ id, st.longReqs id ≠ none → id.length = 16

/-- Every id that has a request buffer or a response buffer has a deadline entry. -/
def Store.grouped (st : Store) : Prop :=
  ∀ id, st.longReqs id ≠ none ∨ st.longResps id ≠ none → st.longReqValidUntils id ≠ none

/-- No deadline in the store is before the time `h`. -/
def Store.notBefore (h : Time) (st : Store) : Prop :=
  ∀ id d, st.longReqValidUntils id = some d → h ≤ d

/-! ## Interleaved runs and the session a command names -/

/-- The stores the server can be in when the two locked phases of `e` are steps of their
own: between the phase that releases the lock (`eBegin`) and the phase that re-acquires it
(`eFinish`) any other step may happen.  The list holds the `e` calls that are waiting for
their HTTP round-trip: the id each one names and the inflated request it sends. -/
inductive Interleaved : Store → List (Str × Bytes) → Prop where
  | start : Interleaved Store.empty []
  | verbS (env : Env) (args : Str) (st st2 : Store) (pending : List (Str × Bytes)) :
      Interleaved st pending → (pokeS env st args).store? = some st2 →
      Interleaved st2 pending
  | verbC (args : Str) (st st2 : Store) (pending : List (Str × Bytes)) :
      Interleaved st pending → (pokeC st args).store? = some st2 → Interleaved st2 pending
  | verbR (args : Str) (st st2 : Store) (pending : List (Str × Bytes)) :
      Interleaved st pending → (pokeR st args).store? = some st2 → Interleaved st2 pending
  | eLock (env : Env) (args : Str) (id decomped : Bytes) (st st1 : Store)
      (pending : List (Str × Bytes)) :
      Interleaved st pending → eBegin env st args = .ok (id, decomped, st1) →
      Interleaved st1 ((id, decomped) :: pending)
  | eRelock (env : Env) (id decomped : Bytes) (st st2 : Store)
      (pending : List (Str × Bytes)) :
      Interleaved st pending → (id, decomped) ∈ pending →
      (eFinish env st id (env.turnx decomped)).store? = some st2 →
      Interleaved st2 (pending.erase (id, decomped))
  | reap (t : Time) (st : Store) (pending : List (Str × Bytes)) :
      Interleaved st pending → Interleaved (reapLong t st) pending

/-- The session a command names: for `s` the id it creates, for `c`, `e` and `r` the id
its first field decodes to; none for a command that names no session. -/
def namedSession (env : Env) (req : Str) : Option Str :=
  match splitN (ch ':') req 2 with
  | [method, args] =>
    if method = str "s" then some env.rnd.val
    else if method = str "c" then
      match (splitN (ch ':') args 3)[0]? with
      | some idStr => decodeString idStr
      | none => none
    else if method = str "e" then decodeString args
    else if method = str "r" then
      match splitN (ch ':') args 2 with
      | [idStr, _] => decodeString idStr
      | _ => none
    else none
  | _ => none

/-- The verb of a command, if it has the form `<verb>:<args>`. -/
def verbOf (req : Str) : Option Str :=
  match splitN (ch ':') req 2 with
  | [method, _] => some method
  | _ => none

/-- Two stores hold the same request buffer, response buffer and deadline for every id
other than `named`. -/
def Store.agreeOff (named : Option Str) (a b : Store) : Prop :=
  ∀ id, named ≠ some id →
    a.longReqs id = b.longReqs id ∧ a.longResps id = b.longResps id ∧
      a.longReqValidUntils id = b.longReqValidUntils id

/-! ## Lemmas: the packing -/

theorem padPayload_of_le (P : Bytes) (h : P.length ≤ 16) :
    padPayload P = (P ++ List.replicate (16 - P.length) (0 : Byte), P.length) := by
  unfold padPayload
  rcases Nat.lt_or_eq_of_le h with h1 | h1
  · simp [h1, Nat.not_lt.mpr h]
  · simp [h1]

set_option maxRecDepth 100000 in
theorem port_bits : ∀ (L : Fin 17) (t : Fin 256),
    (0xc000 ||| (L.val <<< 8) ||| t.val) &&& 0xE000 = 0xC000 ∧
    ((0xc000 ||| (L.val <<< 8) ||| t.val) >>> 8) &&& 0x1F = L.val ∧
    (0xc000 ||| (L.val <<< 8) ||| t.val) &&& 0xFF = t.val ∧
    (L.val < 16 → (0xc000 ||| (L.val <<< 8) ||| t.val) &&& 0xF000 = 0xC000 ∧
      ((0xc000 ||| (L.val <<< 8) ||| t.val) >>> 8) &&& 0x0F = L.val) ∧
    (L.val = 16 → (0xc000 ||| (L.val <<< 8) ||| t.val) &&& 0xF000 = 0xD000 ∧
      ((0xc000 ||| (L.val <<< 8) ||| t.val) >>> 8) &&& 0x0F = 0) ∧
    49152 ≤ (0xc000 ||| (L.val <<< 8) ||| t.val) ∧
    (0xc000 ||| (L.val <<< 8) ||| t.val) ≤ 65535 := by
  decide

/-- The relay address of a payload of at most sixteen bytes, spelled out. -/
theorem allocateRelay_of_le (P : Bytes) (h : P.length ≤ 16) :
    allocateRelay P = some
      { ip := (0xfc : Byte) :: (P.drop 1 ++ List.replicate (15 - (P.length - 1)) (0 : Byte))
        port := 0xc000 ||| (P.length <<< 8) ||| (P.headD 0).val } := by
  unfold allocateRelay
  rw [padPayload_of_le P h]
  cases P with
  | nil => rfl
  | cons a t =>
    have e : 16 - (t.length + 1) = 15 - t.length := by omega
    simp only [List.cons_append, List.length_cons, List.drop_succ_cons, List.drop_zero,
      List.headD_cons, Nat.add_sub_cancel, e]

theorem mirror_take (a : Byte) (t : Bytes) (n : Nat) (h : t.length + 1 ≤ 16) :
    ((Fin.ofNat a.val : Byte) :: (t ++ List.replicate n (0 : Byte)).take 15).take
      (t.length + 1) = a :: t := by
  have ha : (Fin.ofNat a.val : Byte) = a := by
    apply Fin.ext
    simp [Fin.ofNat, Nat.mod_eq_of_lt a.isLt]
  rw [ha, List.take_succ_cons, List.take_take, Nat.min_eq_left (by omega),
    List.take_append_of_le_length (Nat.le_refl _), List.take_length]

/-! ## The ALLOCATE packing (claims C1 and C2) -/

/-- C1, as stated, fails: the sixteen-byte payload `1, 2, ..., 16` is packed into port
`0xD001`, whose bits 8-11 are zero, so the mirror decoding of section 4.3 returns the
empty payload. -/
theorem allocate_mirror_roundtrip_fails :
    ([1, 2, 3, 4, 5, 6, 7, 8, 9, 10, 11, 12, 13, 14, 15, 16] : Bytes).length ≤ 16 ∧
    (allocateRelay [1, 2, 3, 4, 5, 6, 7, 8, 9, 10, 11, 12, 13, 14, 15, 16]).map mirrorDecode
      = some [] ∧
    (allocateRelay [1, 2, 3, 4, 5, 6, 7, 8, 9, 10, 11, 12, 13, 14, 15, 16]).map mirrorDecode
      ≠ some [1, 2, 3, 4, 5, 6, 7, 8, 9, 10, 11, 12, 13, 14, 15, 16] := by
  decide

/-- C1, amended: for every payload `P` of length `L` with `0 ≤ L ≤ 15` the ALLOCATE branch
produces a relay address, and the mirror decoding of section 4.3 applied to it gives back
exactly `P`. -/
theorem allocate_mirror_roundtrip (P : Bytes) (h : P.length ≤ 15) :
    ∃ r, allocateRelay P = some r ∧ mirrorDecode r = P := by
  have h16 : P.length ≤ 16 := by omega
  refine ⟨_, allocateRelay_of_le P h16, ?_⟩
  have hb := port_bits ⟨P.length, by omega⟩ (P.headD 0)
  simp only at hb
  obtain ⟨-, -, hlow, h4, -, -, -⟩ := hb
  simp only [mirrorDecode, (h4 (by omega)).2, hlow]
  cases P with
  | nil => rfl
  | cons a t => exact mirror_take a t _ h16

theorem allocate_mirror_roundtrip_witness :
    ([104, 105, 33] : Bytes).length ≤ 15 ∧
    ∃ r, allocateRelay [104, 105, 33] = some r ∧ mirrorDecode r = [104, 105, 33] :=
  ⟨by decide, allocate_mirror_roundtrip [104, 105, 33] (by decide)⟩

/-- C2, as stated, fails: for the payload of sixteen zero bytes the port is `0xD000`, so
`port & 0xF000` is `0xD000` and bits 8-11 hold 0, not 16. -/
theorem allocate_packing_bits_fails :
    (List.replicate 16 (0 : Byte)).length ≤ 16 ∧
    ∃ r, allocateRelay (List.replicate 16 (0 : Byte)) = some r ∧
      r.port &&& 0xF000 ≠ 0xC000 ∧ (r.port >>> 8) &&& 0x0F ≠ 16 :=
  ⟨by decide, ⟨(0xfc : Byte) :: List.replicate 15 (0 : Byte), 0xD000⟩, by decide, by decide,
    by decide⟩

/-- C2, amended: for every payload `P` of length `L ≤ 16` the relay address satisfies
`port & 0xE000 == 0xC000`, `(port >> 8) & 0x1F == L`, `port & 0xFF == P[0]` (0 when `P` is
empty), `ip` has 16 bytes with `ip[0] == 0xFC`, and `ip[1..16]` is `P[1..L]` followed by
zero bytes; `port & 0xF000 == 0xC000` and `(port >> 8) & 0x0F == L` hold when `L ≤ 15`,
while for `L = 16` they read `0xD000` and `0`. -/
theorem allocate_packing_bits (P : Bytes) (h : P.length ≤ 16) :
    ∃ r, allocateRelay P = some r ∧
      r.port &&& 0xE000 = 0xC000 ∧
      (r.port >>> 8) &&& 0x1F = P.length ∧
      r.port &&& 0xFF = (P.headD 0).val ∧
      r.ip.length = 16 ∧
      r.ip.head? = some 0xFC ∧
      r.ip.drop 1 = P.drop 1 ++ List.replicate (15 - (P.length - 1)) (0 : Byte) ∧
      (P.length < 16 → r.port &&& 0xF000 = 0xC000 ∧ (r.port >>> 8) &&& 0x0F = P.length) ∧
      (P.length = 16 → r.port &&& 0xF000 = 0xD000 ∧ (r.port >>> 8) &&& 0x0F = 0) := by
  have hb := port_bits ⟨P.length, by omega⟩ (P.headD 0)
  simp only at hb
  obtain ⟨h1, h2, h3, h4, h5, -, -⟩ := hb
  refine ⟨_, allocateRelay_of_le P h, h1, h2, h3, ?_, rfl, rfl, h4, h5⟩
  simp only [List.length_cons, List.length_append, List.length_drop, List.length_replicate]
  omega

theorem allocate_packing_bits_witness :
    ([7, 8, 9] : Bytes).length ≤ 16 ∧
    ∃ r, allocateRelay [7, 8, 9] = some r ∧
      r.port &&& 0xE000 = 0xC000 ∧
      (r.port >>> 8) &&& 0x1F = ([7, 8, 9] : Bytes).length ∧
      r.port &&& 0xFF = ((([7, 8, 9] : Bytes)).headD 0).val ∧
      r.ip.length = 16 ∧
      r.ip.head? = some 0xFC ∧
      r.ip.drop 1 = ([7, 8, 9] : Bytes).drop 1 ++
        List.replicate (15 - (([7, 8, 9] : Bytes).length - 1)) (0 : Byte) ∧
      (([7, 8, 9] : Bytes).length < 16 →
        r.port &&& 0xF000 = 0xC000 ∧ (r.port >>> 8) &&& 0x0F = ([7, 8, 9] : Bytes).length) ∧
      (([7, 8, 9] : Bytes).length = 16 →
        r.port &&& 0xF000 = 0xD000 ∧ (r.port >>> 8) &&& 0x0F = 0) :=
  ⟨by decide, allocate_packing_bits [7, 8, 9] (by decide)⟩

/-! ## Lemmas: splitting and numerals -/

theorem cut_append (sep : Byte) (a b : Str) (h : sep ∉ a) :
    cut sep (a ++ sep :: b) = some (a, b) := by
  induction a with
  | nil => simp [cut]
  | cons c t ih =>
    have hc : c ≠ sep := fun e => h (by simp [e])
    have ht : sep ∉ t := fun e => h (by simp [e])
    simp [cut, hc, ih ht]

theorem cut_none (sep : Byte) (a : Str) (h : sep ∉ a) : cut sep a = none := by
  induction a with
  | nil => rfl
  | cons c t ih =>
    have hc : c ≠ sep := fun e => h (by simp [e])
    have ht : sep ∉ t := fun e => h (by simp [e])
    simp [cut, hc, ih ht]

theorem splitN_two (sep : Byte) (a b : Str) (h : sep ∉ a) :
    splitN sep (a ++ sep :: b) 2 = [a, b] := by
  simp [splitN, cut_append sep a b h]

theorem splitN_three (sep : Byte) (a b c : Str) (ha : sep ∉ a) (hb : sep ∉ b) :
    splitN sep (a ++ sep :: (b ++ sep :: c)) 3 = [a, b, c] := by
  simp [splitN, cut_append sep a _ ha, cut_append sep b c hb]

theorem ch_zero : ch '0' = 48 := by decide
theorem ch_nine : ch '9' = 57 := by decide

theorem digitByte_val (d : Nat) : (digitByte d).val = 48 + d % 10 := by
  have h : d % 10 < 10 := Nat.mod_lt _ (by decide)
  simp only [digitByte, ch_zero, Fin.ofNat]
  show (48 + d % 10) % 256 = 48 + d % 10
  omega

theorem digitByte_ne (d : Nat) (c : Byte) (hc : c.val < 48) : digitByte d ≠ c := by
  intro e
  have := digitByte_val d
  rw [e] at this
  omega

theorem parseUintLoop_digit (n d : Nat) (cs : Str) (hd : d < 10) :
    parseUintLoop n (digitByte d :: cs) =
      if n * 10 + d < 2 ^ 64 then parseUintLoop (n * 10 + d) cs
      else (2 ^ 64 - 1, some .outOfRange) := by
  have hv := digitByte_val d
  have h1 : ch '0' ≤ digitByte d ∧ digitByte d ≤ ch '9' := by
    rw [ch_zero, ch_nine, Fin.le_def, Fin.le_def, hv]
    constructor
    · show 48 ≤ 48 + d % 10
      omega
    · show 48 + d % 10 ≤ 57
      omega
  rw [parseUintLoop, if_pos h1]
  simp only [hv, ch_zero, Nat.mod_eq_of_lt hd]
  have e48 : ((48 : Byte) : Nat) = 48 := rfl
  rw [e48]
  by_cases hc : n ≥ (2 ^ 64 - 1) / 10 + 1
  · rw [if_pos hc, if_neg (by omega)]
  · rw [if_neg hc]
    by_cases h2 : n * 10 + d < 2 ^ 64
    · rw [if_pos h2, if_neg (by omega)]
      congr 1
      omega
    · rw [if_neg h2, if_pos (by omega)]

theorem parseUintLoop_append (xs ys : Str) : ∀ n,
    parseUintLoop n (xs ++ ys) =
      match parseUintLoop n xs with
      | (m, none) => parseUintLoop m ys
      | (v, some e) => (v, some e) := by
  induction xs with
  | nil => intro n; simp [parseUintLoop]
  | cons c t ih =>
    intro n
    simp only [List.cons_append, parseUintLoop]
    split
    · split
      · rfl
      · split
        · rfl
        · exact ih _
    · rfl

theorem decimal_cons (n : Nat) : ∃ t, decimal n = digitByte (n / 10 ^ t.length) :: t ∧
    n / 10 ^ t.length < 10 := by
  induction n using Nat.strong_induction_on with
  | _ n ih =>
    rw [decimal]
    by_cases h : n < 10
    · exact ⟨[], by simp [h], by simpa using h⟩
    · obtain ⟨t, ht, hlt⟩ := ih (n / 10) (by omega)
      refine ⟨t ++ [digitByte (n % 10)], ?_, ?_⟩
      · rw [if_neg h, ht]
        simp [Nat.pow_succ, Nat.mul_comm, ← Nat.div_div_eq_div_mul]
      · simpa [Nat.pow_succ, Nat.mul_comm, ← Nat.div_div_eq_div_mul] using hlt

theorem decimal_ne_nil (n : Nat) : decimal n ≠ [] := by
  obtain ⟨t, ht, -⟩ := decimal_cons n
  simp [ht]

theorem parseUintLoop_decimal (n : Nat) :
    parseUintLoop 0 (decimal n) =
      if n < 2 ^ 64 then (n, none) else (2 ^ 64 - 1, some .outOfRange) := by
  induction n using Nat.strong_induction_on with
  | _ n ih =>
    rw [decimal]
    by_cases h : n < 10
    · rw [if_pos h, parseUintLoop_digit 0 n [] h, if_pos (by omega), if_pos (by omega)]
      simp [parseUintLoop]
    · rw [if_neg h, parseUintLoop_append, ih (n / 10) (by omega)]
      have hd : n % 10 < 10 := Nat.mod_lt _ (by decide)
      by_cases h1 : n / 10 < 2 ^ 64
      · simp only [if_pos h1]
        rw [parseUintLoop_digit _ _ [] hd]
        have e : n / 10 * 10 + n % 10 = n := by omega
        rw [e]
        by_cases h2 : n < 2 ^ 64
        · rw [if_pos h2, if_pos h2, parseUintLoop]
        · rw [if_neg h2, if_neg h2]
      · simp only [if_neg h1]
        rw [if_neg (by omega)]

theorem parseUint_decimal (n : Nat) :
    parseUint (decimal n) =
      if n < 2 ^ 64 then (n, none) else (2 ^ 64 - 1, some .outOfRange) := by
  rw [parseUint, if_neg (decimal_ne_nil n), parseUintLoop_decimal]

/-- What `strconv.ParseInt` makes of the decimal numeral of a natural number. -/
theorem parseInt_decimal (n : Nat) :
    parseInt (decimal n) = if n < 2 ^ 63 then .ok (n : Int) else .error .outOfRange := by
  obtain ⟨t, ht, hlt⟩ := decimal_cons n
  have hp := parseUint_decimal n
  rw [ht] at hp
  have h1 : digitByte (n / 10 ^ t.length) ≠ ch '+' := digitByte_ne _ _ (by decide)
  have h2 : digitByte (n / 10 ^ t.length) ≠ ch '-' := digitByte_ne _ _ (by decide)
  rw [ht]
  simp only [parseInt, h1, h2, or_self, if_false, hp, decide_False]
  by_cases h : n < 2 ^ 63
  · have h64 : n < 2 ^ 64 := by omega
    simp only [if_pos h64, if_pos h]
    have hw : wrap64 (n : Int) = n := by
      unfold wrap64
      omega
    simp [hw]
    omega
  · rw [if_neg h]
    by_cases h64 : n < 2 ^ 64
    · simp only [if_pos h64]
      simp
      omega
    · simp only [if_neg h64]
      simp

/-- What `strconv.ParseInt` makes of the decimal numeral of an integer. -/
theorem parseInt_decimalInt (i : Int) :
    parseInt (decimalInt i) =
      if -2 ^ 63 ≤ i ∧ i < 2 ^ 63 then .ok i else .error .outOfRange := by
  by_cases hneg : i < 0
  · have hp := parseUint_decimal (-i).toNat
    have hm : ch '-' ≠ ch '+' := by decide
    simp only [decimalInt, if_pos hneg, parseInt, hm, true_or, false_or, if_true, hp,
      decide_True]
    by_cases h : -2 ^ 63 ≤ i
    · have h64 : (-i).toNat < 2 ^ 64 := by omega
      have hr : -2 ^ 63 ≤ i ∧ i < 2 ^ 63 := ⟨h, by omega⟩
      simp only [if_pos h64, if_pos hr]
      have hw : wrap64 (-wrap64 ((-i).toNat : Int)) = i := by
        unfold wrap64
        omega
      have hgt : ¬ (-i).toNat > 2 ^ 63 := by omega
      simp only [Bool.not_true, Bool.false_eq_true, false_and, if_false, true_and, hw,
        if_neg hgt]
    · have hr : ¬ (-2 ^ 63 ≤ i ∧ i < 2 ^ 63) := fun hh => h hh.1
      rw [if_neg hr]
      by_cases h64 : (-i).toNat < 2 ^ 64
      · have hgt : (-i).toNat > 2 ^ 63 := by omega
        simp only [if_pos h64, Bool.not_true, Bool.false_eq_true, false_and, if_false,
          true_and, if_pos hgt]
      · simp only [if_neg h64]
        simp
  · have e : decimalInt i = decimal i.toNat := by simp [decimalInt, hneg]
    rw [e, parseInt_decimal]
    by_cases h : i.toNat < 2 ^ 63
    · have hr : -2 ^ 63 ≤ i ∧ i < 2 ^ 63 := by omega
      rw [if_pos h, if_pos hr]
      congr 1
      omega
    · have hr : ¬ (-2 ^ 63 ≤ i ∧ i < 2 ^ 63) := by omega
      rw [if_neg h, if_neg hr]

theorem decimal_no_colon (n : Nat) : ch ':' ∉ decimal n := by
  induction n using Nat.strong_induction_on with
  | _ n ih =>
    rw [decimal]
    have hd : ∀ d, ch ':' ≠ digitByte d := by
      intro d e
      have := digitByte_val d
      rw [← e] at this
      have e58 : (ch ':').val = 58 := by decide
      omega
    by_cases h : n < 10
    · simp [h, hd]
    · simp [h, hd, ih (n / 10) (by omega)]

theorem decimalInt_no_colon (i : Int) : ch ':' ∉ decimalInt i := by
  unfold decimalInt
  split
  · have : ch ':' ≠ ch '-' := by decide
    simp [this, decimal_no_colon]
  · exact decimal_no_colon _

/-! ## Lemmas: base64 -/

theorem or_eq_add (a b i : Nat) (hb : b < 2 ^ i) (ha : a % 2 ^ i = 0) : a ||| b = a + b := by
  obtain ⟨k, rfl⟩ : 2 ^ i ∣ a := Nat.dvd_of_mod_eq_zero ha
  exact (Nat.mul_add_lt_is_or hb k).symm

theorem and_63 (a : Nat) : a &&& 0x3F = a % 64 := Nat.and_pow_two_sub_one_eq_mod a 6

theorem join_sextets (s0 s1 s2 s3 : Nat) (h1 : s1 < 64) (h2 : s2 < 64) (h3 : s3 < 64) :
    s0 <<< 18 ||| s1 <<< 12 ||| s2 <<< 6 ||| s3 =
      s0 * 262144 + s1 * 4096 + s2 * 64 + s3 := by
  rw [or_eq_add (s0 <<< 18) (s1 <<< 12) 18 (by omega) (by omega),
    or_eq_add _ (s2 <<< 6) 12 (by omega) (by omega),
    or_eq_add _ s3 6 (by omega) (by omega)]
  omega

theorem join_bytes (a b c : Nat) (hb : b < 256) (hc : c < 256) :
    a <<< 16 ||| b <<< 8 ||| c = a * 65536 + b * 256 + c := by
  rw [or_eq_add (a <<< 16) (b <<< 8) 16 (by omega) (by omega),
    or_eq_add _ c 8 (by omega) (by omega)]
  omega

theorem byte_ofNat (x : Nat) (a : Byte) (h : x % 256 = a.val) : (Fin.ofNat x : Byte) = a :=
  Fin.ext h

theorem assemble_four (a b c : Byte) :
    assemble [(a.val <<< 16 ||| b.val <<< 8 ||| c.val) >>> 18 &&& 0x3F,
      (a.val <<< 16 ||| b.val <<< 8 ||| c.val) >>> 12 &&& 0x3F,
      (a.val <<< 16 ||| b.val <<< 8 ||| c.val) >>> 6 &&& 0x3F,
      (a.val <<< 16 ||| b.val <<< 8 ||| c.val) &&& 0x3F] = [a, b, c] := by
  have ha := a.isLt
  have hb := b.isLt
  have hc := c.isLt
  simp only [assemble, List.getD_cons_zero, List.getD_cons_succ, and_63,
    join_bytes a.val b.val c.val hb hc, List.length_cons, List.length_nil]
  rw [join_sextets _ _ _ _ (Nat.mod_lt _ (by decide)) (Nat.mod_lt _ (by decide))
    (Nat.mod_lt _ (by decide))]
  simp only [Nat.reduceAdd, Nat.add_one_sub_one, List.take_succ_cons, List.take_zero]
  rw [byte_ofNat _ a (by omega), byte_ofNat _ b (by omega), byte_ofNat _ c (by omega)]

theorem assemble_three (a b : Byte) :
    assemble [(a.val <<< 16 ||| b.val <<< 8) >>> 18 &&& 0x3F,
      (a.val <<< 16 ||| b.val <<< 8) >>> 12 &&& 0x3F,
      (a.val <<< 16 ||| b.val <<< 8) >>> 6 &&& 0x3F] = [a, b] := by
  have ha := a.isLt
  have hb := b.isLt
  have e : a.val <<< 16 ||| b.val <<< 8 = a.val * 65536 + b.val * 256 := by
    rw [or_eq_add (a.val <<< 16) (b.val <<< 8) 16 (by omega) (by omega)]
    omega
  simp only [assemble, List.getD_cons_zero, List.getD_cons_succ, and_63, e,
    List.length_cons, List.length_nil, List.getD_nil]
  rw [join_sextets _ _ _ _ (Nat.mod_lt _ (by decide)) (Nat.mod_lt _ (by decide))
    (by decide)]
  simp only [Nat.reduceAdd, Nat.add_one_sub_one, List.take_succ_cons, List.take_zero]
  rw [byte_ofNat _ a (by omega), byte_ofNat _ b (by omega)]

theorem assemble_two (a : Byte) :
    assemble [(a.val <<< 16) >>> 18 &&& 0x3F, (a.val <<< 16) >>> 12 &&& 0x3F] = [a] := by
  have ha := a.isLt
  simp only [assemble, List.getD_cons_zero, List.getD_cons_succ, and_63,
    List.length_cons, List.length_nil, List.getD_nil]
  rw [join_sextets _ _ _ _ (Nat.mod_lt _ (by decide)) (by decide) (by decide)]
  simp only [Nat.reduceAdd, Nat.add_one_sub_one, List.take_succ_cons, List.take_zero]
  rw [byte_ofNat _ a (by omega)]

theorem decodeMap_b64char : ∀ s : Fin 64, decodeMap (b64char s.val) = s.val := by
  decide

theorem decodeMap_sextet (x : Nat) : decodeMap (b64char (x &&& 0x3F)) = x &&& 0x3F := by
  have h : x &&& 0x3F < 64 := by
    rw [and_63]
    exact Nat.mod_lt _ (by decide)
  exact decodeMap_b64char ⟨x &&& 0x3F, h⟩

theorem sextet_ne_ff (x : Nat) : x &&& 0x3F ≠ 0xff := by
  rw [and_63]
  omega

theorem decodeFrom_sextet (dbuf : List Nat) (x : Nat) (cs : Str) :
    decodeFrom dbuf (b64char (x &&& 0x3F) :: cs) =
      if dbuf.length = 3 then
        (decodeFrom [] cs).map (assemble (dbuf ++ [x &&& 0x3F]) ++ ·)
      else decodeFrom (dbuf ++ [x &&& 0x3F]) cs := by
  rw [decodeFrom, decodeMap_sextet, if_pos (sextet_ne_ff x)]

theorem decodeFrom_pad2 (s0 s1 : Nat) :
    decodeFrom [s0, s1] [ch '=', ch '='] = some (assemble [s0, s1]) := by
  have h1 : decodeMap (ch '=') = 0xff := by decide
  have h2 : ¬ (ch '=' = ch '\n' ∨ ch '=' = ch '\r') := by decide
  simp [decodeFrom, h1, h2, skipNewlines]

theorem decodeFrom_pad3 (s0 s1 s2 : Nat) :
    decodeFrom [s0, s1, s2] [ch '='] = some (assemble [s0, s1, s2]) := by
  have h1 : decodeMap (ch '=') = 0xff := by decide
  have h2 : ¬ (ch '=' = ch '\n' ∨ ch '=' = ch '\r') := by decide
  simp [decodeFrom, h1, h2, skipNewlines]

/-- Decoding inverts the standard encoding. -/
theorem decodeString_encodeToString (bs : Bytes) :
    decodeString (encodeToString bs) = some bs := by
  unfold decodeString
  induction bs using encodeToString.induct with
  | case1 a b c rest ih =>
    simp only [encodeToString, decodeFrom_sextet, List.length_nil, List.length_cons,
      List.nil_append, List.cons_append, ih, Option.map_some', assemble_four]
    simp
  | case2 a b =>
    simp only [encodeToString, decodeFrom_sextet, List.length_nil, List.length_cons,
      List.nil_append, List.cons_append, decodeFrom_pad3, assemble_three]
    simp
  | case3 a =>
    simp only [encodeToString, decodeFrom_sextet, List.length_nil, List.length_cons,
      List.nil_append, List.cons_append, decodeFrom_pad2, assemble_two]
    simp
  | case4 => simp [encodeToString, decodeFrom]

theorem b64char_ne_colon (i : Nat) : b64char i ≠ ch ':' := by
  by_cases h : i < 64
  · have : ∀ s : Fin 64, b64char s.val ≠ ch ':' := by decide
    exact this ⟨i, h⟩
  · have hl : encodeStd.length = 64 := by decide
    have : b64char i = 0 := by
      unfold b64char
      rw [List.getD_eq_default]
      omega
    rw [this]
    decide

theorem encodeToString_no_colon (bs : Bytes) : ch ':' ∉ encodeToString bs := by
  have hc := fun i => (b64char_ne_colon i).symm
  have he : ch ':' ≠ ch '=' := by decide
  induction bs using encodeToString.induct with
  | case1 a b c rest ih => simp [encodeToString, hc, ih]
  | case2 a b => simp [encodeToString, hc, he]
  | case3 a => simp [encodeToString, hc, he]
  | case4 => simp [encodeToString]

/-! ## Lemmas: dispatch of well-formed commands -/

theorem turnpoke_command (env : Env) (st : Store) (verb args : Str) (h : ch ':' ∉ verb) :
    turnpoke env st (command verb args) =
      if verb = str "s" then pokeS env st args
      else if verb = str "c" then pokeC st args
      else if verb = str "e" then pokeE env st args
      else if verb = str "r" then pokeR st args
      else .error .unknownMethod st := by
  simp only [turnpoke, command, splitN_two _ _ _ h]

theorem maxAlloc_eq : (maxAlloc : Int) = 2 ^ 48 := by decide

theorem turnpoke_cmdS (env : Env) (st : Store) (n : Nat) :
    turnpoke env st (cmdS n) =
      if n ≤ 2 ^ 48 then
        .ok env.rnd.val
          { longReqs := st.longReqs.set env.rnd.val (some (List.replicate n (0 : Byte)))
            longReqValidUntils :=
              st.longReqValidUntils.set env.rnd.val (some (env.now + longReqValidity))
            longResps := st.longResps }
      else if n < 2 ^ 63 then .panic
      else .error (.num .outOfRange) st := by
  rw [cmdS, turnpoke_command _ _ _ _ (by decide), if_pos rfl, pokeS, parseInt_decimal]
  by_cases h : n < 2 ^ 63
  · by_cases h48 : n ≤ 2 ^ 48
    · have hn : ¬ ((n : Int) < 0 ∨ (n : Int) > (maxAlloc : Int)) := by
        rw [maxAlloc_eq]
        omega
      simp only [if_pos h, if_pos h48, if_neg hn, Int.toNat_ofNat]
    · have hn : (n : Int) < 0 ∨ (n : Int) > (maxAlloc : Int) := by
        rw [maxAlloc_eq]
        omega
      simp only [if_pos h, if_neg h48, if_pos hn]
  · have h48 : ¬ n ≤ 2 ^ 48 := by omega
    simp only [if_neg h, if_neg h48]

theorem turnpoke_cmdC (env : Env) (st : Store) (id : Bytes) (offset : Int) (content : Bytes) :
    turnpoke env st (cmdC id offset content) =
      if -2 ^ 63 ≤ offset ∧ offset < 2 ^ 63 then
        match st.longReqs id with
        | none => .error .unknownRequest st
        | some long =>
          if (content.length : Int) > wrap64 ((long.length : Int) - offset) then
            .error .contentTooLong st
          else if offset < 0 ∨ offset > (long.length : Int) then .panic
          else
            .ok id { st with longReqs := (st.longReqs.set id
              (some (long.take offset.toNat ++ goCopy (long.drop offset.toNat) content))) }
      else .error (.num .outOfRange) st := by
  have hv : ¬ str "c" = str "s" := by decide
  rw [cmdC, turnpoke_command _ _ _ _ (by decide), if_neg hv, if_pos rfl, pokeC,
    splitN_three _ _ _ _ (encodeToString_no_colon id) (decimalInt_no_colon offset)]
  simp only [List.getElem?_cons_zero, List.getElem?_cons_succ, decodeString_encodeToString,
    parseInt_decimalInt]
  by_cases h : -2 ^ 63 ≤ offset ∧ offset < 2 ^ 63
  · simp only [if_pos h]
  · simp only [if_neg h]

theorem turnpoke_cmdR (env : Env) (st : Store) (id : Bytes) (offset : Int) :
    turnpoke env st (cmdR id offset) =
      if -2 ^ 63 ≤ offset ∧ offset < 2 ^ 63 then
        match st.longResps id with
        | none => .error .unknownRequest st
        | some long =>
          if offset < 0 ∨ offset > (long.length : Int) then .panic
          else
            .ok (if (long.drop offset.toNat).length > 16 then (long.drop offset.toNat).take 16
              else long.drop offset.toNat) st
      else .error (.num .outOfRange) st := by
  have h1 : ¬ str "r" = str "s" := by decide
  have h2 : ¬ str "r" = str "c" := by decide
  have h3 : ¬ str "r" = str "e" := by decide
  rw [cmdR, turnpoke_command _ _ _ _ (by decide), if_neg h1, if_neg h2, if_neg h3, if_pos rfl,
    pokeR, splitN_two _ _ _ (encodeToString_no_colon id)]
  simp only [decodeString_encodeToString, parseInt_decimalInt]
  by_cases h : -2 ^ 63 ≤ offset ∧ offset < 2 ^ 63
  · simp only [if_pos h]
  · simp only [if_neg h]

theorem turnpoke_cmdE (env : Env) (st : Store) (id : Bytes) :
    turnpoke env st (cmdE id) = pokeE env st (encodeToString id) := by
  have h1 : ¬ str "e" = str "s" := by decide
  have h2 : ¬ str "e" = str "c" := by decide
  rw [cmdE, turnpoke_command _ _ _ _ (by decide), if_neg h1, if_neg h2, if_pos rfl]

theorem eBegin_encoded (env : Env) (st : Store) (id : Bytes) :
    eBegin env st (encodeToString id) =
      match st.longReqs id with
      | none => .error .unknownRequest
      | some longReq =>
        match env.inflate longReq with
        | none => .error .zlib
        | some decomped => .ok (id, decomped, { st with longReqs := st.longReqs.delete id }) := by
  simp only [eBegin, decodeString_encodeToString]

/-! ## Verb `c` (claims C3 and C9) and run-time panics (claim C4) -/

theorem copy_at (buf content : Bytes) (offset : Nat)
    (h : offset + content.length ≤ buf.length) :
    buf.take offset ++ goCopy (buf.drop offset) content =
      buf.take offset ++ (content ++ buf.drop (offset + content.length)) := by
  have h1 : content.length ≤ (buf.drop offset).length := by
    rw [List.length_drop]
    omega
  rw [goCopy, List.take_of_length_le h1, List.drop_drop]

theorem spliced_inside (buf content : Bytes) (offset i : Nat)
    (h : offset + content.length ≤ buf.length) (hi : i < content.length) :
    (buf.take offset ++ (content ++ buf.drop (offset + content.length)))[offset + i]? =
      content[i]? := by
  have hl : (buf.take offset).length = offset := by
    rw [List.length_take]
    omega
  rw [List.getElem?_append_right (by omega), hl, Nat.add_sub_cancel_left,
    List.getElem?_append_left hi]

theorem spliced_outside (buf content : Bytes) (offset i : Nat)
    (h : offset + content.length ≤ buf.length)
    (hi : i < offset ∨ offset + content.length ≤ i) :
    (buf.take offset ++ (content ++ buf.drop (offset + content.length)))[i]? = buf[i]? := by
  have hl : (buf.take offset).length = offset := by
    rw [List.length_take]
    omega
  rcases hi with hi | hi
  · rw [List.getElem?_append_left (by omega), List.getElem?_take_of_lt hi]
  · rw [List.getElem?_append_right (by omega), hl,
      List.getElem?_append_right (by omega), List.getElem?_drop]
    congr 1
    omega

/-- C3, as stated, fails: on a session with a 4-byte request buffer, offset -1 with a
3-byte content meets `offset + len(content) ≤ N` (2 ≤ 4), and the command panics in
`long[offset:]` instead of succeeding. -/
theorem verb_c_negative_offset_fails :
    ({ Store.empty with longReqs := Store.empty.longReqs.set [1] (some [0, 0, 0, 0]) } :
      Store).longReqs [1] = some [0, 0, 0, 0] ∧
    (-1 : Int) + (([7, 8, 9] : Bytes).length : Int) ≤ (([0, 0, 0, 0] : Bytes).length : Int) ∧
    turnpoke Env.quiet
      { Store.empty with longReqs := Store.empty.longReqs.set [1] (some [0, 0, 0, 0]) }
      (cmdC [1] (-1) [7, 8, 9]) = .panic := by
  refine ⟨by simp [GoMap.set], by decide, ?_⟩
  rw [turnpoke_cmdC, if_pos (by decide)]
  have hs : (Store.empty.longReqs.set [1] (some ([0, 0, 0, 0] : Bytes))) [1] =
      some [0, 0, 0, 0] := by simp [GoMap.set]
  simp only [hs]
  rw [if_neg (by decide), if_pos (by decide)]

/-- C3, amended: if the session `id` has a request buffer of `N` bytes, `0 ≤ offset` and
`offset + len(content) ≤ N`, the command `c:<base64 id>:<offset>:<base64 content>`
succeeds and returns the id; afterwards the buffer has the same length, its bytes at
`[offset, offset + len(content))` are `content`, and every other byte is as before. -/
theorem verb_c_write_frame (env : Env) (st : Store) (id buf content : Bytes) (offset : Int)
    (hbuf : st.longReqs id = some buf) (hlen : buf.length < 2 ^ 63)
    (hpos : 0 ≤ offset)
    (hfit : offset + (content.length : Int) ≤ (buf.length : Int)) :
    ∃ st2 buf2, turnpoke env st (cmdC id offset content) = .ok id st2 ∧
      st2.longReqs id = some buf2 ∧
      buf2.length = buf.length ∧
      (∀ i, i < content.length → buf2[offset.toNat + i]? = content[i]?) ∧
      (∀ i, i < offset.toNat ∨ offset.toNat + content.length ≤ i → buf2[i]? = buf[i]?) := by
  have hr : -2 ^ 63 ≤ offset ∧ offset < 2 ^ 63 := by omega
  have h1 : ¬ ((content.length : Int) > wrap64 ((buf.length : Int) - offset)) := by
    unfold wrap64
    omega
  have h2 : ¬ (offset < 0 ∨ offset > (buf.length : Int)) := by omega
  have hfit2 : offset.toNat + content.length ≤ buf.length := by omega
  rw [turnpoke_cmdC, if_pos hr, hbuf]
  simp only [if_neg h1, if_neg h2, copy_at buf content offset.toNat hfit2]
  refine ⟨_, buf.take offset.toNat ++ (content ++ buf.drop (offset.toNat + content.length)),
    rfl, by simp [GoMap.set], ?_, ?_, ?_⟩
  · simp only [List.length_append, List.length_take, List.length_drop]
    omega
  · exact fun i hi => spliced_inside buf content offset.toNat i hfit2 hi
  · exact fun i hi => spliced_outside buf content offset.toNat i hfit2 hi

theorem verb_c_write_frame_witness :
    ∃ st2 buf2,
      turnpoke Env.quiet
        { Store.empty with longReqs := Store.empty.longReqs.set [1] (some [0, 0, 0, 0]) }
        (cmdC [1] 1 [7, 8]) = .ok [1] st2 ∧
      st2.longReqs [1] = some buf2 ∧
      buf2.length = ([0, 0, 0, 0] : Bytes).length ∧
      (∀ i, i < ([7, 8] : Bytes).length → buf2[(1 : Int).toNat + i]? = ([7, 8] : Bytes)[i]?) ∧
      (∀ i, i < (1 : Int).toNat ∨ (1 : Int).toNat + ([7, 8] : Bytes).length ≤ i →
        buf2[i]? = ([0, 0, 0, 0] : Bytes)[i]?) :=
  verb_c_write_frame Env.quiet
    { Store.empty with longReqs := Store.empty.longReqs.set [1] (some [0, 0, 0, 0]) }
    [1] [0, 0, 0, 0] [7, 8] 1 (by simp [GoMap.set]) (by decide) (by decide) (by decide)

/-- C9: if the session is unknown, or `offset + len(content)` exceeds the length of its
request buffer, the command `c:<base64 id>:<offset>:<base64 content>` returns an error
and leaves all three maps as they were. -/
theorem verb_c_rejects (env : Env) (st : Store) (id content : Bytes) (offset : Int)
    (h : st.longReqs id = none ∨
      ∃ buf, st.longReqs id = some buf ∧ buf.length < 2 ^ 63 ∧
        offset + (content.length : Int) > (buf.length : Int)) :
    ∃ e, turnpoke env st (cmdC id offset content) = .error e st := by
  rw [turnpoke_cmdC]
  by_cases hr : -2 ^ 63 ≤ offset ∧ offset < 2 ^ 63
  · rw [if_pos hr]
    rcases h with h | ⟨buf, hbuf, hlen, hover⟩
    · rw [h]
      exact ⟨_, rfl⟩
    · rw [hbuf]
      have h1 : (content.length : Int) > wrap64 ((buf.length : Int) - offset) := by
        unfold wrap64
        omega
      simp only [if_pos h1]
      exact ⟨_, rfl⟩
  · rw [if_neg hr]
    exact ⟨_, rfl⟩

theorem verb_c_rejects_witness :
    ∃ e, turnpoke Env.quiet
      { Store.empty with longReqs := Store.empty.longReqs.set [1] (some [0, 0, 0, 0]) }
      (cmdC [1] 3 [7, 8]) = .error e
      { Store.empty with longReqs := Store.empty.longReqs.set [1] (some [0, 0, 0, 0]) } :=
  verb_c_rejects Env.quiet
    { Store.empty with longReqs := Store.empty.longReqs.set [1] (some [0, 0, 0, 0]) }
    [1] [7, 8] 3 (Or.inr ⟨[0, 0, 0, 0], by simp [GoMap.set], by decide, by decide⟩)

/-- C4 fails on the code: these commands make `turnpoke` panic instead of returning an
error.  A `c` command with fewer than three fields indexes `parts` out of range; `s`
with a negative length calls `make` with it; `c` with a negative offset passes the
length check and slices `long[offset:]`; `r` with an offset that is negative or beyond
the response slices `long[offset:]` unchecked. -/
theorem turnpoke_panics (env : Env) (st : Store) :
    turnpoke env st (str "c:AAAA") = .panic ∧
    turnpoke env st (str "c:AAAA:0") = .panic ∧
    turnpoke env st (str "s:-1") = .panic ∧
    (∃ st1, turnpoke env st (str "s:4") = .ok env.rnd.val st1 ∧
      turnpoke env st1 (cmdC env.rnd.val (-1) []) = .panic) ∧
    turnpoke env { st with longResps := st.longResps.set [0, 0, 0] (some [1, 2, 3]) }
      (str "r:AAAA:-1") = .panic ∧
    turnpoke env { st with longResps := st.longResps.set [0, 0, 0] (some [1, 2, 3]) }
      (str "r:AAAA:4") = .panic := by
  refine ⟨rfl, rfl, rfl, ⟨
    { longReqs := st.longReqs.set env.rnd.val (some (List.replicate 4 (0 : Byte)))
      longReqValidUntils :=
        st.longReqValidUntils.set env.rnd.val (some (env.now + longReqValidity))
      longResps := st.longResps }, rfl, ?_⟩, rfl, rfl⟩
  rw [turnpoke_cmdC, if_pos (by decide)]
  have hs : (st.longReqs.set env.rnd.val (some (List.replicate 4 (0 : Byte)))) env.rnd.val
      = some (List.replicate 4 (0 : Byte)) := by simp [GoMap.set]
  simp only [hs]
  rw [if_neg (by decide), if_pos (by decide)]

/-! ## Verb `e` (claim C5) -/

theorem reapLong_cases (t : Time) (st : Store) (id : Str) :
    ((reapLong t st).longReqValidUntils id = none ∧ (reapLong t st).longReqs id = none ∧
      (reapLong t st).longResps id = none) ∨
    ((reapLong t st).longReqValidUntils id = st.longReqValidUntils id ∧
      (reapLong t st).longReqs id = st.longReqs id ∧
      (reapLong t st).longResps id = st.longResps id) := by
  by_cases h : expiredAt st t id = true
  · left
    simp [reapLong, h]
  · right
    simp [reapLong, h]

theorem reapFold_cases (ts : List Time) (id : Str) : ∀ st : Store,
    ((ts.foldl (fun s t => reapLong t s) st).longReqValidUntils id = none ∧
      (ts.foldl (fun s t => reapLong t s) st).longReqs id = none ∧
      (ts.foldl (fun s t => reapLong t s) st).longResps id = none) ∨
    ((ts.foldl (fun s t => reapLong t s) st).longReqValidUntils id = st.longReqValidUntils id ∧
      (ts.foldl (fun s t => reapLong t s) st).longReqs id = st.longReqs id ∧
      (ts.foldl (fun s t => reapLong t s) st).longResps id = st.longResps id) := by
  induction ts with
  | nil => intro st; right; exact ⟨rfl, rfl, rfl⟩
  | cons t ts ih =>
    intro st
    rw [List.foldl_cons]
    rcases ih (reapLong t st) with h | ⟨h1, h2, h3⟩
    · left; exact h
    · rw [h1, h2, h3]
      exact reapLong_cases t st id

theorem putUint32_length (v : Nat) : (putUint32 v).length = 4 := rfl

theorem beUint32_putUint32 (v : Nat) (h : v < 2 ^ 32) : beUint32 (putUint32 v) = v := by
  have e : ∀ x : Nat, ((Fin.ofNat x : Byte) : Nat) = x % 256 := fun _ => rfl
  simp only [putUint32, beUint32, e]
  rw [or_eq_add ((v >>> 24 % 256) <<< 24) ((v >>> 16 % 256) <<< 16) 24 (by omega) (by omega),
    or_eq_add _ ((v >>> 8 % 256) <<< 8) 16 (by omega) (by omega),
    or_eq_add _ (v % 256) 8 (by omega) (by omega)]
  omega

/-- C5: if the buffered request of session `id` inflates and the deadline entry of `id`
is still present when the lock is re-acquired, then `e:<base64 id>` returns four bytes
that decode big-endian to the length of the compressed response (when that is below
2^32); afterwards the session has no request buffer, its response buffer holds exactly
the compressed response, and its deadline is the one it had before the call. -/
theorem verb_e_post (env : Env) (st : Store) (id longReq decomped : Bytes) (d : Time)
    (hreq : st.longReqs id = some longReq)
    (hinfl : env.inflate longReq = some decomped)
    (hlive : (env.reaps.foldl (fun s t => reapLong t s)
      { st with longReqs := st.longReqs.delete id }).longReqValidUntils id = some d)
    (hlen : (env.deflate (env.turnx decomped)).length < 2 ^ 32) :
    ∃ payload st2, turnpoke env st (cmdE id) = .ok payload st2 ∧
      payload.length = 4 ∧
      beUint32 payload = (env.deflate (env.turnx decomped)).length ∧
      st2.longReqs id = none ∧
      (st2.longResps id).getD [] = env.deflate (env.turnx decomped) ∧
      (env.deflate (env.turnx decomped) ≠ [] →
        st2.longResps id = some (env.deflate (env.turnx decomped))) ∧
      st2.longReqValidUntils id = some d ∧
      st.longReqValidUntils id = some d := by
  rw [turnpoke_cmdE, pokeE, eBegin_encoded, hreq]
  simp only [hinfl, eFinish, hlive]
  have hc := reapFold_cases env.reaps id { st with longReqs := st.longReqs.delete id }
  rw [hlive] at hc
  rcases hc with ⟨h, -, -⟩ | ⟨h1, h2, -⟩
  · exact absurd h (by simp)
  · refine ⟨_, _, rfl, putUint32_length _, ?_, ?_, ?_, ?_, hlive, h1.symm⟩
    · rw [lenBytes, Nat.mod_eq_of_lt hlen, beUint32_putUint32 _ hlen]
    · rw [h2]
      simp [GoMap.delete]
    · by_cases hne : env.deflate (env.turnx decomped) = []
      · simp [GoMap.set, bufferBytes, hne]
      · simp [GoMap.set, bufferBytes, hne]
    · intro hne
      simp [GoMap.set, bufferBytes, hne]

theorem verb_e_post_witness :
    ∃ payload st2,
      turnpoke Env.quiet
        { longReqs := Store.empty.longReqs.set [1] (some [0x78, 71, 69, 84])
          longReqValidUntils := Store.empty.longReqValidUntils.set [1] (some 30)
          longResps := Store.empty.longResps } (cmdE [1]) = .ok payload st2 ∧
      payload.length = 4 ∧
      beUint32 payload = (Env.quiet.deflate (Env.quiet.turnx [71, 69, 84])).length ∧
      st2.longReqs [1] = none ∧
      (st2.longResps [1]).getD [] = Env.quiet.deflate (Env.quiet.turnx [71, 69, 84]) ∧
      (Env.quiet.deflate (Env.quiet.turnx [71, 69, 84]) ≠ [] →
        st2.longResps [1] = some (Env.quiet.deflate (Env.quiet.turnx [71, 69, 84]))) ∧
      st2.longReqValidUntils [1] = some 30 ∧
      (Store.mk (Store.empty.longReqValidUntils.set [1] (some 30))
        (Store.empty.longReqs.set [1] (some [0x78, 71, 69, 84]))
        Store.empty.longResps).longReqValidUntils [1] = some 30 :=
  verb_e_post Env.quiet
    { longReqs := Store.empty.longReqs.set [1] (some [0x78, 71, 69, 84])
      longReqValidUntils := Store.empty.longReqValidUntils.set [1] (some 30)
      longResps := Store.empty.longResps }
    [1] [0x78, 71, 69, 84] [71, 69, 84] 30 (by simp [GoMap.set]) rfl
    (by simp [Env.quiet, GoMap.set]) (by decide)

/-! ## Verb `r` (claims C6 and C7) -/

theorem turnpoke_cmdR_stored (env : Env) (st : Store) (id R : Bytes) (offset : Nat)
    (hR : st.longResps id = some R) (hlen : R.length < 2 ^ 63) (hoff : offset ≤ R.length) :
    turnpoke env st (cmdR id offset) = .ok ((R.drop offset).take 16) st := by
  have hr : -2 ^ 63 ≤ (offset : Int) ∧ (offset : Int) < 2 ^ 63 := by omega
  have h2 : ¬ ((offset : Int) < 0 ∨ (offset : Int) > (R.length : Int)) := by omega
  rw [turnpoke_cmdR, if_pos hr, hR]
  simp only [if_neg h2, Int.toNat_ofNat]
  by_cases h : (R.drop offset).length > 16
  · rw [if_pos h]
  · rw [if_neg h, List.take_of_length_le (by omega)]

theorem slice_eq (R : Bytes) (offset : Nat) :
    (R.take (min (offset + 16) R.length)).drop offset = (R.drop offset).take 16 := by
  rw [List.drop_take]
  by_cases h : offset + 16 ≤ R.length
  · rw [Nat.min_eq_left h, Nat.add_sub_cancel_left]
  · have h1 : (R.drop offset).length = R.length - offset := List.length_drop _ _
    rw [Nat.min_eq_right (by omega), List.take_of_length_le (by omega),
      List.take_of_length_le (by omega)]

theorem readFrom_stored (env : Env) (st : Store) (id R : Bytes)
    (hR : st.longResps id = some R) (hlen : R.length < 2 ^ 63) :
    ∀ k offset, (k = 0 ∨ offset + 16 * (k - 1) ≤ R.length) →
      readFrom env id k offset st = some ((R.drop offset).take (16 * k)) := by
  intro k
  induction k with
  | zero => intro offset _; simp [readFrom]
  | succ k ih =>
    intro offset h
    have hoff : offset ≤ R.length := by omega
    rw [readFrom, turnpoke_cmdR_stored env st id R offset hR hlen hoff]
    simp only []
    rw [ih (offset + 16) (by omega)]
    simp only [Option.map_some', Option.some.injEq]
    rw [Nat.mul_succ, Nat.add_comm (16 * k) 16, List.take_add, List.drop_drop]

theorem readAll_stored (env : Env) (st : Store) (id R : Bytes)
    (hR : st.longResps id = some R) (hlen : R.length < 2 ^ 63) :
    readAll env id R.length st = some R := by
  rw [readAll, readFrom_stored env st id R hR hlen _ 0 (by omega), List.drop_zero,
    List.take_of_length_le (by omega)]

/-- C6: if session `id` has the stored response `R` and `0 ≤ offset ≤ len(R)`, the command
`r:<base64 id>:<offset>` succeeds, leaves the store as it was and returns
`R[offset : min(offset+16, len(R))]`, a slice of at most 16 bytes. -/
theorem verb_r_slice (env : Env) (st : Store) (id R : Bytes) (offset : Nat)
    (hR : st.longResps id = some R) (hlen : R.length < 2 ^ 63) (hoff : offset ≤ R.length) :
    turnpoke env st (cmdR id offset) =
      .ok ((R.take (min (offset + 16) R.length)).drop offset) st ∧
    ((R.take (min (offset + 16) R.length)).drop offset).length ≤ 16 := by
  rw [slice_eq]
  exact ⟨turnpoke_cmdR_stored env st id R offset hR hlen hoff,
    by rw [List.length_take]; exact Nat.min_le_left _ _⟩

theorem verb_r_slice_witness :
    turnpoke Env.quiet
      { Store.empty with longResps := Store.empty.longResps.set [1] (some [5, 6, 7]) }
      (cmdR [1] (2 : Nat)) =
      .ok ((([5, 6, 7] : Bytes).take (min (2 + 16) ([5, 6, 7] : Bytes).length)).drop 2)
        { Store.empty with longResps := Store.empty.longResps.set [1] (some [5, 6, 7]) } ∧
    ((([5, 6, 7] : Bytes).take (min (2 + 16) ([5, 6, 7] : Bytes).length)).drop 2).length ≤ 16 :=
  verb_r_slice Env.quiet
    { Store.empty with longResps := Store.empty.longResps.set [1] (some [5, 6, 7]) }
    [1] [5, 6, 7] 2 (by simp [GoMap.set]) (by decide) (by decide)

theorem turnpoke_cmdE_ok (env : Env) (st : Store) (id longReq decomped : Bytes) (d : Time)
    (hreq : st.longReqs id = some longReq) (hinfl : env.inflate longReq = some decomped)
    (hlive : (env.reaps.foldl (fun s t => reapLong t s)
      { st with longReqs := st.longReqs.delete id }).longReqValidUntils id = some d) :
    turnpoke env st (cmdE id) =
      .ok (lenBytes (env.deflate (env.turnx decomped)))
        { env.reaps.foldl (fun s t => reapLong t s)
            { st with longReqs := st.longReqs.delete id } with
          longResps := (env.reaps.foldl (fun s t => reapLong t s)
            { st with longReqs := st.longReqs.delete id }).longResps.set id
              (bufferBytes (env.deflate (env.turnx decomped))) } := by
  rw [turnpoke_cmdE, pokeE, eBegin_encoded, hreq]
  simp only [hinfl, eFinish, hlive]

theorem readAll_after_e (env2 : Env) (st : Store) (id comped : Bytes)
    (hlen : comped.length < 2 ^ 63) :
    readAll env2 id comped.length
      { st with longResps := st.longResps.set id (bufferBytes comped) } = some comped := by
  by_cases hne : comped = []
  · subst hne
    rfl
  · apply readAll_stored _ _ _ _ _ hlen
    simp [GoMap.set, bufferBytes, hne]

theorem beUint32_lenBytes (comped : Bytes) :
    beUint32 (lenBytes comped) = comped.length % 2 ^ 32 :=
  beUint32_putUint32 _ (Nat.mod_lt _ (by decide))

theorem flood_comped : Env.flood.deflate (Env.flood.turnx []) = 0x78 :: bigResponse := rfl

theorem flood_length : (Env.flood.deflate (Env.flood.turnx [])).length = 2 ^ 32 + 1 := by
  rw [flood_comped, List.length_cons, bigResponse, List.length_replicate]

/-- C7, as stated, fails: `s:1` creates a session, `e` on it gets a response of 2^32 + 1
compressed bytes and reports the four bytes that decode to 1; the paginated read then
returns all 2^32 + 1 bytes. -/
theorem paginated_read_length_fails :
    ∃ st1 payload st2 total,
      turnpoke Env.flood Store.empty (str "s:1") = .ok Env.flood.rnd.val st1 ∧
      turnpoke Env.flood st1 (cmdE Env.flood.rnd.val) = .ok payload st2 ∧
      beUint32 payload = 1 ∧
      readAll Env.flood Env.flood.rnd.val (2 ^ 32 + 1) st2 = some total ∧
      total.length = 2 ^ 32 + 1 := by
  have hs : turnpoke Env.flood Store.empty (str "s:1") = .ok Env.flood.rnd.val
      (Store.mk (Store.empty.longReqValidUntils.set Env.flood.rnd.val (some 30000000000))
        (Store.empty.longReqs.set Env.flood.rnd.val (some [0])) Store.empty.longResps) := rfl
  have he := turnpoke_cmdE_ok Env.flood
    (Store.mk (Store.empty.longReqValidUntils.set Env.flood.rnd.val (some 30000000000))
      (Store.empty.longReqs.set Env.flood.rnd.val (some [0])) Store.empty.longResps)
    Env.flood.rnd.val [0] [] 30000000000 (by simp [GoMap.set]) rfl
    (by simp [Env.flood, Env.quiet, GoMap.set])
  have hread := readAll_after_e Env.flood
    (Env.flood.reaps.foldl (fun s t => reapLong t s)
      { Store.mk (Store.empty.longReqValidUntils.set Env.flood.rnd.val (some 30000000000))
          (Store.empty.longReqs.set Env.flood.rnd.val (some [0])) Store.empty.longResps with
        longReqs := (Store.empty.longReqs.set Env.flood.rnd.val (some [0])).delete
          Env.flood.rnd.val })
    Env.flood.rnd.val (Env.flood.deflate (Env.flood.turnx []))
    (by rw [flood_length]; decide)
  rw [flood_length] at hread
  refine ⟨_, _, _, _, hs, he, ?_, hread, flood_length⟩
  rw [beUint32_lenBytes, flood_length]
  decide

/-- C7, amended: if `e` on session `id` succeeds with compressed response `R`, the four
bytes it reports decode to `len(R)` modulo 2^32, and concatenating the payloads of the
`r` commands at offsets 0, 16, 32, ... (every multiple of 16 below `len(R)`) yields
exactly `R`; so the number of bytes obtained equals the reported length when `len(R)` is
below 2^32.  The reassembly holds for every stored response. -/
theorem paginated_read (env env2 : Env) (st : Store) (id longReq decomped : Bytes)
    (d : Time) (hreq : st.longReqs id = some longReq)
    (hinfl : env.inflate longReq = some decomped)
    (hlive : (env.reaps.foldl (fun s t => reapLong t s)
      { st with longReqs := st.longReqs.delete id }).longReqValidUntils id = some d)
    (hlen : (env.deflate (env.turnx decomped)).length < 2 ^ 63) :
    (∃ payload st2, turnpoke env st (cmdE id) = .ok payload st2 ∧
      readAll env2 id (env.deflate (env.turnx decomped)).length st2 =
        some (env.deflate (env.turnx decomped)) ∧
      beUint32 payload = (env.deflate (env.turnx decomped)).length % 2 ^ 32 ∧
      ((env.deflate (env.turnx decomped)).length < 2 ^ 32 →
        beUint32 payload = (env.deflate (env.turnx decomped)).length)) ∧
    (∀ (st3 : Store) (R : Bytes), st3.longResps id = some R → R.length < 2 ^ 63 →
      readAll env2 id R.length st3 = some R) := by
  refine ⟨⟨_, _, turnpoke_cmdE_ok env st id longReq decomped d hreq hinfl hlive,
    readAll_after_e env2 _ id _ hlen, beUint32_lenBytes _, fun h => ?_⟩,
    fun st3 R hR hl => readAll_stored env2 st3 id R hR hl⟩
  rw [beUint32_lenBytes, Nat.mod_eq_of_lt h]

theorem paginated_read_witness :
    (∃ payload st2,
      turnpoke Env.quiet
        (Store.mk (Store.empty.longReqValidUntils.set [1] (some 30))
        (Store.empty.longReqs.set [1] (some (0x78 :: List.replicate 39 7))) Store.empty.longResps) (cmdE [1]) = .ok payload st2 ∧
      readAll Env.quiet [1]
        (Env.quiet.deflate (Env.quiet.turnx (List.replicate 39 7))).length st2 =
        some (Env.quiet.deflate (Env.quiet.turnx (List.replicate 39 7))) ∧
      beUint32 payload =
        (Env.quiet.deflate (Env.quiet.turnx (List.replicate 39 7))).length % 2 ^ 32 ∧
      ((Env.quiet.deflate (Env.quiet.turnx (List.replicate 39 7))).length < 2 ^ 32 →
        beUint32 payload =
          (Env.quiet.deflate (Env.quiet.turnx (List.replicate 39 7))).length)) ∧
    (∀ (st3 : Store) (R : Bytes), st3.longResps [1] = some R → R.length < 2 ^ 63 →
      readAll Env.quiet [1] R.length st3 = some R) :=
  paginated_read Env.quiet Env.quiet
    (Store.mk (Store.empty.longReqValidUntils.set [1] (some 30))
        (Store.empty.longReqs.set [1] (some (0x78 :: List.replicate 39 7))) Store.empty.longResps)
    [1] (0x78 :: List.replicate 39 7) (List.replicate 39 7) 30 (by simp [GoMap.set]) rfl
    (by simp [Env.quiet, GoMap.set]) (by decide)

/-! ## Verb `s` and the session id (claims C8 and C10) -/

theorem wrap64_range (x : Int) : -2 ^ 63 ≤ wrap64 x ∧ wrap64 x < 2 ^ 63 := by
  unfold wrap64
  omega

theorem parseInt_range (s : Str) (l : Int) (h : parseInt s = .ok l) :
    -2 ^ 63 ≤ l ∧ l < 2 ^ 63 := by
  cases s with
  | nil => simp [parseInt] at h
  | cons c cs =>
    simp only [parseInt] at h
    generalize parseUint (if c = ch '+' ∨ c = ch '-' then cs else c :: cs) = r at h
    obtain ⟨un, err⟩ := r
    rcases err with _ | e
    · simp only at h
      split_ifs at h <;> simp only [Except.ok.injEq, reduceCtorEq] at h <;>
        (rw [← h]; exact wrap64_range _)
    · cases e
      · simp at h
      · simp only at h
        split_ifs at h <;> simp only [Except.ok.injEq, reduceCtorEq] at h <;>
          (rw [← h]; exact wrap64_range _)

theorem pokeS_ok (env : Env) (st st1 : Store) (args : Str) (id : Bytes)
    (h : pokeS env st args = .ok id st1) :
    id = env.rnd.val ∧ ∃ n : Nat, n < 2 ^ 63 ∧
      st1.longReqs = st.longReqs.set id (some (List.replicate n (0 : Byte))) ∧
      st1.longReqValidUntils = st.longReqValidUntils.set id (some (env.now + longReqValidity)) ∧
      st1.longResps = st.longResps := by
  unfold pokeS at h
  split at h
  · exact absurd h (by simp)
  · rename_i l hl
    have hr := parseInt_range _ _ hl
    split at h
    · exact absurd h (by simp)
    · simp only [Outcome.ok.injEq] at h
      obtain ⟨h1, h2⟩ := h
      subst h2
      subst h1
      exact ⟨rfl, l.toNat, by omega, rfl, rfl, rfl⟩

/-- C8, as stated, fails: the decimal length 2^63 is outside the range of
`strconv.ParseInt(args, 10, 64)`, so `s:9223372036854775808` returns an error and
creates no session; and the length 2^48 + 1, which parses, makes `make` panic. -/
theorem verb_s_length_fails :
    cmdS (2 ^ 63) = str "s:9223372036854775808" ∧
    turnpoke Env.quiet Store.empty (str "s:9223372036854775808") =
      .error (.num .outOfRange) Store.empty ∧
    turnpoke Env.quiet Store.empty (str "s:281474976710657") = .panic := by
  refine ⟨?_, rfl, rfl⟩
  simp [cmdS, command, decimal, str, digitByte]
  decide

/-- C8, amended: for every decimal length `N` with `0 ≤ N ≤ 2^48` (the largest length
`make` accepts) and every store, `s:N` at time `now` with a fresh random id returns that
16-byte id; immediately afterwards the store holds under the id a request buffer of
exactly `N` zero bytes, no response buffer, and a deadline `d` with
`now < d ≤ now + 30 s`.  A length of 2^63 or more is rejected with a range error. -/
theorem verb_s_post (env : Env) (st : Store) (N : Nat) (hN : N ≤ 2 ^ 48)
    (hfresh : st.longResps env.rnd.val = none) :
    ∃ st2, turnpoke env st (cmdS N) = .ok env.rnd.val st2 ∧
      env.rnd.val.length = 16 ∧
      st2.longReqs env.rnd.val = some (List.replicate N (0 : Byte)) ∧
      st2.longResps env.rnd.val = none ∧
      ∃ d, st2.longReqValidUntils env.rnd.val = some d ∧
        env.now < d ∧ d ≤ env.now + 30 * 1000000000 := by
  rw [turnpoke_cmdS, if_pos hN]
  refine ⟨_, rfl, env.rnd.property, by simp [GoMap.set], hfresh,
    env.now + longReqValidity, by simp [GoMap.set], ?_, ?_⟩
  · exact Int.lt_add_of_pos_right _ (by decide)
  · exact Int.le_refl _

theorem verb_s_post_witness :
    ∃ st2, turnpoke Env.quiet Store.empty (cmdS 5) = .ok Env.quiet.rnd.val st2 ∧
      Env.quiet.rnd.val.length = 16 ∧
      st2.longReqs Env.quiet.rnd.val = some (List.replicate 5 (0 : Byte)) ∧
      st2.longResps Env.quiet.rnd.val = none ∧
      ∃ d, st2.longReqValidUntils Env.quiet.rnd.val = some d ∧
        Env.quiet.now < d ∧ d ≤ Env.quiet.now + 30 * 1000000000 :=
  verb_s_post Env.quiet Store.empty 5 (by decide) rfl

theorem turnpoke_cmdC_payload (env : Env) (st st2 : Store) (id content payload : Bytes)
    (offset : Int) (h : turnpoke env st (cmdC id offset content) = .ok payload st2) :
    payload = id := by
  rw [turnpoke_cmdC] at h
  split_ifs at h
  · split at h
    · exact absurd h (by simp)
    · split_ifs at h
      simp only [Outcome.ok.injEq] at h
      exact h.1.symm

/-- C10: for every id returned by a successful `s`, the id has 16 bytes and its standard
base64 encoding decodes to it; a following `c` that carries the encoding and stays
inside the buffer succeeds, and every successful `c` returns the raw id; a following `e`
finds the request buffer stored under the raw id; and `r` looks the response up under
the raw id. -/
theorem session_id_identity (env env2 : Env) (st st1 : Store) (args : Str) (id : Bytes)
    (hs : turnpoke env st (command (str "s") args) = .ok id st1) :
    id.length = 16 ∧
    decodeString (encodeToString id) = some id ∧
    (∃ buf, st1.longReqs id = some buf ∧
      (∀ (offset : Nat) (content : Bytes), offset + content.length ≤ buf.length →
        ∃ st2, turnpoke env2 st1 (cmdC id offset content) = .ok id st2) ∧
      (∀ (offset : Int) (content payload : Bytes) (st2 : Store),
        turnpoke env2 st1 (cmdC id offset content) = .ok payload st2 → payload = id) ∧
      eBegin env2 st1 (encodeToString id) =
        match env2.inflate buf with
        | none => .error .zlib
        | some decomped =>
          .ok (id, decomped, { st1 with longReqs := st1.longReqs.delete id })) ∧
    (∀ (st3 : Store) (R : Bytes), st3.longResps id = some R → R.length < 2 ^ 63 →
      turnpoke env2 st3 (cmdR id 0) = .ok (R.take 16) st3) := by
  rw [turnpoke_command _ _ _ _ (by decide), if_pos rfl] at hs
  obtain ⟨hid, n, hn, hreqs, -, -⟩ := pokeS_ok env st st1 args id hs
  have hbuf : st1.longReqs id = some (List.replicate n (0 : Byte)) := by
    rw [hreqs]
    simp [GoMap.set]
  refine ⟨by rw [hid]; exact env.rnd.property, decodeString_encodeToString id,
    ⟨_, hbuf, ?_, fun offset content payload st2 h =>
      turnpoke_cmdC_payload env2 st1 st2 id content payload offset h, ?_⟩, ?_⟩
  · intro offset content hfit
    rw [List.length_replicate] at hfit
    have hr : -2 ^ 63 ≤ (offset : Int) ∧ (offset : Int) < 2 ^ 63 := by omega
    have h1 : ¬ ((content.length : Int) >
        wrap64 (((List.replicate n (0 : Byte)).length : Int) - offset)) := by
      rw [List.length_replicate]
      unfold wrap64
      omega
    have h2 : ¬ ((offset : Int) < 0 ∨
        (offset : Int) > ((List.replicate n (0 : Byte)).length : Int)) := by
      rw [List.length_replicate]
      omega
    rw [turnpoke_cmdC, if_pos hr, hbuf]
    simp only [if_neg h1, if_neg h2]
    exact ⟨_, rfl⟩
  · rw [eBegin_encoded, hbuf]
  · intro st3 R hR hlen
    have h := turnpoke_cmdR_stored env2 st3 id R 0 hR hlen (Nat.zero_le _)
    simpa using h

theorem session_id_identity_witness :
    Env.quiet.rnd.val.length = 16 ∧
    decodeString (encodeToString Env.quiet.rnd.val) = some Env.quiet.rnd.val ∧
    (∃ buf, (Store.mk
        (Store.empty.longReqValidUntils.set Env.quiet.rnd.val (some (0 + longReqValidity)))
        (Store.empty.longReqs.set Env.quiet.rnd.val (some (List.replicate 2 (0 : Byte))))
        Store.empty.longResps).longReqs Env.quiet.rnd.val = some buf ∧
      (∀ (offset : Nat) (content : Bytes), offset + content.length ≤ buf.length →
        ∃ st2, turnpoke Env.quiet (Store.mk
          (Store.empty.longReqValidUntils.set Env.quiet.rnd.val (some (0 + longReqValidity)))
          (Store.empty.longReqs.set Env.quiet.rnd.val (some (List.replicate 2 (0 : Byte))))
          Store.empty.longResps) (cmdC Env.quiet.rnd.val offset content) =
          .ok Env.quiet.rnd.val st2) ∧
      (∀ (offset : Int) (content payload : Bytes) (st2 : Store),
        turnpoke Env.quiet (Store.mk
          (Store.empty.longReqValidUntils.set Env.quiet.rnd.val (some (0 + longReqValidity)))
          (Store.empty.longReqs.set Env.quiet.rnd.val (some (List.replicate 2 (0 : Byte))))
          Store.empty.longResps) (cmdC Env.quiet.rnd.val offset content) = .ok payload st2 →
        payload = Env.quiet.rnd.val) ∧
      eBegin Env.quiet (Store.mk
          (Store.empty.longReqValidUntils.set Env.quiet.rnd.val (some (0 + longReqValidity)))
          (Store.empty.longReqs.set Env.quiet.rnd.val (some (List.replicate 2 (0 : Byte))))
          Store.empty.longResps) (encodeToString Env.quiet.rnd.val) =
        match Env.quiet.inflate buf with
        | none => .error .zlib
        | some decomped =>
          .ok (Env.quiet.rnd.val, decomped,
            { Store.mk
                (Store.empty.longReqValidUntils.set Env.quiet.rnd.val
                  (some (0 + longReqValidity)))
                (Store.empty.longReqs.set Env.quiet.rnd.val
                  (some (List.replicate 2 (0 : Byte))))
                Store.empty.longResps with
              longReqs := (Store.empty.longReqs.set Env.quiet.rnd.val
                (some (List.replicate 2 (0 : Byte)))).delete Env.quiet.rnd.val })) ∧
    (∀ (st3 : Store) (R : Bytes), st3.longResps Env.quiet.rnd.val = some R →
      R.length < 2 ^ 63 →
      turnpoke Env.quiet st3 (cmdR Env.quiet.rnd.val 0) = .ok (R.take 16) st3) :=
  session_id_identity Env.quiet Env.quiet Store.empty
    (Store.mk
      (Store.empty.longReqValidUntils.set Env.quiet.rnd.val (some (0 + longReqValidity)))
      (Store.empty.longReqs.set Env.quiet.rnd.val (some (List.replicate 2 (0 : Byte))))
      Store.empty.longResps)
    (str "2") Env.quiet.rnd.val rfl

/-! ## The relay port (claim C20) -/

/-- C20: for every payload (any length, any bytes) the ALLOCATE branch computes the port
`0xC000 | (L << 8) | payload[0]` with `L = min(len(payload), 16)` (the first byte being 0
for the empty payload), and this port lies in 49152..65535, so it fits in 16 bits. -/
theorem relay_port_range (payload : Bytes) :
    ∃ r, allocateRelay payload = some r ∧
      r.port = 0xC000 ||| (min payload.length 16 <<< 8) ||| (payload.headD 0).val ∧
      49152 ≤ r.port ∧ r.port ≤ 65535 ∧ r.port < 2 ^ 16 := by
  by_cases h : payload.length ≤ 16
  · have hb := port_bits ⟨payload.length, by omega⟩ (payload.headD 0)
    simp only at hb
    obtain ⟨-, -, -, -, -, h1, h2⟩ := hb
    refine ⟨_, allocateRelay_of_le payload h, ?_, h1, h2, Nat.lt_succ_of_le h2⟩
    rw [Nat.min_eq_left h]
  · cases payload with
    | nil => exact absurd (Nat.zero_le 16) h
    | cons a t =>
      have hb := port_bits ⟨16, by decide⟩ a
      simp only at hb
      obtain ⟨-, -, -, -, -, h1, h2⟩ := hb
      have hl : (a :: t).length > 16 := by omega
      have hm : min (a :: t).length 16 = 16 := by omega
      refine ⟨⟨(0xfc : Byte) :: t.take 15, 0xc000 ||| (16 <<< 8) ||| a.val⟩, ?_, ?_, h1, h2,
        Nat.lt_succ_of_le h2⟩
      · simp only [allocateRelay, padPayload, if_pos hl, List.take_succ_cons]
      · rw [hm, List.headD_cons]

/-! ## The unauthorized response (claim C12) -/

set_option maxRecDepth 100000 in
theorem hex_digits : ∀ b : Byte,
    hextable.getD (b.val >>> 4) 0 ∈ hextable ∧ hextable.getD (b.val &&& 0x0f) 0 ∈ hextable := by
  decide

theorem hexEncodeToString_length (b : Bytes) :
    (hexEncodeToString b).length = 2 * b.length := by
  induction b with
  | nil => rfl
  | cons a t ih =>
    simp only [hexEncodeToString, List.length_cons, ih]
    omega

theorem hexEncodeToString_digits (b : Bytes) : ∀ c ∈ hexEncodeToString b, c ∈ hextable := by
  induction b with
  | nil => simp [hexEncodeToString]
  | cons a t ih =>
    intro c hc
    simp only [hexEncodeToString, List.mem_cons] at hc
    rcases hc with hc | hc | hc
    · rw [hc]
      exact (hex_digits a).1
    · rw [hc]
      exact (hex_digits a).2
    · exact ih c hc

/-- C12, as stated, fails: with a random source that yields 24 zero bytes the NONCE of
the unauthorized response is the string of 48 characters `0`, not one of 24. -/
theorem unauth_nonce_length_fails :
    genUnauthResponse World.quiet (Message.authenticated .allocate (str "turnrpc:s:0") []) =
      some [.transactionID (List.replicate 12 7),
        .msgType .allocate .errorResponse,
        .errorCode 401 (str "Unauthorized"),
        .nonce (List.replicate 48 (ch '0')),
        .realm realm,
        .software software] ∧
    (List.replicate 48 (ch '0')).length ≠ 24 := by
  decide

/-- C12, amended: whenever `rand.Read` fills the 24-byte slice, the NONCE attribute that
`genUnauthResponse` attaches is `randHex(24)`, a string of exactly 48 characters, each
of them a hexadecimal digit (24 random bytes, 192 bits); the response is the error
response of the request's method with the request's transaction id, code 401
"Unauthorized", the nonce, the realm and the software name. -/
theorem unauth_nonce_length (w : World) (msg : Message)
    (b : { l : Bytes // l.length = 24 }) (hread : w.entropy = some b) :
    ∃ nonce, randHex 24 w.entropy = some nonce ∧
      genUnauthResponse w msg =
        some [.transactionID msg.transactionID,
          .msgType msg.method .errorResponse,
          .errorCode 401 (str "Unauthorized"),
          .nonce nonce,
          .realm realm,
          .software software] ∧
      nonce.length = 48 ∧
      ∀ c ∈ nonce, c ∈ hextable := by
  refine ⟨hexEncodeToString b.val, by rw [hread]; rfl, by simp [genUnauthResponse, hread, randHex],
    ?_, hexEncodeToString_digits b.val⟩
  rw [hexEncodeToString_length, b.property]

theorem unauth_nonce_length_witness :
    ∃ nonce, randHex 24 World.quiet.entropy = some nonce ∧
      genUnauthResponse World.quiet (Message.authenticated .refresh (str "x") []) =
        some [.transactionID (Message.authenticated .refresh (str "x") []).transactionID,
          .msgType (Message.authenticated .refresh (str "x") []).method .errorResponse,
          .errorCode 401 (str "Unauthorized"),
          .nonce nonce,
          .realm realm,
          .software software] ∧
      nonce.length = 48 ∧
      ∀ c ∈ nonce, c ∈ hextable :=
  unauth_nonce_length World.quiet (Message.authenticated .refresh (str "x") [])
    ⟨List.replicate 24 0, by decide⟩ rfl

/-! ## The authenticator (claim C13) -/

theorem missing_factor_text :
    "No authentication factor " ++ AttrType.username.name = "No authentication factor USERNAME" ∧
    "No authentication factor " ++ AttrType.nonce.name = "No authentication factor NONCE" ∧
    "No authentication factor " ++ AttrType.realm.name = "No authentication factor REALM" ∧
    "No authentication factor " ++ AttrType.messageIntegrity.name =
      "No authentication factor MESSAGE-INTEGRITY" := by
  decide

theorem checkAuth_table (w : World) (msg : Message) :
    checkAuth w msg =
      if msg.get .username = none then .error "No authentication factor USERNAME"
      else if msg.get .nonce = none then .error "No authentication factor NONCE"
      else if msg.get .realm = none then .error "No authentication factor REALM"
      else if msg.get .messageIntegrity = none then
        .error "No authentication factor MESSAGE-INTEGRITY"
      else if turnrpcPrefix.isPrefixOf (((msg.get .username).map (·.value)).getD []) = false then
        .error "Invalid username"
      else
        match w.integrityError (((msg.get .username).map (·.value)).getD []) realm password
          msg with
        | some err => .error err
        | none =>
          .ok (((msg.get .username).map (·.value)).getD [],
            ((msg.get .nonce).map (·.value)).getD []) := by
  obtain ⟨t1, t2, t3, t4⟩ := missing_factor_text
  unfold checkAuth requiredAttrs
  cases h1 : msg.get .username with
  | none => simp [List.find?, h1, t1]
  | some a1 =>
    cases h2 : msg.get .nonce with
    | none => simp [List.find?, h1, h2, t2]
    | some a2 =>
      cases h3 : msg.get .realm with
      | none => simp [List.find?, h1, h2, h3, t3]
      | some a3 =>
        cases h4 : msg.get .messageIntegrity with
        | none => simp [List.find?, h1, h2, h3, h4, t4]
        | some a4 =>
          simp only [List.find?, h1, h2, h3, h4, Option.isNone_some, Option.map_some',
            Option.getD_some]
          cases hp : turnrpcPrefix.isPrefixOf a1.value <;> simp

theorem turnrpcPrefix_length : turnrpcPrefix.length = 8 := by decide

theorem checkAuth_ok (w : World) (msg : Message) (u : Str) (n : Bytes)
    (h : checkAuth w msg = .ok (u, n)) :
    (msg.get .username).map (·.value) = some u ∧
    (msg.get .nonce).map (·.value) = some n ∧
    msg.get .realm ≠ none ∧ msg.get .messageIntegrity ≠ none ∧
    turnrpcPrefix.isPrefixOf u = true ∧
    w.integrityError u realm password msg = none := by
  rw [checkAuth_table] at h
  split_ifs at h with h1 h2 h3 h4 h5
  split at h
  · exact absurd h (by simp)
  · rename_i hi
    simp only [Except.ok.injEq, Prod.mk.injEq] at h
    obtain ⟨hu, hn⟩ := h
    cases hgu : msg.get .username with
    | none => exact absurd hgu h1
    | some a =>
      cases hgn : msg.get .nonce with
      | none => exact absurd hgn h2
      | some b =>
        rw [hgu] at hu h5 hi
        rw [hgn] at hn
        simp only [Option.map_some', Option.getD_some] at hu hn h5 hi
        rw [hu] at h5 hi
        refine ⟨by simp [hu], by simp [hn], h3, h4, by simpa using h5, hi⟩

/-- C13: `checkAuth` fails with "No authentication factor <AttrName>" for the first of
USERNAME, NONCE, REALM, MESSAGE-INTEGRITY that the message lacks; with all four present
it fails with "Invalid username" when the USERNAME value does not begin with `turnrpc:`;
otherwise it returns the error of the integrity check keyed by (USERNAME, realm,
password) if there is one, and succeeds if there is none.  It succeeds only in that last
case, and then returns the whole USERNAME value and the NONCE value; the username begins
with the 8-byte prefix, so the caller's slice `username[len(turnrpcPrefix):]` is in
range. -/
theorem checkAuth_decision (w : World) (msg : Message) :
    (checkAuth w msg =
      if msg.get .username = none then .error "No authentication factor USERNAME"
      else if msg.get .nonce = none then .error "No authentication factor NONCE"
      else if msg.get .realm = none then .error "No authentication factor REALM"
      else if msg.get .messageIntegrity = none then
        .error "No authentication factor MESSAGE-INTEGRITY"
      else if turnrpcPrefix.isPrefixOf (((msg.get .username).map (·.value)).getD []) = false then
        .error "Invalid username"
      else
        match w.integrityError (((msg.get .username).map (·.value)).getD []) realm password
          msg with
        | some err => .error err
        | none =>
          .ok (((msg.get .username).map (·.value)).getD [],
            ((msg.get .nonce).map (·.value)).getD [])) ∧
    (∀ u n, checkAuth w msg = .ok (u, n) →
      (msg.get .username).map (·.value) = some u ∧
      (msg.get .nonce).map (·.value) = some n ∧
      msg.get .realm ≠ none ∧ msg.get .messageIntegrity ≠ none ∧
      w.integrityError u realm password msg = none ∧
      turnrpcPrefix <+: u ∧
      turnrpcPrefix.length = 8 ∧ turnrpcPrefix.length ≤ u.length ∧
      u = turnrpcPrefix ++ u.drop turnrpcPrefix.length) := by
  refine ⟨checkAuth_table w msg, fun u n h => ?_⟩
  obtain ⟨h1, h2, h3, h4, h5, h6⟩ := checkAuth_ok w msg u n h
  have hp : turnrpcPrefix <+: u := List.isPrefixOf_iff_prefix.mp h5
  refine ⟨h1, h2, h3, h4, h6, hp, turnrpcPrefix_length, hp.length_le, ?_⟩
  obtain ⟨t, ht⟩ := hp
  rw [← ht, List.drop_left]

/-! ## REFRESH (claim C18) -/

/-- C18: an authenticated REFRESH request is answered with a success response carrying
`LIFETIME = 00 00 00 00` when it has a LIFETIME attribute all of whose value bytes are
zero, and with an error response carrying code 508 "Insufficient Capacity" otherwise
(some non-zero byte, or no LIFETIME attribute); both answers carry the request's
transaction id and long-term integrity for the authenticated username, and the store is
not touched. -/
theorem refresh_decision (w : World) (st : Store) (addr : UDPAddr) (msg : Message)
    (username : Str) (nonce : Bytes)
    (hclass : msg.msgClass = .request) (hmethod : msg.method = .refresh)
    (hauth : checkAuth w msg = .ok (username, nonce)) :
    ((∃ lifetime, msg.get .lifetime = some lifetime ∧ ∀ v ∈ lifetime.value, v = 0) →
      handleRequest w st addr msg =
        .reply
          [.transactionID msg.transactionID,
            .msgType .refresh .successResponse,
            .rawAttribute .lifetime [0x00, 0x00, 0x00, 0x00],
            .longTermIntegrity username realm password]
          st) ∧
    (¬ (∃ lifetime, msg.get .lifetime = some lifetime ∧ ∀ v ∈ lifetime.value, v = 0) →
      handleRequest w st addr msg =
        .reply
          [.transactionID msg.transactionID,
            .msgType .refresh .errorResponse,
            .errorCode 508 (str "Insufficient Capacity"),
            .longTermIntegrity username realm password]
          st) := by
  simp only [handleRequest, hclass, hmethod, handleRefresh, hauth]
  cases hl : msg.get .lifetime with
  | none => simp
  | some lifetime =>
    by_cases hz : ∀ v ∈ lifetime.value, v = 0
    · have ha : lifetime.value.all (fun v => decide (v = 0)) = true := by
        simpa [List.all_eq_true] using hz
      simp [ha]
      exact hz
    · have ha : lifetime.value.all (fun v => decide (v = 0)) = false := by
        rw [← Bool.not_eq_true, List.all_eq_true]
        simpa using hz
      simp [ha, hz]

theorem refresh_decision_witness :
    ((∃ lifetime,
        (Message.authenticated .refresh (str "turnrpc:x") [⟨.lifetime, [0, 0, 0, 1]⟩]).get
          .lifetime = some lifetime ∧ ∀ v ∈ lifetime.value, v = 0) →
      handleRequest World.quiet Store.empty ⟨⟨[127, 0, 0, 1], by decide⟩, 4000⟩
        (Message.authenticated .refresh (str "turnrpc:x") [⟨.lifetime, [0, 0, 0, 1]⟩]) =
        .reply
          [.transactionID
              (Message.authenticated .refresh (str "turnrpc:x")
                [⟨.lifetime, [0, 0, 0, 1]⟩]).transactionID,
            .msgType .refresh .successResponse,
            .rawAttribute .lifetime [0x00, 0x00, 0x00, 0x00],
            .longTermIntegrity (str "turnrpc:x") realm password]
          Store.empty) ∧
    (¬ (∃ lifetime,
        (Message.authenticated .refresh (str "turnrpc:x") [⟨.lifetime, [0, 0, 0, 1]⟩]).get
          .lifetime = some lifetime ∧ ∀ v ∈ lifetime.value, v = 0) →
      handleRequest World.quiet Store.empty ⟨⟨[127, 0, 0, 1], by decide⟩, 4000⟩
        (Message.authenticated .refresh (str "turnrpc:x") [⟨.lifetime, [0, 0, 0, 1]⟩]) =
        .reply
          [.transactionID
              (Message.authenticated .refresh (str "turnrpc:x")
                [⟨.lifetime, [0, 0, 0, 1]⟩]).transactionID,
            .msgType .refresh .errorResponse,
            .errorCode 508 (str "Insufficient Capacity"),
            .longTermIntegrity (str "turnrpc:x") realm password]
          Store.empty) :=
  refresh_decision World.quiet Store.empty ⟨⟨[127, 0, 0, 1], by decide⟩, 4000⟩
    (Message.authenticated .refresh (str "turnrpc:x") [⟨.lifetime, [0, 0, 0, 1]⟩])
    (str "turnrpc:x") (str "abc") rfl rfl rfl

/-! ## The reaper (claim C15) -/

/-- C15: after `reapLong` has run at time `t`, a session whose deadline is before `t` has
no entry in any of the three maps, and a session whose deadline is not before `t` keeps
its request buffer, response buffer and deadline unchanged. -/
theorem reaper_post (st : Store) (t : Time) (id : Str) (d : Time)
    (hd : st.longReqValidUntils id = some d) :
    (d < t →
      (reapLong t st).longReqValidUntils id = none ∧ (reapLong t st).longReqs id = none ∧
        (reapLong t st).longResps id = none) ∧
    (¬ d < t →
      (reapLong t st).longReqValidUntils id = some d ∧
        (reapLong t st).longReqs id = st.longReqs id ∧
        (reapLong t st).longResps id = st.longResps id) := by
  constructor
  · intro h
    simp [reapLong, expiredAt, hd, h]
  · intro h
    simp [reapLong, expiredAt, hd, h]

theorem reaper_post_witness :
    ((30 : Time) < 31 →
      (reapLong 31 (Store.mk (Store.empty.longReqValidUntils.set [1] (some 30))
        (Store.empty.longReqs.set [1] (some [0])) Store.empty.longResps)).longReqValidUntils
          [1] = none ∧
      (reapLong 31 (Store.mk (Store.empty.longReqValidUntils.set [1] (some 30))
        (Store.empty.longReqs.set [1] (some [0])) Store.empty.longResps)).longReqs [1] = none ∧
      (reapLong 31 (Store.mk (Store.empty.longReqValidUntils.set [1] (some 30))
        (Store.empty.longReqs.set [1] (some [0])) Store.empty.longResps)).longResps [1] =
          none) ∧
    (¬ (30 : Time) < 31 →
      (reapLong 31 (Store.mk (Store.empty.longReqValidUntils.set [1] (some 30))
        (Store.empty.longReqs.set [1] (some [0])) Store.empty.longResps)).longReqValidUntils
          [1] = some 30 ∧
      (reapLong 31 (Store.mk (Store.empty.longReqValidUntils.set [1] (some 30))
        (Store.empty.longReqs.set [1] (some [0])) Store.empty.longResps)).longReqs [1] =
        (Store.mk (Store.empty.longReqValidUntils.set [1] (some 30))
          (Store.empty.longReqs.set [1] (some [0])) Store.empty.longResps).longReqs [1] ∧
      (reapLong 31 (Store.mk (Store.empty.longReqValidUntils.set [1] (some 30))
        (Store.empty.longReqs.set [1] (some [0])) Store.empty.longResps)).longResps [1] =
        (Store.mk (Store.empty.longReqValidUntils.set [1] (some 30))
          (Store.empty.longReqs.set [1] (some [0])) Store.empty.longResps).longResps [1]) :=
  reaper_post (Store.mk (Store.empty.longReqValidUntils.set [1] (some 30))
    (Store.empty.longReqs.set [1] (some [0])) Store.empty.longResps) 31 [1] 30
    (by simp [GoMap.set])

/-! ## The zero-length session (claim C19) -/

set_option maxRecDepth 100000 in
theorem port_bits_full : ∀ t : Fin 256,
    (0xc000 ||| (16 <<< 8) ||| t.val) &&& 0x0F00 = 0 ∧
    (0xc000 ||| (16 <<< 8) ||| t.val) &&& 0x1F00 = 0x1000 ∧
    (0xc000 ||| (16 <<< 8) ||| t.val) &&& 0xFF = t.val := by
  decide

theorem allocateRelay_id (id : Bytes) (h : id.length = 16) :
    allocateRelay id = some
      { ip := (0xfc : Byte) :: id.drop 1
        port := 0xc000 ||| (16 <<< 8) ||| (id.headD 0).val } := by
  rw [allocateRelay_of_le id (by omega), h]
  simp

set_option maxRecDepth 100000 in
/-- C19, as stated, fails: with the session id of sixteen bytes `1`, the authenticated
ALLOCATE for `turnrpc:s:0` answers with relay port `0xD001` and the IPv6 address
`fc 01 01 ... 01`, whose bytes 1..15 are not zero. -/
theorem zero_length_session_fails :
    ∃ st2 ip port,
      handleRequest
        { World.quiet with env := { Env.quiet with rnd := ⟨List.replicate 16 1, by decide⟩ } }
        Store.empty ⟨⟨[127, 0, 0, 1], by decide⟩, 4000⟩
        (Message.authenticated .allocate (str "turnrpc:s:0") []) =
        .reply
          [.transactionID (List.replicate 12 7),
            .msgType .allocate .successResponse,
            .xorRelayedAddress ip port,
            .rawAttribute .lifetime [0xef, 0xff, 0xff, 0xff],
            .xorMappedAddress [127, 0, 0, 1] 4000,
            .realm realm,
            .software software,
            .longTermIntegrity (str "turnrpc:s:0") realm password]
          st2 ∧
      ip = (0xfc : Byte) :: List.replicate 15 1 ∧ port = 0xD001 ∧
      ¬ (∀ b ∈ ip.drop 1, b = 0) :=
  ⟨_, (0xfc : Byte) :: List.replicate 15 1, 0xD001, rfl, rfl, rfl, by decide⟩

/-- C19, amended: for the command `s:0` and every 16-byte session id the store generates,
the ALLOCATE success response carries the relay address packed from the id: the port has
`port & 0x0F00 == 0` (the length 16 sets bit 12, `port & 0x1F00 == 0x1000`), its low byte
is the first byte of the id, and bytes 1..15 of the IPv6 address are bytes 1..15 of the
id (byte 0 is `0xFC`); the new session has an empty request buffer. -/
theorem zero_length_session (w : World) (st : Store) (addr : UDPAddr) (msg : Message)
    (nonce : Bytes) (hclass : msg.msgClass = .request) (hmethod : msg.method = .allocate)
    (hauth : checkAuth w msg = .ok (str "turnrpc:s:0", nonce)) :
    ∃ st2 r,
      handleRequest w st addr msg =
        .reply
          [.transactionID msg.transactionID,
            .msgType .allocate .successResponse,
            .xorRelayedAddress r.ip r.port,
            .rawAttribute .lifetime [0xef, 0xff, 0xff, 0xff],
            .xorMappedAddress addr.ip.val addr.port,
            .realm realm,
            .software software,
            .longTermIntegrity (str "turnrpc:s:0") realm password]
          st2 ∧
      allocateRelay w.env.rnd.val = some r ∧
      st2.longReqs w.env.rnd.val = some [] ∧
      r.port &&& 0x0F00 = 0 ∧
      r.port &&& 0x1F00 = 0x1000 ∧
      r.port &&& 0xFF = (w.env.rnd.val.headD 0).val ∧
      r.ip.length = 16 ∧
      r.ip.drop 1 = w.env.rnd.val.drop 1 := by
  have hpoke : turnpoke w.env st (str "s:0") = .ok w.env.rnd.val
      { longReqs := st.longReqs.set w.env.rnd.val (some [])
        longReqValidUntils :=
          st.longReqValidUntils.set w.env.rnd.val (some (w.env.now + longReqValidity))
        longResps := st.longResps } := rfl
  have hreq : (str "turnrpc:s:0").drop turnrpcPrefix.length = str "s:0" := by decide
  have hlen : ¬ (str "turnrpc:s:0").length < turnrpcPrefix.length := by decide
  have hrel := allocateRelay_id w.env.rnd.val w.env.rnd.property
  obtain ⟨b1, b2, b3⟩ := port_bits_full (w.env.rnd.val.headD 0)
  refine ⟨Store.mk
      (st.longReqValidUntils.set w.env.rnd.val (some (w.env.now + longReqValidity)))
      (st.longReqs.set w.env.rnd.val (some [])) st.longResps,
    Relay.mk ((0xfc : Byte) :: w.env.rnd.val.drop 1)
      (0xc000 ||| (16 <<< 8) ||| (w.env.rnd.val.headD 0).val),
    ?_, hrel, ?_, b1, b2, b3, ?_, ?_⟩
  · simp only [handleRequest, hclass, hmethod, handleAllocate, hauth, if_neg hlen, hreq,
      hpoke, hrel]
  · simp [GoMap.set]
  · simp [w.env.rnd.property]
  · simp

theorem zero_length_session_witness :
    ∃ st2 r,
      handleRequest World.quiet Store.empty ⟨⟨[127, 0, 0, 1], by decide⟩, 4000⟩
        (Message.authenticated .allocate (str "turnrpc:s:0") []) =
        .reply
          [.transactionID (Message.authenticated .allocate (str "turnrpc:s:0") []).transactionID,
            .msgType .allocate .successResponse,
            .xorRelayedAddress r.ip r.port,
            .rawAttribute .lifetime [0xef, 0xff, 0xff, 0xff],
            .xorMappedAddress [127, 0, 0, 1] 4000,
            .realm realm,
            .software software,
            .longTermIntegrity (str "turnrpc:s:0") realm password]
          st2 ∧
      allocateRelay World.quiet.env.rnd.val = some r ∧
      st2.longReqs World.quiet.env.rnd.val = some [] ∧
      r.port &&& 0x0F00 = 0 ∧
      r.port &&& 0x1F00 = 0x1000 ∧
      r.port &&& 0xFF = (World.quiet.env.rnd.val.headD 0).val ∧
      r.ip.length = 16 ∧
      r.ip.drop 1 = World.quiet.env.rnd.val.drop 1 :=
  zero_length_session World.quiet Store.empty ⟨⟨[127, 0, 0, 1], by decide⟩, 4000⟩
    (Message.authenticated .allocate (str "turnrpc:s:0") []) (str "abc") rfl rfl rfl

/-! ## Lemmas: what a call can return and change, for arbitrary commands -/

theorem pokeC_ok (st st2 : Store) (args : Str) (p : Bytes) (h : pokeC st args = .ok p st2) :
    ∃ long new, st.longReqs p = some long ∧
      st2 = { st with longReqs := st.longReqs.set p (some new) } := by
  unfold pokeC at h
  simp only at h
  repeat' split at h
  all_goals first
    | contradiction
    | (simp only [Outcome.ok.injEq] at h
       obtain ⟨h1, h2⟩ := h
       subst h1
       exact ⟨_, _, by assumption, h2.symm⟩)

theorem pokeC_error (st st2 : Store) (args : Str) (e : TurnError)
    (h : pokeC st args = .error e st2) : st2 = st := by
  unfold pokeC at h
  simp only at h
  repeat' split at h
  all_goals first
    | contradiction
    | (simp only [Outcome.error.injEq] at h
       exact h.2.symm)

theorem pokeR_ok (st st2 : Store) (args : Str) (p : Bytes) (h : pokeR st args = .ok p st2) :
    st2 = st ∧ p.length ≤ 16 := by
  unfold pokeR at h
  repeat' split at h
  all_goals first
    | contradiction
    | (simp only [Outcome.ok.injEq] at h
       obtain ⟨h1, h2⟩ := h
       subst h1
       refine ⟨h2.symm, ?_⟩
       split
       · rw [List.length_take]
         exact Nat.min_le_left _ _
       · omega)

theorem pokeR_error (st st2 : Store) (args : Str) (e : TurnError)
    (h : pokeR st args = .error e st2) : st2 = st := by
  unfold pokeR at h
  repeat' split at h
  all_goals first
    | contradiction
    | (simp only [Outcome.error.injEq] at h
       exact h.2.symm)

theorem pokeS_error (env : Env) (st st2 : Store) (args : Str) (e : TurnError)
    (h : pokeS env st args = .error e st2) : st2 = st := by
  unfold pokeS at h
  repeat' split at h
  all_goals first
    | contradiction
    | (simp only [Outcome.error.injEq] at h
       exact h.2.symm)

theorem eBegin_ok (env : Env) (st st1 : Store) (args : Str) (id decomped : Bytes)
    (h : eBegin env st args = .ok (id, decomped, st1)) :
    decodeString args = some id ∧ ∃ longReq, st.longReqs id = some longReq ∧
      env.inflate longReq = some decomped ∧
      st1 = { st with longReqs := st.longReqs.delete id } := by
  unfold eBegin at h
  repeat' split at h
  all_goals first
    | contradiction
    | (simp only [Except.ok.injEq, Prod.mk.injEq] at h
       obtain ⟨h1, h2, h3⟩ := h
       subst h1
       subst h2
       exact ⟨by assumption, _, by assumption, by assumption, h3.symm⟩)

theorem lenBytes_length (comped : Bytes) : (lenBytes comped).length = 4 := rfl

theorem pokeE_ok (env : Env) (st st2 : Store) (args : Str) (p : Bytes)
    (h : pokeE env st args = .ok p st2) :
    p.length = 4 ∧ ∃ id longReq, st.longReqs id = some longReq ∧
      (env.reaps.foldl (fun s t => reapLong t s)
        { st with longReqs := st.longReqs.delete id }).longReqValidUntils id ≠ none ∧
      ∃ v, st2 =
        { env.reaps.foldl (fun s t => reapLong t s)
            { st with longReqs := st.longReqs.delete id } with
          longResps := (env.reaps.foldl (fun s t => reapLong t s)
            { st with longReqs := st.longReqs.delete id }).longResps.set id v } := by
  unfold pokeE at h
  split at h
  · contradiction
  · rename_i id decomped st1 hb
    obtain ⟨-, longReq, hreq, -, hst1⟩ := eBegin_ok env st st1 args id decomped hb
    subst hst1
    unfold eFinish at h
    simp only at h
    split at h
    · contradiction
    · rename_i d hd
      simp only [Outcome.ok.injEq] at h
      obtain ⟨h1, h2⟩ := h
      subst h1
      exact ⟨lenBytes_length _, id, longReq, hreq, by rw [hd]; simp, _, h2.symm⟩

theorem pokeE_error (env : Env) (st st2 : Store) (args : Str) (e : TurnError)
    (h : pokeE env st args = .error e st2) :
    st2 = st ∨ ∃ id longReq, st.longReqs id = some longReq ∧
      st2 = env.reaps.foldl (fun s t => reapLong t s)
        { st with longReqs := st.longReqs.delete id } := by
  unfold pokeE at h
  split at h
  · simp only [Outcome.error.injEq] at h
    exact Or.inl h.2.symm
  · rename_i id decomped st1 hb
    obtain ⟨-, longReq, hreq, -, hst1⟩ := eBegin_ok env st st1 args id decomped hb
    subst hst1
    unfold eFinish at h
    simp only at h
    split at h
    · simp only [Outcome.error.injEq] at h
      exact Or.inr ⟨id, longReq, hreq, h.2.symm⟩
    · contradiction

theorem turnpoke_effect (env : Env) (st st2 : Store) (req : Str)
    (h : (turnpoke env st req).store? = some st2) :
    st2 = st ∨
    (∃ n : Nat, st2 =
      Store.mk (st.longReqValidUntils.set env.rnd.val (some (env.now + longReqValidity)))
        (st.longReqs.set env.rnd.val (some (List.replicate n (0 : Byte)))) st.longResps) ∨
    (∃ id long new, st.longReqs id = some long ∧
      st2 = { st with longReqs := st.longReqs.set id (some new) }) ∨
    (∃ id longReq, st.longReqs id = some longReq ∧
      (st2 = env.reaps.foldl (fun s t => reapLong t s)
          { st with longReqs := st.longReqs.delete id } ∨
       ((env.reaps.foldl (fun s t => reapLong t s)
          { st with longReqs := st.longReqs.delete id }).longReqValidUntils id ≠ none ∧
        ∃ v, st2 =
          { env.reaps.foldl (fun s t => reapLong t s)
              { st with longReqs := st.longReqs.delete id } with
            longResps := (env.reaps.foldl (fun s t => reapLong t s)
              { st with longReqs := st.longReqs.delete id }).longResps.set id v }))) := by
  unfold turnpoke at h
  split at h
  · rename_i method args _
    split_ifs at h
    · cases ho : pokeS env st args with
      | ok p s2 =>
        rw [ho] at h
        simp only [Outcome.store?, Option.some.injEq] at h
        subst h
        obtain ⟨hid, n, -, h1, h2, h3⟩ := pokeS_ok env st s2 args p ho
        subst hid
        right; left
        refine ⟨n, ?_⟩
        cases s2
        simp only at h1 h2 h3
        rw [h1, h2, h3]
      | error e s2 =>
        rw [ho] at h
        simp only [Outcome.store?, Option.some.injEq] at h
        subst h
        exact Or.inl (pokeS_error env st s2 args e ho)
      | panic =>
        rw [ho] at h
        simp [Outcome.store?] at h
    · cases ho : pokeC st args with
      | ok p s2 =>
        rw [ho] at h
        simp only [Outcome.store?, Option.some.injEq] at h
        subst h
        obtain ⟨long, new, h1, h2⟩ := pokeC_ok st s2 args p ho
        exact Or.inr (Or.inr (Or.inl ⟨p, long, new, h1, h2⟩))
      | error e s2 =>
        rw [ho] at h
        simp only [Outcome.store?, Option.some.injEq] at h
        subst h
        exact Or.inl (pokeC_error st s2 args e ho)
      | panic =>
        rw [ho] at h
        simp [Outcome.store?] at h
    · cases ho : pokeE env st args with
      | ok p s2 =>
        rw [ho] at h
        simp only [Outcome.store?, Option.some.injEq] at h
        subst h
        obtain ⟨-, id, longReq, h1, h2, h3⟩ := pokeE_ok env st s2 args p ho
        exact Or.inr (Or.inr (Or.inr ⟨id, longReq, h1, Or.inr ⟨h2, h3⟩⟩))
      | error e s2 =>
        rw [ho] at h
        simp only [Outcome.store?, Option.some.injEq] at h
        subst h
        rcases pokeE_error env st s2 args e ho with h1 | ⟨id, longReq, h1, h2⟩
        · exact Or.inl h1
        · exact Or.inr (Or.inr (Or.inr ⟨id, longReq, h1, Or.inl h2⟩))
      | panic =>
        rw [ho] at h
        simp [Outcome.store?] at h
    · cases ho : pokeR st args with
      | ok p s2 =>
        rw [ho] at h
        simp only [Outcome.store?, Option.some.injEq] at h
        subst h
        exact Or.inl (pokeR_ok st s2 args p ho).1
      | error e s2 =>
        rw [ho] at h
        simp only [Outcome.store?, Option.some.injEq] at h
        subst h
        exact Or.inl (pokeR_error st s2 args e ho)
      | panic =>
        rw [ho] at h
        simp [Outcome.store?] at h
    · simp only [Outcome.store?, Option.some.injEq] at h
      exact Or.inl h.symm
  · simp only [Outcome.store?, Option.some.injEq] at h
    exact Or.inl h.symm

/-! ## Lemmas: invariants of the reachable stores -/

theorem keysSixteen_step (env : Env) (st st2 : Store) (req : Str)
    (h : (turnpoke env st req).store? = some st2) (hi : st.keysSixteen) : st2.keysSixteen := by
  intro k hk
  rcases turnpoke_effect env st st2 req h with e | ⟨n, e⟩ | ⟨id, long, new, hl, e⟩ |
    ⟨id, longReq, hl, e | ⟨-, v, e⟩⟩
  · subst e
    exact hi k hk
  · subst e
    by_cases hkr : k = env.rnd.val
    · rw [hkr]
      exact env.rnd.property
    · simp only [GoMap.set, if_neg hkr] at hk
      exact hi k hk
  · subst e
    by_cases hkr : k = id
    · rw [hkr]
      exact hi id (by rw [hl]; simp)
    · simp only [GoMap.set, if_neg hkr] at hk
      exact hi k hk
  all_goals
    subst e
    have hk2 : (env.reaps.foldl (fun s t => reapLong t s)
        { st with longReqs := st.longReqs.delete id }).longReqs k ≠ none := hk
    rcases reapFold_cases env.reaps k { st with longReqs := st.longReqs.delete id } with
      ⟨-, h2, -⟩ | ⟨-, h2, -⟩
    · exact absurd h2 hk2
    · rw [h2] at hk2
      have hk : st.longReqs.delete id k ≠ none := hk2
      by_cases hkr : k = id
      · simp [GoMap.delete, hkr] at hk
      · simp only [GoMap.delete, if_neg hkr] at hk
        exact hi k hk

theorem keysSixteen_reap (t : Time) (st : Store) (hi : st.keysSixteen) :
    (reapLong t st).keysSixteen := by
  intro k hk
  rcases reapLong_cases t st k with ⟨-, h2, -⟩ | ⟨-, h2, -⟩
  · exact absurd h2 hk
  · rw [h2] at hk
    exact hi k hk

theorem grouped_reapFold (ts : List Time) (st : Store) (hi : st.grouped) :
    (ts.foldl (fun s t => reapLong t s) st).grouped := by
  intro k hk
  rcases reapFold_cases ts k st with ⟨-, h2, h3⟩ | ⟨h1, h2, h3⟩
  · rw [h2, h3] at hk
    simp at hk
  · rw [h2, h3] at hk
    rw [h1]
    exact hi k hk

theorem grouped_delete (st : Store) (id : Str) (hi : st.grouped) :
    Store.grouped { st with longReqs := st.longReqs.delete id } := by
  intro k hk
  simp only at hk ⊢
  rcases hk with hk | hk
  · by_cases hkr : k = id
    · simp [GoMap.delete, hkr] at hk
    · simp only [GoMap.delete, if_neg hkr] at hk
      exact hi k (Or.inl hk)
  · exact hi k (Or.inr hk)

theorem grouped_step (env : Env) (st st2 : Store) (req : Str)
    (h : (turnpoke env st req).store? = some st2) (hi : st.grouped) : st2.grouped := by
  rcases turnpoke_effect env st st2 req h with e | ⟨n, e⟩ | ⟨id, long, new, hl, e⟩ |
    ⟨id, longReq, hl, e | ⟨hu, v, e⟩⟩
  · subst e
    exact hi
  · subst e
    intro k hk
    by_cases hkr : k = env.rnd.val
    · simp [GoMap.set, hkr]
    · simp only [GoMap.set, if_neg hkr] at hk ⊢
      exact hi k hk
  · subst e
    intro k hk
    simp only at hk ⊢
    by_cases hkr : k = id
    · rw [hkr]
      exact hi id (Or.inl (by rw [hl]; simp))
    · simp only [GoMap.set, if_neg hkr] at hk
      exact hi k hk
  · subst e
    exact grouped_reapFold _ _ (grouped_delete st id hi)
  · subst e
    have hg := grouped_reapFold env.reaps _ (grouped_delete st id hi)
    intro k hk
    simp only at hk ⊢
    by_cases hkr : k = id
    · rw [hkr]
      exact hu
    · simp only [GoMap.set, if_neg hkr] at hk
      exact hg k hk

theorem grouped_reap (t : Time) (st : Store) (hi : st.grouped) : (reapLong t st).grouped :=
  grouped_reapFold [t] st hi

theorem notBefore_reapFold (h : Time) (ts : List Time) (st : Store) (hi : st.notBefore h) :
    (ts.foldl (fun s t => reapLong t s) st).notBefore h := by
  intro k d hk
  rcases reapFold_cases ts k st with ⟨h1, -, -⟩ | ⟨h1, -, -⟩
  · rw [h1] at hk
    simp at hk
  · rw [h1] at hk
    exact hi k d hk

theorem notBefore_step (h : Time) (env : Env) (st st2 : Store) (req : Str)
    (hs : (turnpoke env st req).store? = some st2) (hnow : h ≤ env.now)
    (hi : st.notBefore h) : st2.notBefore h := by
  rcases turnpoke_effect env st st2 req hs with e | ⟨n, e⟩ | ⟨id, long, new, hl, e⟩ |
    ⟨id, longReq, hl, e | ⟨-, v, e⟩⟩
  · subst e
    exact hi
  · subst e
    intro k d hk
    by_cases hkr : k = env.rnd.val
    · simp only [GoMap.set, if_pos hkr, Option.some.injEq] at hk
      rw [← hk]
      exact Int.le_trans hnow (Int.le_of_lt (Int.lt_add_of_pos_right _ (by decide)))
    · simp only [GoMap.set, if_neg hkr] at hk
      exact hi k d hk
  · subst e
    exact hi
  · subst e
    exact notBefore_reapFold h _ _ (fun k d hk => hi k d hk)
  · subst e
    exact notBefore_reapFold h env.reaps { st with longReqs := st.longReqs.delete id }
      (fun k d hk => hi k d hk)

theorem notBefore_reap (t : Time) (st : Store) : (reapLong t st).notBefore t := by
  intro k d hk
  cases hu : st.longReqValidUntils k with
  | none => simp [reapLong, expiredAt, hu] at hk
  | some u =>
    by_cases hlt : u < t
    · simp [reapLong, expiredAt, hu, hlt] at hk
    · simp only [reapLong, expiredAt, hu, hlt, decide_False, Bool.false_eq_true, if_false,
        Option.some.injEq] at hk
      rw [← hk]
      exact Int.not_lt.mp hlt

theorem reachable_invariants (st : Store) (hr : Reachable st) :
    st.keysSixteen ∧ st.grouped := by
  induction hr with
  | start => exact ⟨fun k hk => absurd rfl hk, fun k hk => by simp [Store.empty] at hk⟩
  | poke env req st st2 _ hs ih =>
    exact ⟨keysSixteen_step env st st2 req hs ih.1, grouped_step env st st2 req hs ih.2⟩
  | reap t st _ ih => exact ⟨keysSixteen_reap t st ih.1, grouped_reap t st ih.2⟩

/-! ## The payload size (claim C11) -/

/-- C11: in every store reachable from the empty store by calls of `turnpoke` and runs of
the reaper, a successful call returns a payload of at most 16 bytes: exactly 16 for `s`,
exactly 16 for the id echoed by `c`, exactly 4 for `e`, at most 16 for `r`.  The ALLOCATE
packing therefore never takes its truncation branch: it pads the payload and keeps its
length. -/
theorem payload_bound (st : Store) (hr : Reachable st) (env : Env) (req : Str)
    (payload : Bytes) (st2 : Store) (h : turnpoke env st req = .ok payload st2) :
    payload.length ≤ 16 ∧
    padPayload payload =
      (payload ++ List.replicate (16 - payload.length) (0 : Byte), payload.length) ∧
    ∃ method args, splitN (ch ':') req 2 = [method, args] ∧
      ((method = str "s" ∧ payload.length = 16) ∨
       (method = str "c" ∧ payload.length = 16) ∨
       (method = str "e" ∧ payload.length = 4) ∨
       (method = str "r" ∧ payload.length ≤ 16)) := by
  have key : ∃ method args, splitN (ch ':') req 2 = [method, args] ∧
      ((method = str "s" ∧ payload.length = 16) ∨
       (method = str "c" ∧ payload.length = 16) ∨
       (method = str "e" ∧ payload.length = 4) ∨
       (method = str "r" ∧ payload.length ≤ 16)) := by
    unfold turnpoke at h
    split at h
    · rename_i method args hsplit
      refine ⟨method, args, hsplit, ?_⟩
      split_ifs at h with h1 h2 h3 h4
      · obtain ⟨hid, -⟩ := pokeS_ok env st st2 args payload h
        exact Or.inl ⟨h1, by rw [hid]; exact env.rnd.property⟩
      · obtain ⟨long, new, hl, -⟩ := pokeC_ok st st2 args payload h
        exact Or.inr (Or.inl ⟨h2, (reachable_invariants st hr).1 payload (by rw [hl]; simp)⟩)
      · exact Or.inr (Or.inr (Or.inl ⟨h3, (pokeE_ok env st st2 args payload h).1⟩))
      · exact Or.inr (Or.inr (Or.inr ⟨h4, (pokeR_ok st st2 args payload h).2⟩))
    · contradiction
  have hle : payload.length ≤ 16 := by
    obtain ⟨method, args, -, hc | hc | hc | hc⟩ := key
    all_goals omega
  exact ⟨hle, padPayload_of_le payload hle, key⟩

theorem payload_bound_witness :
    (List.replicate 16 (0 : Byte)).length ≤ 16 ∧
    padPayload (List.replicate 16 (0 : Byte)) =
      (List.replicate 16 (0 : Byte) ++
        List.replicate (16 - (List.replicate 16 (0 : Byte)).length) (0 : Byte),
        (List.replicate 16 (0 : Byte)).length) ∧
    ∃ method args, splitN (ch ':') (str "s:3") 2 = [method, args] ∧
      ((method = str "s" ∧ (List.replicate 16 (0 : Byte)).length = 16) ∨
       (method = str "c" ∧ (List.replicate 16 (0 : Byte)).length = 16) ∨
       (method = str "e" ∧ (List.replicate 16 (0 : Byte)).length = 4) ∨
       (method = str "r" ∧ (List.replicate 16 (0 : Byte)).length ≤ 16)) :=
  payload_bound Store.empty Reachable.start Env.quiet (str "s:3") (List.replicate 16 0)
    (Store.mk (Store.empty.longReqValidUntils.set (List.replicate 16 0)
        (some (0 + longReqValidity)))
      (Store.empty.longReqs.set (List.replicate 16 0) (some (List.replicate 3 0)))
      Store.empty.longResps) rfl

/-! ## Lookups that miss (claim C17) -/

/-- C17: a well-formed `c`, `e` or `r` command (the fields split, the base64 fields
decode, the offset parses as a 64-bit integer) whose decoded id has no buffer of the kind
the verb reads (request buffer for `c` and `e`, response buffer for `r`) returns the
error "Unknown request", no payload, and leaves the store as it was. -/
theorem lookup_miss (env : Env) (st : Store) :
    (∀ args idStr offsetStr contentStr id offset content,
      splitN (ch ':') args 3 = [idStr, offsetStr, contentStr] →
      decodeString idStr = some id → parseInt offsetStr = .ok offset →
      decodeString contentStr = some content → st.longReqs id = none →
      turnpoke env st (command (str "c") args) = .error .unknownRequest st) ∧
    (∀ args id, decodeString args = some id → st.longReqs id = none →
      turnpoke env st (command (str "e") args) = .error .unknownRequest st) ∧
    (∀ args idStr offsetStr id offset,
      splitN (ch ':') args 2 = [idStr, offsetStr] →
      decodeString idStr = some id → parseInt offsetStr = .ok offset →
      st.longResps id = none →
      turnpoke env st (command (str "r") args) = .error .unknownRequest st) ∧
    TurnError.unknownRequest.text = some "Unknown request" := by
  have hc : ¬ str "c" = str "s" := by decide
  have he1 : ¬ str "e" = str "s" := by decide
  have he2 : ¬ str "e" = str "c" := by decide
  have hr1 : ¬ str "r" = str "s" := by decide
  have hr2 : ¬ str "r" = str "c" := by decide
  have hr3 : ¬ str "r" = str "e" := by decide
  refine ⟨?_, ?_, ?_, rfl⟩
  · intro args idStr offsetStr contentStr id offset content hs h1 h2 h3 h4
    rw [turnpoke_command _ _ _ _ (by decide), if_neg hc, if_pos rfl, pokeC]
    simp only [hs, List.getElem?_cons_zero, List.getElem?_cons_succ, h1, h2, h3, h4]
  · intro args id h1 h2
    rw [turnpoke_command _ _ _ _ (by decide), if_neg he1, if_neg he2, if_pos rfl, pokeE, eBegin]
    simp only [h1, h2]
  · intro args idStr offsetStr id offset hs h1 h2 h3
    rw [turnpoke_command _ _ _ _ (by decide), if_neg hr1, if_neg hr2, if_neg hr3, if_pos rfl,
      pokeR]
    simp only [hs, h1, h2, h3]

/-! ## Expiry: the re-check of `e` (claim C14) -/

theorem reapFold_none (ts : List Time) (id : Str) (st : Store)
    (h : st.longReqValidUntils id = none ∧ st.longReqs id = none ∧ st.longResps id = none) :
    (ts.foldl (fun s t => reapLong t s) st).longReqValidUntils id = none ∧
    (ts.foldl (fun s t => reapLong t s) st).longReqs id = none ∧
    (ts.foldl (fun s t => reapLong t s) st).longResps id = none := by
  rcases reapFold_cases ts id st with h2 | ⟨h1, h2, h3⟩
  · exact h2
  · rw [h1, h2, h3]
    exact h

theorem reapFold_removes (ts : List Time) (id : Str) (d : Time) : ∀ st : Store,
    st.longReqValidUntils id = some d → (∃ t ∈ ts, d < t) →
    (ts.foldl (fun s t => reapLong t s) st).longReqValidUntils id = none ∧
    (ts.foldl (fun s t => reapLong t s) st).longReqs id = none ∧
    (ts.foldl (fun s t => reapLong t s) st).longResps id = none := by
  induction ts with
  | nil =>
    intro st _ ht
    obtain ⟨t, hm, -⟩ := ht
    simp at hm
  | cons t0 ts ih =>
    intro st hd ht
    rw [List.foldl_cons]
    by_cases hlt : d < t0
    · apply reapFold_none
      simp [reapLong, expiredAt, hd, hlt]
    · apply ih
      · simp [reapLong, expiredAt, hd, hlt]
      · obtain ⟨t, hm, hdt⟩ := ht
        rcases List.mem_cons.mp hm with e | hm2
        · rw [e] at hdt
          exact absurd hdt hlt
        · exact ⟨t, hm2, hdt⟩

/-- C14, as stated, fails: the session has deadline 30, the lock is re-acquired at time
31 and the reaper has not run in between; `e` finds the deadline entry, succeeds and
stores the response. -/
theorem verb_e_expired_fails :
    ∃ payload st2,
      (∀ t ∈ Env.quiet.reaps, t ≤ 31) ∧
      (Store.mk (Store.empty.longReqValidUntils.set [1] (some 30))
        (Store.empty.longReqs.set [1] (some [0x78, 71, 69, 84]))
        Store.empty.longResps).longReqValidUntils [1] = some 30 ∧
      (30 : Time) < 31 ∧
      turnpoke Env.quiet
        (Store.mk (Store.empty.longReqValidUntils.set [1] (some 30))
          (Store.empty.longReqs.set [1] (some [0x78, 71, 69, 84]))
          Store.empty.longResps) (cmdE [1]) = .ok payload st2 ∧
      st2.longResps [1] = some [0x78, 71, 69, 84] := by
  refine ⟨lenBytes [0x78, 71, 69, 84],
    Store.mk (Store.empty.longReqValidUntils.set [1] (some 30))
      ((Store.empty.longReqs.set [1] (some [0x78, 71, 69, 84])).delete [1])
      (Store.empty.longResps.set [1] (some [0x78, 71, 69, 84])),
    by simp [Env.quiet], by simp [GoMap.set], by decide, ?_, by simp [GoMap.set]⟩
  rw [turnpoke_cmdE, pokeE, eBegin_encoded]
  rfl

/-- C14, amended: `e` re-checks the presence of the deadline entry, not the clock.  If
the entry of the session is gone when the lock is re-acquired, in particular if the
reaper ran during the HTTP call at a time after the session's deadline, the operation
fails with "Unknown request", leaves the store as the reaper left it and the session has
no response buffer; a session whose deadline has passed but which the reaper has not yet
removed still gets its response stored. -/
theorem verb_e_reaped (env : Env) (st : Store) (id longReq decomped : Bytes)
    (hreq : st.longReqs id = some longReq) (hinfl : env.inflate longReq = some decomped) :
    ((env.reaps.foldl (fun s t => reapLong t s)
        { st with longReqs := st.longReqs.delete id }).longReqValidUntils id = none →
      turnpoke env st (cmdE id) = .error .unknownRequest
        (env.reaps.foldl (fun s t => reapLong t s)
          { st with longReqs := st.longReqs.delete id })) ∧
    (∀ d, st.longReqValidUntils id = some d → (∃ t ∈ env.reaps, d < t) →
      turnpoke env st (cmdE id) = .error .unknownRequest
        (env.reaps.foldl (fun s t => reapLong t s)
          { st with longReqs := st.longReqs.delete id }) ∧
      (env.reaps.foldl (fun s t => reapLong t s)
        { st with longReqs := st.longReqs.delete id }).longReqValidUntils id = none ∧
      (env.reaps.foldl (fun s t => reapLong t s)
        { st with longReqs := st.longReqs.delete id }).longReqs id = none ∧
      (env.reaps.foldl (fun s t => reapLong t s)
        { st with longReqs := st.longReqs.delete id }).longResps id = none) := by
  have hfail : (env.reaps.foldl (fun s t => reapLong t s)
        { st with longReqs := st.longReqs.delete id }).longReqValidUntils id = none →
      turnpoke env st (cmdE id) = .error .unknownRequest
        (env.reaps.foldl (fun s t => reapLong t s)
          { st with longReqs := st.longReqs.delete id }) := by
    intro hgone
    rw [turnpoke_cmdE, pokeE, eBegin_encoded, hreq]
    simp only [hinfl, eFinish, hgone]
  refine ⟨hfail, fun d hd ht => ?_⟩
  have hrem := reapFold_removes env.reaps id d
    { st with longReqs := st.longReqs.delete id } hd ht
  exact ⟨hfail hrem.1, hrem⟩

theorem verb_e_reaped_witness :
    ((({ Env.quiet with reaps := [31] } : Env).reaps.foldl (fun s t => reapLong t s)
        { Store.mk (Store.empty.longReqValidUntils.set [1] (some 30))
            (Store.empty.longReqs.set [1] (some [0x78, 71]))
            Store.empty.longResps with
          longReqs := (Store.empty.longReqs.set [1] (some [0x78, 71])).delete [1] }
        ).longReqValidUntils [1] = none →
      turnpoke { Env.quiet with reaps := [31] }
        (Store.mk (Store.empty.longReqValidUntils.set [1] (some 30))
          (Store.empty.longReqs.set [1] (some [0x78, 71])) Store.empty.longResps)
        (cmdE [1]) = .error .unknownRequest
        (({ Env.quiet with reaps := [31] } : Env).reaps.foldl (fun s t => reapLong t s)
          { Store.mk (Store.empty.longReqValidUntils.set [1] (some 30))
              (Store.empty.longReqs.set [1] (some [0x78, 71]))
              Store.empty.longResps with
            longReqs := (Store.empty.longReqs.set [1] (some [0x78, 71])).delete [1] })) ∧
    (∀ d, (Store.mk (Store.empty.longReqValidUntils.set [1] (some 30))
          (Store.empty.longReqs.set [1] (some [0x78, 71]))
          Store.empty.longResps).longReqValidUntils [1] = some d →
      (∃ t ∈ ({ Env.quiet with reaps := [31] } : Env).reaps, d < t) →
      turnpoke { Env.quiet with reaps := [31] }
        (Store.mk (Store.empty.longReqValidUntils.set [1] (some 30))
          (Store.empty.longReqs.set [1] (some [0x78, 71])) Store.empty.longResps)
        (cmdE [1]) = .error .unknownRequest
        (({ Env.quiet with reaps := [31] } : Env).reaps.foldl (fun s t => reapLong t s)
          { Store.mk (Store.empty.longReqValidUntils.set [1] (some 30))
              (Store.empty.longReqs.set [1] (some [0x78, 71]))
              Store.empty.longResps with
            longReqs := (Store.empty.longReqs.set [1] (some [0x78, 71])).delete [1] }) ∧
      (({ Env.quiet with reaps := [31] } : Env).reaps.foldl (fun s t => reapLong t s)
        { Store.mk (Store.empty.longReqValidUntils.set [1] (some 30))
            (Store.empty.longReqs.set [1] (some [0x78, 71]))
            Store.empty.longResps with
          longReqs := (Store.empty.longReqs.set [1] (some [0x78, 71])).delete [1] }
        ).longReqValidUntils [1] = none ∧
      (({ Env.quiet with reaps := [31] } : Env).reaps.foldl (fun s t => reapLong t s)
        { Store.mk (Store.empty.longReqValidUntils.set [1] (some 30))
            (Store.empty.longReqs.set [1] (some [0x78, 71]))
            Store.empty.longResps with
          longReqs := (Store.empty.longReqs.set [1] (some [0x78, 71])).delete [1] }
        ).longReqs [1] = none ∧
      (({ Env.quiet with reaps := [31] } : Env).reaps.foldl (fun s t => reapLong t s)
        { Store.mk (Store.empty.longReqValidUntils.set [1] (some 30))
            (Store.empty.longReqs.set [1] (some [0x78, 71]))
            Store.empty.longResps with
          longReqs := (Store.empty.longReqs.set [1] (some [0x78, 71])).delete [1] }
        ).longResps [1] = none) :=
  verb_e_reaped { Env.quiet with reaps := [31] }
    (Store.mk (Store.empty.longReqValidUntils.set [1] (some 30))
      (Store.empty.longReqs.set [1] (some [0x78, 71])) Store.empty.longResps)
    [1] [0x78, 71] [71] (by simp [GoMap.set]) rfl

theorem turnpoke_cmdC_found (env : Env) (st st2 : Store) (id content payload : Bytes)
    (offset : Int) (h : turnpoke env st (cmdC id offset content) = .ok payload st2) :
    st.longReqs id ≠ none := by
  rw [turnpoke_cmdC] at h
  split_ifs at h
  split at h
  · contradiction
  · rename_i long hl
    rw [hl]
    simp

theorem turnpoke_cmdE_found (env : Env) (st st2 : Store) (id payload : Bytes)
    (h : turnpoke env st (cmdE id) = .ok payload st2) : st.longReqs id ≠ none := by
  rw [turnpoke_cmdE, pokeE, eBegin_encoded] at h
  cases hl : st.longReqs id with
  | none =>
    rw [hl] at h
    contradiction
  | some long => simp

theorem turnpoke_cmdR_found (env : Env) (st st2 : Store) (id payload : Bytes) (offset : Int)
    (h : turnpoke env st (cmdR id offset) = .ok payload st2) : st.longResps id ≠ none := by
  rw [turnpoke_cmdR] at h
  split_ifs at h
  split at h
  · contradiction
  · rename_i long hl
    rw [hl]
    simp

/-! ## The grouping of the three maps under interleaving (claim C21) -/

theorem pokeS_store (env : Env) (st st2 : Store) (args : Str)
    (h : (pokeS env st args).store? = some st2) :
    st2 = st ∨ ∃ n : Nat, st2 =
      Store.mk (st.longReqValidUntils.set env.rnd.val (some (env.now + longReqValidity)))
        (st.longReqs.set env.rnd.val (some (List.replicate n (0 : Byte)))) st.longResps := by
  cases ho : pokeS env st args with
  | ok p s2 =>
    rw [ho] at h
    simp only [Outcome.store?, Option.some.injEq] at h
    subst h
    obtain ⟨hid, n, -, h1, h2, h3⟩ := pokeS_ok env st s2 args p ho
    subst hid
    right
    refine ⟨n, ?_⟩
    cases s2
    simp only at h1 h2 h3
    rw [h1, h2, h3]
  | error e s2 =>
    rw [ho] at h
    simp only [Outcome.store?, Option.some.injEq] at h
    subst h
    exact Or.inl (pokeS_error env st s2 args e ho)
  | panic =>
    rw [ho] at h
    simp [Outcome.store?] at h

theorem pokeC_store (st st2 : Store) (args : Str) (h : (pokeC st args).store? = some st2) :
    st2 = st ∨ ∃ id long new, st.longReqs id = some long ∧
      st2 = { st with longReqs := st.longReqs.set id (some new) } := by
  cases ho : pokeC st args with
  | ok p s2 =>
    rw [ho] at h
    simp only [Outcome.store?, Option.some.injEq] at h
    subst h
    obtain ⟨long, new, h1, h2⟩ := pokeC_ok st s2 args p ho
    exact Or.inr ⟨p, long, new, h1, h2⟩
  | error e s2 =>
    rw [ho] at h
    simp only [Outcome.store?, Option.some.injEq] at h
    subst h
    exact Or.inl (pokeC_error st s2 args e ho)
  | panic =>
    rw [ho] at h
    simp [Outcome.store?] at h

theorem pokeR_store (st st2 : Store) (args : Str) (h : (pokeR st args).store? = some st2) :
    st2 = st := by
  cases ho : pokeR st args with
  | ok p s2 =>
    rw [ho] at h
    simp only [Outcome.store?, Option.some.injEq] at h
    subst h
    exact (pokeR_ok st s2 args p ho).1
  | error e s2 =>
    rw [ho] at h
    simp only [Outcome.store?, Option.some.injEq] at h
    subst h
    exact pokeR_error st s2 args e ho
  | panic =>
    rw [ho] at h
    simp [Outcome.store?] at h

theorem eFinish_store (env : Env) (st st2 : Store) (id : Str) (longResp : Bytes)
    (h : (eFinish env st id longResp).store? = some st2) :
    st2 = st ∨ (st.longReqValidUntils id ≠ none ∧
      ∃ v, st2 = { st with longResps := st.longResps.set id v }) := by
  unfold eFinish at h
  split at h
  · simp only [Outcome.store?, Option.some.injEq] at h
    exact Or.inl h.symm
  · rename_i d hd
    simp only [Outcome.store?, Option.some.injEq] at h
    exact Or.inr ⟨by rw [hd]; simp, _, h.symm⟩

theorem grouped_create (st : Store) (id : Str) (d : Time) (v : Option Bytes)
    (hi : st.grouped) :
    Store.grouped (Store.mk (st.longReqValidUntils.set id (some d)) (st.longReqs.set id v)
      st.longResps) := by
  intro k hk
  by_cases hkr : k = id
  · simp [GoMap.set, hkr]
  · simp only [GoMap.set, if_neg hkr] at hk ⊢
    exact hi k hk

theorem grouped_write (st : Store) (id : Str) (long new : Bytes)
    (hl : st.longReqs id = some long) (hi : st.grouped) :
    Store.grouped { st with longReqs := st.longReqs.set id (some new) } := by
  intro k hk
  simp only at hk ⊢
  by_cases hkr : k = id
  · rw [hkr]
    exact hi id (Or.inl (by rw [hl]; simp))
  · simp only [GoMap.set, if_neg hkr] at hk
    exact hi k hk

theorem grouped_respond (st : Store) (id : Str) (v : Option Bytes)
    (hu : st.longReqValidUntils id ≠ none) (hi : st.grouped) :
    Store.grouped { st with longResps := st.longResps.set id v } := by
  intro k hk
  simp only at hk ⊢
  by_cases hkr : k = id
  · rw [hkr]
    exact hu
  · simp only [GoMap.set, if_neg hkr] at hk
    exact hi k hk

theorem interleaved_grouped (st : Store) (pending : List (Str × Bytes))
    (h : Interleaved st pending) : st.grouped := by
  induction h with
  | start => exact fun k hk => by simp [Store.empty] at hk
  | verbS env args st st2 pending _ hs ih =>
    rcases pokeS_store env st st2 args hs with e | ⟨n, e⟩
    · rw [e]
      exact ih
    · rw [e]
      exact grouped_create st _ _ _ ih
  | verbC args st st2 pending _ hs ih =>
    rcases pokeC_store st st2 args hs with e | ⟨id, long, new, hl, e⟩
    · rw [e]
      exact ih
    · rw [e]
      exact grouped_write st id long new hl ih
  | verbR args st st2 pending _ hs ih =>
    rw [pokeR_store st st2 args hs]
    exact ih
  | eLock env args id decomped st st1 pending _ hb ih =>
    obtain ⟨-, longReq, -, -, e⟩ := eBegin_ok env st st1 args id decomped hb
    rw [e]
    exact grouped_delete st id ih
  | eRelock env id decomped st st2 pending _ _ hf ih =>
    rcases eFinish_store env st st2 id _ hf with e | ⟨hu, v, e⟩
    · rw [e]
      exact ih
    · rw [e]
      exact grouped_respond st id v hu ih
  | reap t st pending _ ih => exact grouped_reap t st ih

theorem interleaved_reaps (ts : List Time) (pending : List (Str × Bytes)) : ∀ st : Store,
    Interleaved st pending → Interleaved (ts.foldl (fun s t => reapLong t s) st) pending := by
  induction ts with
  | nil => exact fun st h => h
  | cons t ts ih => exact fun st h => ih _ (Interleaved.reap t st pending h)

/-- Every run of whole `turnpoke` calls and reaper runs is an interleaved run in which no
`e` call is waiting. -/
theorem reachable_interleaved (st : Store) (hr : Reachable st) : Interleaved st [] := by
  induction hr with
  | start => exact Interleaved.start
  | reap t st _ ih => exact Interleaved.reap t st [] ih
  | poke env req st st2 _ hs ih =>
    unfold turnpoke at hs
    split at hs
    · rename_i method args _
      split_ifs at hs
      · exact Interleaved.verbS env args st st2 [] ih hs
      · exact Interleaved.verbC args st st2 [] ih hs
      · unfold pokeE at hs
        split at hs
        · simp only [Outcome.store?, Option.some.injEq] at hs
          rw [← hs]
          exact ih
        · rename_i id decomped st1 hb
          have h1 := Interleaved.eLock env args id decomped st st1 [] ih hb
          have h2 := interleaved_reaps env.reaps _ st1 h1
          have h3 := Interleaved.eRelock env id decomped _ st2 _ h2
            (List.mem_singleton.mpr rfl) hs
          simpa using h3
      · exact Interleaved.verbR args st st2 [] ih hs
      · simp only [Outcome.store?, Option.some.injEq] at hs
        rw [← hs]
        exact ih
    · simp only [Outcome.store?, Option.some.injEq] at hs
      rw [← hs]
      exact ih

/-- C21: in every store reached from the empty store by any interleaving of `s`, `c`,
`r`, the two locked phases of `e` and reaper runs, every id that has a request buffer or
a response buffer also has a deadline entry; so a reaper run at any time after that
deadline removes the id from all three maps, and no buffer is out of the reaper's
reach. -/
theorem store_grouping (st : Store) (pending : List (Str × Bytes))
    (h : Interleaved st pending) :
    (∀ id, st.longReqs id ≠ none ∨ st.longResps id ≠ none →
      st.longReqValidUntils id ≠ none) ∧
    (∀ id, st.longReqs id ≠ none ∨ st.longResps id ≠ none →
      ∃ d, st.longReqValidUntils id = some d ∧
        ∀ t, d < t →
          (reapLong t st).longReqs id = none ∧ (reapLong t st).longResps id = none ∧
            (reapLong t st).longReqValidUntils id = none) := by
  have hg := interleaved_grouped st pending h
  refine ⟨hg, fun id hb => ?_⟩
  cases hu : st.longReqValidUntils id with
  | none => exact absurd hu (hg id hb)
  | some d =>
    refine ⟨d, rfl, fun t hlt => ?_⟩
    simp [reapLong, expiredAt, hu, hlt]

theorem store_grouping_witness :
    (∀ id,
      (Store.mk (Store.empty.longReqValidUntils.set Env.quiet.rnd.val (some (0 + longReqValidity)))
        (Store.empty.longReqs.set Env.quiet.rnd.val (some (List.replicate 4 0)))
        Store.empty.longResps).longReqs id ≠ none ∨
      (Store.mk (Store.empty.longReqValidUntils.set Env.quiet.rnd.val (some (0 + longReqValidity)))
        (Store.empty.longReqs.set Env.quiet.rnd.val (some (List.replicate 4 0)))
        Store.empty.longResps).longResps id ≠ none →
      (Store.mk (Store.empty.longReqValidUntils.set Env.quiet.rnd.val (some (0 + longReqValidity)))
        (Store.empty.longReqs.set Env.quiet.rnd.val (some (List.replicate 4 0)))
        Store.empty.longResps).longReqValidUntils id ≠ none) ∧
    (∀ id,
      (Store.mk (Store.empty.longReqValidUntils.set Env.quiet.rnd.val (some (0 + longReqValidity)))
        (Store.empty.longReqs.set Env.quiet.rnd.val (some (List.replicate 4 0)))
        Store.empty.longResps).longReqs id ≠ none ∨
      (Store.mk (Store.empty.longReqValidUntils.set Env.quiet.rnd.val (some (0 + longReqValidity)))
        (Store.empty.longReqs.set Env.quiet.rnd.val (some (List.replicate 4 0)))
        Store.empty.longResps).longResps id ≠ none →
      ∃ d,
        (Store.mk (Store.empty.longReqValidUntils.set Env.quiet.rnd.val (some (0 + longReqValidity)))
        (Store.empty.longReqs.set Env.quiet.rnd.val (some (List.replicate 4 0)))
        Store.empty.longResps).longReqValidUntils id = some d ∧
        ∀ t, d < t →
          (reapLong t
            (Store.mk (Store.empty.longReqValidUntils.set Env.quiet.rnd.val (some (0 + longReqValidity)))
        (Store.empty.longReqs.set Env.quiet.rnd.val (some (List.replicate 4 0)))
        Store.empty.longResps)).longReqs id = none ∧
          (reapLong t
            (Store.mk (Store.empty.longReqValidUntils.set Env.quiet.rnd.val (some (0 + longReqValidity)))
        (Store.empty.longReqs.set Env.quiet.rnd.val (some (List.replicate 4 0)))
        Store.empty.longResps)).longResps id = none ∧
          (reapLong t
            (Store.mk (Store.empty.longReqValidUntils.set Env.quiet.rnd.val (some (0 + longReqValidity)))
        (Store.empty.longReqs.set Env.quiet.rnd.val (some (List.replicate 4 0)))
        Store.empty.longResps)).longReqValidUntils id = none) :=
  store_grouping
    (Store.mk (Store.empty.longReqValidUntils.set Env.quiet.rnd.val (some (0 + longReqValidity)))
        (Store.empty.longReqs.set Env.quiet.rnd.val (some (List.replicate 4 0)))
        Store.empty.longResps) []
    (Interleaved.verbS Env.quiet (str "4") Store.empty _ [] Interleaved.start rfl)

/-! ## Session isolation (claim C22) -/

theorem agreeOff_refl (named : Option Str) (st : Store) : st.agreeOff named st :=
  fun _ _ => ⟨rfl, rfl, rfl⟩

theorem agreeOff_create (st : Store) (id : Str) (d : Option Time) (v : Option Bytes) :
    Store.agreeOff (some id)
      (Store.mk (st.longReqValidUntils.set id d) (st.longReqs.set id v) st.longResps) st := by
  intro k hk
  have hne : ¬ k = id := fun e => hk (by rw [e])
  simp [GoMap.set, hne]

theorem agreeOff_write (st : Store) (id : Str) (v : Option Bytes) :
    Store.agreeOff (some id) { st with longReqs := st.longReqs.set id v } st := by
  intro k hk
  have hne : ¬ k = id := fun e => hk (by rw [e])
  simp [GoMap.set, hne]

theorem agreeOff_delete (st : Store) (id : Str) :
    Store.agreeOff (some id) { st with longReqs := st.longReqs.delete id } st := by
  intro k hk
  have hne : ¬ k = id := fun e => hk (by rw [e])
  simp [GoMap.delete, hne]

theorem agreeOff_respond (st : Store) (id : Str) (v : Option Bytes) :
    Store.agreeOff (some id) { st with longResps := st.longResps.set id v } st := by
  intro k hk
  have hne : ¬ k = id := fun e => hk (by rw [e])
  simp [GoMap.set, hne]

theorem agreeOff_trans (named : Option Str) (a b c : Store) (h1 : a.agreeOff named b)
    (h2 : b.agreeOff named c) : a.agreeOff named c := by
  intro k hk
  obtain ⟨x1, x2, x3⟩ := h1 k hk
  obtain ⟨y1, y2, y3⟩ := h2 k hk
  exact ⟨x1.trans y1, x2.trans y2, x3.trans y3⟩

theorem reapLong_agree (t : Time) (id : Str) (a b : Store)
    (hu : a.longReqValidUntils = b.longReqValidUntils) (hr : a.longResps = b.longResps)
    (hq : ∀ k, k ≠ id → a.longReqs k = b.longReqs k) :
    (reapLong t a).longReqValidUntils = (reapLong t b).longReqValidUntils ∧
    (reapLong t a).longResps = (reapLong t b).longResps ∧
    ∀ k, k ≠ id → (reapLong t a).longReqs k = (reapLong t b).longReqs k := by
  have he : ∀ k, expiredAt a t k = expiredAt b t k := by
    intro k
    simp only [expiredAt, hu]
  refine ⟨?_, ?_, ?_⟩
  · funext k
    simp only [reapLong, he, hu]
  · funext k
    simp only [reapLong, he, hr]
  · intro k hk
    simp only [reapLong, he, hq k hk]

theorem reapFold_agree (ts : List Time) (id : Str) : ∀ a b : Store,
    a.longReqValidUntils = b.longReqValidUntils → a.longResps = b.longResps →
    (∀ k, k ≠ id → a.longReqs k = b.longReqs k) →
    Store.agreeOff (some id) (ts.foldl (fun s t => reapLong t s) a)
      (ts.foldl (fun s t => reapLong t s) b) := by
  induction ts with
  | nil =>
    intro a b hu hr hq k hk
    have hne : k ≠ id := fun e => hk (by rw [e])
    exact ⟨hq k hne, by rw [List.foldl_nil, List.foldl_nil, hr],
      by rw [List.foldl_nil, List.foldl_nil, hu]⟩
  | cons t ts ih =>
    intro a b hu hr hq
    obtain ⟨h1, h2, h3⟩ := reapLong_agree t id a b hu hr hq
    exact ih _ _ h1 h2 h3

theorem reapFold_delete_agree (ts : List Time) (id : Str) (st : Store) :
    Store.agreeOff (some id)
      (ts.foldl (fun s t => reapLong t s) { st with longReqs := st.longReqs.delete id })
      (ts.foldl (fun s t => reapLong t s) st) := by
  refine reapFold_agree ts id { st with longReqs := st.longReqs.delete id } st rfl rfl ?_
  intro k hk
  simp [GoMap.delete, hk]

theorem pokeC_named (st st2 : Store) (args : Str) (p : Bytes)
    (h : pokeC st args = .ok p st2) :
    (match (splitN (ch ':') args 3)[0]? with
      | some idStr => decodeString idStr
      | none => none) = some p := by
  unfold pokeC at h
  simp only at h
  repeat' split at h
  all_goals first
    | contradiction
    | (simp only [Outcome.ok.injEq] at h
       obtain ⟨h1, -⟩ := h
       subst h1
       simp [*])

theorem pokeE_store (env : Env) (st st2 : Store) (args : Str)
    (h : (pokeE env st args).store? = some st2) :
    st2 = st ∨ ∃ id, decodeString args = some id ∧
      (st2 = env.reaps.foldl (fun s t => reapLong t s)
          { st with longReqs := st.longReqs.delete id } ∨
       ∃ v, st2 =
          { env.reaps.foldl (fun s t => reapLong t s)
              { st with longReqs := st.longReqs.delete id } with
            longResps := (env.reaps.foldl (fun s t => reapLong t s)
              { st with longReqs := st.longReqs.delete id }).longResps.set id v }) := by
  unfold pokeE at h
  split at h
  · simp only [Outcome.store?, Option.some.injEq] at h
    exact Or.inl h.symm
  · rename_i id decomped st1 hb
    obtain ⟨hdec, longReq, -, -, hst1⟩ := eBegin_ok env st st1 args id decomped hb
    subst hst1
    rcases eFinish_store env _ st2 id _ h with e | ⟨-, v, e⟩
    · exact Or.inr ⟨id, hdec, Or.inl e⟩
    · exact Or.inr ⟨id, hdec, Or.inr ⟨v, e⟩⟩

theorem turnpoke_frame (env : Env) (st st2 : Store) (req : Str)
    (h : (turnpoke env st req).store? = some st2) :
    st2 = st ∨
    (verbOf req ≠ some (str "e") ∧ verbOf req ≠ some (str "r") ∧
      st2.agreeOff (namedSession env req) st) ∨
    (verbOf req = some (str "e") ∧ ∃ id, namedSession env req = some id ∧
      (st2 = env.reaps.foldl (fun s t => reapLong t s)
          { st with longReqs := st.longReqs.delete id } ∨
       ∃ v, st2 =
          { env.reaps.foldl (fun s t => reapLong t s)
              { st with longReqs := st.longReqs.delete id } with
            longResps := (env.reaps.foldl (fun s t => reapLong t s)
              { st with longReqs := st.longReqs.delete id }).longResps.set id v })) := by
  have hse : ¬ str "s" = str "e" := by decide
  have hsr : ¬ str "s" = str "r" := by decide
  have hce : ¬ str "c" = str "e" := by decide
  have hcr : ¬ str "c" = str "r" := by decide
  unfold turnpoke at h
  split at h
  · rename_i method args hsplit
    have hv : verbOf req = some method := by
      unfold verbOf
      rw [hsplit]
    split_ifs at h with h1 h2 h3 h4
    · rcases pokeS_store env st st2 args h with e | ⟨n, e⟩
      · exact Or.inl e
      · have hn : namedSession env req = some env.rnd.val := by
          unfold namedSession
          rw [hsplit]
          simp only [if_pos h1]
        refine Or.inr (Or.inl ⟨?_, ?_, ?_⟩)
        · rw [hv, h1]
          simpa using hse
        · rw [hv, h1]
          simpa using hsr
        · rw [hn, e]
          exact agreeOff_create st _ _ _
    · cases ho : pokeC st args with
      | ok p s2 =>
        rw [ho] at h
        simp only [Outcome.store?, Option.some.injEq] at h
        subst h
        obtain ⟨long, new, -, e⟩ := pokeC_ok st s2 args p ho
        have hn : namedSession env req = some p := by
          unfold namedSession
          rw [hsplit]
          simp only [if_neg h1, if_pos h2]
          exact pokeC_named st s2 args p ho
        refine Or.inr (Or.inl ⟨?_, ?_, ?_⟩)
        · rw [hv, h2]
          simpa using hce
        · rw [hv, h2]
          simpa using hcr
        · rw [hn, e]
          exact agreeOff_write st p _
      | error e s2 =>
        rw [ho] at h
        simp only [Outcome.store?, Option.some.injEq] at h
        subst h
        exact Or.inl (pokeC_error st s2 args e ho)
      | panic =>
        rw [ho] at h
        simp [Outcome.store?] at h
    · rcases pokeE_store env st st2 args h with e | ⟨id, hdec, e⟩
      · exact Or.inl e
      · have hn : namedSession env req = some id := by
          unfold namedSession
          rw [hsplit]
          simp only [if_neg h1, if_neg h2, if_pos h3]
          exact hdec
        exact Or.inr (Or.inr ⟨by rw [hv, h3], id, hn, e⟩)
    · exact Or.inl (pokeR_store st st2 args h)
    · simp only [Outcome.store?, Option.some.injEq] at h
      exact Or.inl h.symm
  · simp only [Outcome.store?, Option.some.injEq] at h
    exact Or.inl h.symm

theorem reapFold_keeps (ts : List Time) (id : Str) : ∀ st : Store,
    (∀ d, st.longReqValidUntils id = some d → ∀ t ∈ ts, ¬ d < t) →
    (ts.foldl (fun s t => reapLong t s) st).longReqs id = st.longReqs id ∧
    (ts.foldl (fun s t => reapLong t s) st).longResps id = st.longResps id ∧
    (ts.foldl (fun s t => reapLong t s) st).longReqValidUntils id =
      st.longReqValidUntils id := by
  induction ts with
  | nil => intro st _; exact ⟨rfl, rfl, rfl⟩
  | cons t0 ts ih =>
    intro st hk
    rw [List.foldl_cons]
    have hexp : expiredAt st t0 id = false := by
      unfold expiredAt
      cases hu : st.longReqValidUntils id with
      | none => rfl
      | some d =>
        have hnl := hk d hu t0 (List.mem_cons_self _ _)
        simp [hnl]
    have h1 : (reapLong t0 st).longReqs id = st.longReqs id := by simp [reapLong, hexp]
    have h2 : (reapLong t0 st).longResps id = st.longResps id := by simp [reapLong, hexp]
    have h3 : (reapLong t0 st).longReqValidUntils id = st.longReqValidUntils id := by
      simp [reapLong, hexp]
    obtain ⟨k1, k2, k3⟩ := ih (reapLong t0 st) (by
      intro d hd t ht
      rw [h3] at hd
      exact hk d hd t (List.mem_cons_of_mem _ ht))
    exact ⟨k1.trans h1, k2.trans h2, k3.trans h3⟩

/-- C22, as stated, fails for `e`: two `s` commands create the sessions A (deadline 30 s)
and B (deadline 35 s); an `e` on B, during whose HTTP call the reaper runs at 32 s,
returns, and the request buffer and the deadline of A, which the command does not name,
are gone. -/
theorem session_isolation_fails :
    ∃ st1 st2 st3 payload,
      turnpoke Env.quiet Store.empty (str "s:2") = .ok Env.quiet.rnd.val st1 ∧
      turnpoke Env.second st1 (str "s:2") = .ok Env.second.rnd.val st2 ∧
      turnpoke Env.reaping st2 (cmdE Env.second.rnd.val) = .ok payload st3 ∧
      namedSession Env.reaping (cmdE Env.second.rnd.val) = some Env.second.rnd.val ∧
      Env.quiet.rnd.val ≠ Env.second.rnd.val ∧
      st2.longReqs Env.quiet.rnd.val = some [0, 0] ∧
      st2.longReqValidUntils Env.quiet.rnd.val = some 30000000000 ∧
      st3.longReqs Env.quiet.rnd.val = none ∧
      st3.longReqValidUntils Env.quiet.rnd.val = none := by
  have h1 : turnpoke Env.quiet Store.empty (str "s:2") = .ok Env.quiet.rnd.val
    (Store.mk (Store.empty.longReqValidUntils.set Env.quiet.rnd.val (some 30000000000))
      (Store.empty.longReqs.set Env.quiet.rnd.val (some (List.replicate 2 0)))
      Store.empty.longResps) := rfl
  have h2 : turnpoke Env.second
    (Store.mk (Store.empty.longReqValidUntils.set Env.quiet.rnd.val (some 30000000000))
      (Store.empty.longReqs.set Env.quiet.rnd.val (some (List.replicate 2 0)))
      Store.empty.longResps) (str "s:2") = .ok Env.second.rnd.val
    (Store.mk
      ((Store.empty.longReqValidUntils.set Env.quiet.rnd.val (some 30000000000)).set
        Env.second.rnd.val (some 35000000000))
      ((Store.empty.longReqs.set Env.quiet.rnd.val (some (List.replicate 2 0))).set
        Env.second.rnd.val (some (List.replicate 2 0)))
      Store.empty.longResps) := rfl
  have hne : Env.quiet.rnd.val ≠ Env.second.rnd.val := by decide
  have h3 : turnpoke Env.reaping
    (Store.mk
      ((Store.empty.longReqValidUntils.set Env.quiet.rnd.val (some 30000000000)).set
        Env.second.rnd.val (some 35000000000))
      ((Store.empty.longReqs.set Env.quiet.rnd.val (some (List.replicate 2 0))).set
        Env.second.rnd.val (some (List.replicate 2 0)))
      Store.empty.longResps) (cmdE Env.second.rnd.val) = .ok (lenBytes [0x78, 0])
    (Store.mk
      (reapLong 32000000000
        (Store.mk
      ((Store.empty.longReqValidUntils.set Env.quiet.rnd.val (some 30000000000)).set
        Env.second.rnd.val (some 35000000000))
      (((Store.empty.longReqs.set Env.quiet.rnd.val (some (List.replicate 2 0))).set
        Env.second.rnd.val (some (List.replicate 2 0))).delete Env.second.rnd.val)
      Store.empty.longResps)).longReqValidUntils
      (reapLong 32000000000
        (Store.mk
      ((Store.empty.longReqValidUntils.set Env.quiet.rnd.val (some 30000000000)).set
        Env.second.rnd.val (some 35000000000))
      (((Store.empty.longReqs.set Env.quiet.rnd.val (some (List.replicate 2 0))).set
        Env.second.rnd.val (some (List.replicate 2 0))).delete Env.second.rnd.val)
      Store.empty.longResps)).longReqs
      ((reapLong 32000000000
        (Store.mk
      ((Store.empty.longReqValidUntils.set Env.quiet.rnd.val (some 30000000000)).set
        Env.second.rnd.val (some 35000000000))
      (((Store.empty.longReqs.set Env.quiet.rnd.val (some (List.replicate 2 0))).set
        Env.second.rnd.val (some (List.replicate 2 0))).delete Env.second.rnd.val)
      Store.empty.longResps)).longResps.set
        Env.second.rnd.val (some [0x78, 0]))) := by
    rw [turnpoke_cmdE]
    unfold pokeE
    rw [eBegin_encoded]
    rfl
  have hn : namedSession Env.reaping (cmdE Env.second.rnd.val) = some Env.second.rnd.val := by
    have hes : ¬ str "e" = str "s" := by decide
    have hec : ¬ str "e" = str "c" := by decide
    simp only [namedSession, cmdE, command, splitN_two _ _ _ (show ch ':' ∉ str "e" by decide),
      if_neg hes, if_neg hec, if_true]
    exact decodeString_encodeToString _
  exact ⟨_, _, _, _, h1, h2, h3, hn, hne, by decide, by decide, by decide, by decide⟩

/-- C22, amended: a command that returns leaves the request buffer, response buffer and
deadline of every session other than the one it names (for `s`: the one it creates) as
they were, unless the command is an `e`: then every other session is either as it was or
removed altogether, and removed only if its deadline lay before one of the reaper runs
that fell into the HTTP call; with no such run every other session is unchanged.  `e`
itself writes only the named session in each of its two locked phases.  An `r` command,
successful or not, leaves the whole store unchanged. -/
theorem session_isolation (env : Env) (st st2 : Store) (req : Str)
    (h : (turnpoke env st req).store? = some st2) :
    (verbOf req ≠ some (str "e") → st2.agreeOff (namedSession env req) st) ∧
    (verbOf req = some (str "e") →
      st2 = st ∨
      st2.agreeOff (namedSession env req) (env.reaps.foldl (fun s t => reapLong t s) st)) ∧
    (verbOf req = some (str "e") →
      ∀ id, namedSession env req ≠ some id →
        (st2.longReqs id = st.longReqs id ∧ st2.longResps id = st.longResps id ∧
          st2.longReqValidUntils id = st.longReqValidUntils id) ∨
        (st2.longReqs id = none ∧ st2.longResps id = none ∧
          st2.longReqValidUntils id = none ∧
          ∃ d, st.longReqValidUntils id = some d ∧ ∃ t ∈ env.reaps, d < t)) ∧
    (env.reaps = [] → st2.agreeOff (namedSession env req) st) ∧
    (verbOf req = some (str "r") → st2 = st) ∧
    (∀ args id decomped st1, eBegin env st args = .ok (id, decomped, st1) →
      st1.agreeOff (some id) st) ∧
    (∀ s s2 id longResp, (eFinish env s id longResp).store? = some s2 →
      s2.agreeOff (some id) s) := by
  have her : ¬ str "e" = str "r" := by decide
  have hreaped : ∀ id, namedSession env req = some id →
      ∀ s2 : Store,
      (s2 = env.reaps.foldl (fun s t => reapLong t s)
          { st with longReqs := st.longReqs.delete id } ∨
       ∃ v, s2 =
          { env.reaps.foldl (fun s t => reapLong t s)
              { st with longReqs := st.longReqs.delete id } with
            longResps := (env.reaps.foldl (fun s t => reapLong t s)
              { st with longReqs := st.longReqs.delete id }).longResps.set id v }) →
      s2.agreeOff (namedSession env req) (env.reaps.foldl (fun s t => reapLong t s) st) := by
    intro id hn s2 hs
    rw [hn]
    rcases hs with e | ⟨v, e⟩
    · rw [e]
      exact reapFold_delete_agree env.reaps id st
    · rw [e]
      exact agreeOff_trans _ _ _ _ (agreeOff_respond _ id v)
        (reapFold_delete_agree env.reaps id st)
  refine ⟨?_, ?_, ?_, ?_, ?_, ?_, ?_⟩
  · intro hne
    rcases turnpoke_frame env st st2 req h with e | ⟨-, -, ha⟩ | ⟨hv, -⟩
    · rw [e]
      exact agreeOff_refl _ st
    · exact ha
    · exact absurd hv hne
  · intro _
    rcases turnpoke_frame env st st2 req h with e | ⟨hne, -, -⟩ | ⟨-, id, hn, hs⟩
    · exact Or.inl e
    · rename_i hv
      exact absurd hv hne
    · exact Or.inr (hreaped id hn st2 hs)
  · intro hve k hk
    rcases turnpoke_frame env st st2 req h with e | ⟨hne, -, -⟩ | ⟨-, id, hn, hs⟩
    · rw [e]
      exact Or.inl ⟨rfl, rfl, rfl⟩
    · exact absurd hve hne
    · obtain ⟨a1, a2, a3⟩ := hreaped id hn st2 hs k hk
      rw [a1, a2, a3]
      cases hu : st.longReqValidUntils k with
      | none =>
        left
        obtain ⟨k1, k2, k3⟩ := reapFold_keeps env.reaps k st (by
          intro d hd
          rw [hu] at hd
          contradiction)
        rw [hu] at k3
        exact ⟨k1, k2, k3⟩
      | some d =>
        by_cases hex : ∃ t ∈ env.reaps, d < t
        · right
          obtain ⟨r1, r2, r3⟩ := reapFold_removes env.reaps k d st hu hex
          exact ⟨r2, r3, r1, d, rfl, hex⟩
        · left
          obtain ⟨k1, k2, k3⟩ := reapFold_keeps env.reaps k st (by
            intro d2 hd t ht hlt
            rw [hu] at hd
            simp only [Option.some.injEq] at hd
            subst hd
            exact hex ⟨t, ht, hlt⟩)
          rw [hu] at k3
          exact ⟨k1, k2, k3⟩
  · intro hnil
    rcases turnpoke_frame env st st2 req h with e | ⟨-, -, ha⟩ | ⟨-, id, hn, hs⟩
    · rw [e]
      exact agreeOff_refl _ st
    · exact ha
    · have hr := hreaped id hn st2 hs
      rw [hnil, List.foldl_nil] at hr
      exact hr
  · intro hvr
    rcases turnpoke_frame env st st2 req h with e | ⟨-, hnr, -⟩ | ⟨hv, -⟩
    · exact e
    · exact absurd hvr hnr
    · rw [hv] at hvr
      simp only [Option.some.injEq] at hvr
      exact absurd hvr her
  · intro args id decomped st1 hb
    obtain ⟨-, longReq, -, -, e⟩ := eBegin_ok env st st1 args id decomped hb
    rw [e]
    exact agreeOff_delete st id
  · intro s s2 id longResp hf
    rcases eFinish_store env s s2 id longResp hf with e | ⟨-, v, e⟩
    · rw [e]
      exact agreeOff_refl _ s
    · rw [e]
      exact agreeOff_respond s id v

theorem session_isolation_witness :
    (verbOf (cmdE Env.second.rnd.val) ≠ some (str "e") →
      Store.agreeOff (namedSession Env.reaping (cmdE Env.second.rnd.val))
        (Store.mk
      (reapLong 32000000000
        (Store.mk
      ((Store.empty.longReqValidUntils.set Env.quiet.rnd.val (some 30000000000)).set
        Env.second.rnd.val (some 35000000000))
      (((Store.empty.longReqs.set Env.quiet.rnd.val (some (List.replicate 2 0))).set
        Env.second.rnd.val (some (List.replicate 2 0))).delete Env.second.rnd.val)
      Store.empty.longResps)).longReqValidUntils
      (reapLong 32000000000
        (Store.mk
      ((Store.empty.longReqValidUntils.set Env.quiet.rnd.val (some 30000000000)).set
        Env.second.rnd.val (some 35000000000))
      (((Store.empty.longReqs.set Env.quiet.rnd.val (some (List.replicate 2 0))).set
        Env.second.rnd.val (some (List.replicate 2 0))).delete Env.second.rnd.val)
      Store.empty.longResps)).longReqs
      ((reapLong 32000000000
        (Store.mk
      ((Store.empty.longReqValidUntils.set Env.quiet.rnd.val (some 30000000000)).set
        Env.second.rnd.val (some 35000000000))
      (((Store.empty.longReqs.set Env.quiet.rnd.val (some (List.replicate 2 0))).set
        Env.second.rnd.val (some (List.replicate 2 0))).delete Env.second.rnd.val)
      Store.empty.longResps)).longResps.set
        Env.second.rnd.val (some [0x78, 0])))
        (Store.mk
      ((Store.empty.longReqValidUntils.set Env.quiet.rnd.val (some 30000000000)).set
        Env.second.rnd.val (some 35000000000))
      ((Store.empty.longReqs.set Env.quiet.rnd.val (some (List.replicate 2 0))).set
        Env.second.rnd.val (some (List.replicate 2 0)))
      Store.empty.longResps)) ∧
    (verbOf (cmdE Env.second.rnd.val) = some (str "e") →
      (Store.mk
      (reapLong 32000000000
        (Store.mk
      ((Store.empty.longReqValidUntils.set Env.quiet.rnd.val (some 30000000000)).set
        Env.second.rnd.val (some 35000000000))
      (((Store.empty.longReqs.set Env.quiet.rnd.val (some (List.replicate 2 0))).set
        Env.second.rnd.val (some (List.replicate 2 0))).delete Env.second.rnd.val)
      Store.empty.longResps)).longReqValidUntils
      (reapLong 32000000000
        (Store.mk
      ((Store.empty.longReqValidUntils.set Env.quiet.rnd.val (some 30000000000)).set
        Env.second.rnd.val (some 35000000000))
      (((Store.empty.longReqs.set Env.quiet.rnd.val (some (List.replicate 2 0))).set
        Env.second.rnd.val (some (List.replicate 2 0))).delete Env.second.rnd.val)
      Store.empty.longResps)).longReqs
      ((reapLong 32000000000
        (Store.mk
      ((Store.empty.longReqValidUntils.set Env.quiet.rnd.val (some 30000000000)).set
        Env.second.rnd.val (some 35000000000))
      (((Store.empty.longReqs.set Env.quiet.rnd.val (some (List.replicate 2 0))).set
        Env.second.rnd.val (some (List.replicate 2 0))).delete Env.second.rnd.val)
      Store.empty.longResps)).longResps.set
        Env.second.rnd.val (some [0x78, 0]))) =
      (Store.mk
      ((Store.empty.longReqValidUntils.set Env.quiet.rnd.val (some 30000000000)).set
        Env.second.rnd.val (some 35000000000))
      ((Store.empty.longReqs.set Env.quiet.rnd.val (some (List.replicate 2 0))).set
        Env.second.rnd.val (some (List.replicate 2 0)))
      Store.empty.longResps) ∨
      Store.agreeOff (namedSession Env.reaping (cmdE Env.second.rnd.val))
        (Store.mk
      (reapLong 32000000000
        (Store.mk
      ((Store.empty.longReqValidUntils.set Env.quiet.rnd.val (some 30000000000)).set
        Env.second.rnd.val (some 35000000000))
      (((Store.empty.longReqs.set Env.quiet.rnd.val (some (List.replicate 2 0))).set
        Env.second.rnd.val (some (List.replicate 2 0))).delete Env.second.rnd.val)
      Store.empty.longResps)).longReqValidUntils
      (reapLong 32000000000
        (Store.mk
      ((Store.empty.longReqValidUntils.set Env.quiet.rnd.val (some 30000000000)).set
        Env.second.rnd.val (some 35000000000))
      (((Store.empty.longReqs.set Env.quiet.rnd.val (some (List.replicate 2 0))).set
        Env.second.rnd.val (some (List.replicate 2 0))).delete Env.second.rnd.val)
      Store.empty.longResps)).longReqs
      ((reapLong 32000000000
        (Store.mk
      ((Store.empty.longReqValidUntils.set Env.quiet.rnd.val (some 30000000000)).set
        Env.second.rnd.val (some 35000000000))
      (((Store.empty.longReqs.set Env.quiet.rnd.val (some (List.replicate 2 0))).set
        Env.second.rnd.val (some (List.replicate 2 0))).delete Env.second.rnd.val)
      Store.empty.longResps)).longResps.set
        Env.second.rnd.val (some [0x78, 0])))
        (Env.reaping.reaps.foldl (fun s t => reapLong t s)
        (Store.mk
      ((Store.empty.longReqValidUntils.set Env.quiet.rnd.val (some 30000000000)).set
        Env.second.rnd.val (some 35000000000))
      ((Store.empty.longReqs.set Env.quiet.rnd.val (some (List.replicate 2 0))).set
        Env.second.rnd.val (some (List.replicate 2 0)))
      Store.empty.longResps))) ∧
    (verbOf (cmdE Env.second.rnd.val) = some (str "e") →
      ∀ id, namedSession Env.reaping (cmdE Env.second.rnd.val) ≠ some id →
        ((Store.mk
      (reapLong 32000000000
        (Store.mk
      ((Store.empty.longReqValidUntils.set Env.quiet.rnd.val (some 30000000000)).set
        Env.second.rnd.val (some 35000000000))
      (((Store.empty.longReqs.set Env.quiet.rnd.val (some (List.replicate 2 0))).set
        Env.second.rnd.val (some (List.replicate 2 0))).delete Env.second.rnd.val)
      Store.empty.longResps)).longReqValidUntils
      (reapLong 32000000000
        (Store.mk
      ((Store.empty.longReqValidUntils.set Env.quiet.rnd.val (some 30000000000)).set
        Env.second.rnd.val (some 35000000000))
      (((Store.empty.longReqs.set Env.quiet.rnd.val (some (List.replicate 2 0))).set
        Env.second.rnd.val (some (List.replicate 2 0))).delete Env.second.rnd.val)
      Store.empty.longResps)).longReqs
      ((reapLong 32000000000
        (Store.mk
      ((Store.empty.longReqValidUntils.set Env.quiet.rnd.val (some 30000000000)).set
        Env.second.rnd.val (some 35000000000))
      (((Store.empty.longReqs.set Env.quiet.rnd.val (some (List.replicate 2 0))).set
        Env.second.rnd.val (some (List.replicate 2 0))).delete Env.second.rnd.val)
      Store.empty.longResps)).longResps.set
        Env.second.rnd.val (some [0x78, 0]))).longReqs id =
          (Store.mk
      ((Store.empty.longReqValidUntils.set Env.quiet.rnd.val (some 30000000000)).set
        Env.second.rnd.val (some 35000000000))
      ((Store.empty.longReqs.set Env.quiet.rnd.val (some (List.replicate 2 0))).set
        Env.second.rnd.val (some (List.replicate 2 0)))
      Store.empty.longResps).longReqs id ∧
         (Store.mk
      (reapLong 32000000000
        (Store.mk
      ((Store.empty.longReqValidUntils.set Env.quiet.rnd.val (some 30000000000)).set
        Env.second.rnd.val (some 35000000000))
      (((Store.empty.longReqs.set Env.quiet.rnd.val (some (List.replicate 2 0))).set
        Env.second.rnd.val (some (List.replicate 2 0))).delete Env.second.rnd.val)
      Store.empty.longResps)).longReqValidUntils
      (reapLong 32000000000
        (Store.mk
      ((Store.empty.longReqValidUntils.set Env.quiet.rnd.val (some 30000000000)).set
        Env.second.rnd.val (some 35000000000))
      (((Store.empty.longReqs.set Env.quiet.rnd.val (some (List.replicate 2 0))).set
        Env.second.rnd.val (some (List.replicate 2 0))).delete Env.second.rnd.val)
      Store.empty.longResps)).longReqs
      ((reapLong 32000000000
        (Store.mk
      ((Store.empty.longReqValidUntils.set Env.quiet.rnd.val (some 30000000000)).set
        Env.second.rnd.val (some 35000000000))
      (((Store.empty.longReqs.set Env.quiet.rnd.val (some (List.replicate 2 0))).set
        Env.second.rnd.val (some (List.replicate 2 0))).delete Env.second.rnd.val)
      Store.empty.longResps)).longResps.set
        Env.second.rnd.val (some [0x78, 0]))).longResps id =
          (Store.mk
      ((Store.empty.longReqValidUntils.set Env.quiet.rnd.val (some 30000000000)).set
        Env.second.rnd.val (some 35000000000))
      ((Store.empty.longReqs.set Env.quiet.rnd.val (some (List.replicate 2 0))).set
        Env.second.rnd.val (some (List.replicate 2 0)))
      Store.empty.longResps).longResps id ∧
         (Store.mk
      (reapLong 32000000000
        (Store.mk
      ((Store.empty.longReqValidUntils.set Env.quiet.rnd.val (some 30000000000)).set
        Env.second.rnd.val (some 35000000000))
      (((Store.empty.longReqs.set Env.quiet.rnd.val (some (List.replicate 2 0))).set
        Env.second.rnd.val (some (List.replicate 2 0))).delete Env.second.rnd.val)
      Store.empty.longResps)).longReqValidUntils
      (reapLong 32000000000
        (Store.mk
      ((Store.empty.longReqValidUntils.set Env.quiet.rnd.val (some 30000000000)).set
        Env.second.rnd.val (some 35000000000))
      (((Store.empty.longReqs.set Env.quiet.rnd.val (some (List.replicate 2 0))).set
        Env.second.rnd.val (some (List.replicate 2 0))).delete Env.second.rnd.val)
      Store.empty.longResps)).longReqs
      ((reapLong 32000000000
        (Store.mk
      ((Store.empty.longReqValidUntils.set Env.quiet.rnd.val (some 30000000000)).set
        Env.second.rnd.val (some 35000000000))
      (((Store.empty.longReqs.set Env.quiet.rnd.val (some (List.replicate 2 0))).set
        Env.second.rnd.val (some (List.replicate 2 0))).delete Env.second.rnd.val)
      Store.empty.longResps)).longResps.set
        Env.second.rnd.val (some [0x78, 0]))).longReqValidUntils id =
          (Store.mk
      ((Store.empty.longReqValidUntils.set Env.quiet.rnd.val (some 30000000000)).set
        Env.second.rnd.val (some 35000000000))
      ((Store.empty.longReqs.set Env.quiet.rnd.val (some (List.replicate 2 0))).set
        Env.second.rnd.val (some (List.replicate 2 0)))
      Store.empty.longResps).longReqValidUntils id) ∨
        ((Store.mk
      (reapLong 32000000000
        (Store.mk
      ((Store.empty.longReqValidUntils.set Env.quiet.rnd.val (some 30000000000)).set
        Env.second.rnd.val (some 35000000000))
      (((Store.empty.longReqs.set Env.quiet.rnd.val (some (List.replicate 2 0))).set
        Env.second.rnd.val (some (List.replicate 2 0))).delete Env.second.rnd.val)
      Store.empty.longResps)).longReqValidUntils
      (reapLong 32000000000
        (Store.mk
      ((Store.empty.longReqValidUntils.set Env.quiet.rnd.val (some 30000000000)).set
        Env.second.rnd.val (some 35000000000))
      (((Store.empty.longReqs.set Env.quiet.rnd.val (some (List.replicate 2 0))).set
        Env.second.rnd.val (some (List.replicate 2 0))).delete Env.second.rnd.val)
      Store.empty.longResps)).longReqs
      ((reapLong 32000000000
        (Store.mk
      ((Store.empty.longReqValidUntils.set Env.quiet.rnd.val (some 30000000000)).set
        Env.second.rnd.val (some 35000000000))
      (((Store.empty.longReqs.set Env.quiet.rnd.val (some (List.replicate 2 0))).set
        Env.second.rnd.val (some (List.replicate 2 0))).delete Env.second.rnd.val)
      Store.empty.longResps)).longResps.set
        Env.second.rnd.val (some [0x78, 0]))).longReqs id = none ∧
         (Store.mk
      (reapLong 32000000000
        (Store.mk
      ((Store.empty.longReqValidUntils.set Env.quiet.rnd.val (some 30000000000)).set
        Env.second.rnd.val (some 35000000000))
      (((Store.empty.longReqs.set Env.quiet.rnd.val (some (List.replicate 2 0))).set
        Env.second.rnd.val (some (List.replicate 2 0))).delete Env.second.rnd.val)
      Store.empty.longResps)).longReqValidUntils
      (reapLong 32000000000
        (Store.mk
      ((Store.empty.longReqValidUntils.set Env.quiet.rnd.val (some 30000000000)).set
        Env.second.rnd.val (some 35000000000))
      (((Store.empty.longReqs.set Env.quiet.rnd.val (some (List.replicate 2 0))).set
        Env.second.rnd.val (some (List.replicate 2 0))).delete Env.second.rnd.val)
      Store.empty.longResps)).longReqs
      ((reapLong 32000000000
        (Store.mk
      ((Store.empty.longReqValidUntils.set Env.quiet.rnd.val (some 30000000000)).set
        Env.second.rnd.val (some 35000000000))
      (((Store.empty.longReqs.set Env.quiet.rnd.val (some (List.replicate 2 0))).set
        Env.second.rnd.val (some (List.replicate 2 0))).delete Env.second.rnd.val)
      Store.empty.longResps)).longResps.set
        Env.second.rnd.val (some [0x78, 0]))).longResps id = none ∧
         (Store.mk
      (reapLong 32000000000
        (Store.mk
      ((Store.empty.longReqValidUntils.set Env.quiet.rnd.val (some 30000000000)).set
        Env.second.rnd.val (some 35000000000))
      (((Store.empty.longReqs.set Env.quiet.rnd.val (some (List.replicate 2 0))).set
        Env.second.rnd.val (some (List.replicate 2 0))).delete Env.second.rnd.val)
      Store.empty.longResps)).longReqValidUntils
      (reapLong 32000000000
        (Store.mk
      ((Store.empty.longReqValidUntils.set Env.quiet.rnd.val (some 30000000000)).set
        Env.second.rnd.val (some 35000000000))
      (((Store.empty.longReqs.set Env.quiet.rnd.val (some (List.replicate 2 0))).set
        Env.second.rnd.val (some (List.replicate 2 0))).delete Env.second.rnd.val)
      Store.empty.longResps)).longReqs
      ((reapLong 32000000000
        (Store.mk
      ((Store.empty.longReqValidUntils.set Env.quiet.rnd.val (some 30000000000)).set
        Env.second.rnd.val (some 35000000000))
      (((Store.empty.longReqs.set Env.quiet.rnd.val (some (List.replicate 2 0))).set
        Env.second.rnd.val (some (List.replicate 2 0))).delete Env.second.rnd.val)
      Store.empty.longResps)).longResps.set
        Env.second.rnd.val (some [0x78, 0]))).longReqValidUntils id = none ∧
         ∃ d, (Store.mk
      ((Store.empty.longReqValidUntils.set Env.quiet.rnd.val (some 30000000000)).set
        Env.second.rnd.val (some 35000000000))
      ((Store.empty.longReqs.set Env.quiet.rnd.val (some (List.replicate 2 0))).set
        Env.second.rnd.val (some (List.replicate 2 0)))
      Store.empty.longResps).longReqValidUntils id = some d ∧
           ∃ t ∈ Env.reaping.reaps, d < t)) ∧
    (Env.reaping.reaps = [] →
      Store.agreeOff (namedSession Env.reaping (cmdE Env.second.rnd.val))
        (Store.mk
      (reapLong 32000000000
        (Store.mk
      ((Store.empty.longReqValidUntils.set Env.quiet.rnd.val (some 30000000000)).set
        Env.second.rnd.val (some 35000000000))
      (((Store.empty.longReqs.set Env.quiet.rnd.val (some (List.replicate 2 0))).set
        Env.second.rnd.val (some (List.replicate 2 0))).delete Env.second.rnd.val)
      Store.empty.longResps)).longReqValidUntils
      (reapLong 32000000000
        (Store.mk
      ((Store.empty.longReqValidUntils.set Env.quiet.rnd.val (some 30000000000)).set
        Env.second.rnd.val (some 35000000000))
      (((Store.empty.longReqs.set Env.quiet.rnd.val (some (List.replicate 2 0))).set
        Env.second.rnd.val (some (List.replicate 2 0))).delete Env.second.rnd.val)
      Store.empty.longResps)).longReqs
      ((reapLong 32000000000
        (Store.mk
      ((Store.empty.longReqValidUntils.set Env.quiet.rnd.val (some 30000000000)).set
        Env.second.rnd.val (some 35000000000))
      (((Store.empty.longReqs.set Env.quiet.rnd.val (some (List.replicate 2 0))).set
        Env.second.rnd.val (some (List.replicate 2 0))).delete Env.second.rnd.val)
      Store.empty.longResps)).longResps.set
        Env.second.rnd.val (some [0x78, 0])))
        (Store.mk
      ((Store.empty.longReqValidUntils.set Env.quiet.rnd.val (some 30000000000)).set
        Env.second.rnd.val (some 35000000000))
      ((Store.empty.longReqs.set Env.quiet.rnd.val (some (List.replicate 2 0))).set
        Env.second.rnd.val (some (List.replicate 2 0)))
      Store.empty.longResps)) ∧
    (verbOf (cmdE Env.second.rnd.val) = some (str "r") →
      (Store.mk
      (reapLong 32000000000
        (Store.mk
      ((Store.empty.longReqValidUntils.set Env.quiet.rnd.val (some 30000000000)).set
        Env.second.rnd.val (some 35000000000))
      (((Store.empty.longReqs.set Env.quiet.rnd.val (some (List.replicate 2 0))).set
        Env.second.rnd.val (some (List.replicate 2 0))).delete Env.second.rnd.val)
      Store.empty.longResps)).longReqValidUntils
      (reapLong 32000000000
        (Store.mk
      ((Store.empty.longReqValidUntils.set Env.quiet.rnd.val (some 30000000000)).set
        Env.second.rnd.val (some 35000000000))
      (((Store.empty.longReqs.set Env.quiet.rnd.val (some (List.replicate 2 0))).set
        Env.second.rnd.val (some (List.replicate 2 0))).delete Env.second.rnd.val)
      Store.empty.longResps)).longReqs
      ((reapLong 32000000000
        (Store.mk
      ((Store.empty.longReqValidUntils.set Env.quiet.rnd.val (some 30000000000)).set
        Env.second.rnd.val (some 35000000000))
      (((Store.empty.longReqs.set Env.quiet.rnd.val (some (List.replicate 2 0))).set
        Env.second.rnd.val (some (List.replicate 2 0))).delete Env.second.rnd.val)
      Store.empty.longResps)).longResps.set
        Env.second.rnd.val (some [0x78, 0]))) =
      (Store.mk
      ((Store.empty.longReqValidUntils.set Env.quiet.rnd.val (some 30000000000)).set
        Env.second.rnd.val (some 35000000000))
      ((Store.empty.longReqs.set Env.quiet.rnd.val (some (List.replicate 2 0))).set
        Env.second.rnd.val (some (List.replicate 2 0)))
      Store.empty.longResps)) ∧
    (∀ args id decomped st1,
      eBegin Env.reaping (Store.mk
      ((Store.empty.longReqValidUntils.set Env.quiet.rnd.val (some 30000000000)).set
        Env.second.rnd.val (some 35000000000))
      ((Store.empty.longReqs.set Env.quiet.rnd.val (some (List.replicate 2 0))).set
        Env.second.rnd.val (some (List.replicate 2 0)))
      Store.empty.longResps) args = .ok (id, decomped, st1) →
      st1.agreeOff (some id) (Store.mk
      ((Store.empty.longReqValidUntils.set Env.quiet.rnd.val (some 30000000000)).set
        Env.second.rnd.val (some 35000000000))
      ((Store.empty.longReqs.set Env.quiet.rnd.val (some (List.replicate 2 0))).set
        Env.second.rnd.val (some (List.replicate 2 0)))
      Store.empty.longResps)) ∧
    (∀ s s2 id longResp, (eFinish Env.reaping s id longResp).store? = some s2 →
      s2.agreeOff (some id) s) :=
  session_isolation Env.reaping
    (Store.mk
      ((Store.empty.longReqValidUntils.set Env.quiet.rnd.val (some 30000000000)).set
        Env.second.rnd.val (some 35000000000))
      ((Store.empty.longReqs.set Env.quiet.rnd.val (some (List.replicate 2 0))).set
        Env.second.rnd.val (some (List.replicate 2 0)))
      Store.empty.longResps)
    (Store.mk
      (reapLong 32000000000
        (Store.mk
      ((Store.empty.longReqValidUntils.set Env.quiet.rnd.val (some 30000000000)).set
        Env.second.rnd.val (some 35000000000))
      (((Store.empty.longReqs.set Env.quiet.rnd.val (some (List.replicate 2 0))).set
        Env.second.rnd.val (some (List.replicate 2 0))).delete Env.second.rnd.val)
      Store.empty.longResps)).longReqValidUntils
      (reapLong 32000000000
        (Store.mk
      ((Store.empty.longReqValidUntils.set Env.quiet.rnd.val (some 30000000000)).set
        Env.second.rnd.val (some 35000000000))
      (((Store.empty.longReqs.set Env.quiet.rnd.val (some (List.replicate 2 0))).set
        Env.second.rnd.val (some (List.replicate 2 0))).delete Env.second.rnd.val)
      Store.empty.longResps)).longReqs
      ((reapLong 32000000000
        (Store.mk
      ((Store.empty.longReqValidUntils.set Env.quiet.rnd.val (some 30000000000)).set
        Env.second.rnd.val (some 35000000000))
      (((Store.empty.longReqs.set Env.quiet.rnd.val (some (List.replicate 2 0))).set
        Env.second.rnd.val (some (List.replicate 2 0))).delete Env.second.rnd.val)
      Store.empty.longResps)).longResps.set
        Env.second.rnd.val (some [0x78, 0])))
    (cmdE Env.second.rnd.val)
    (by
      rw [turnpoke_cmdE]
      unfold pokeE
      rw [eBegin_encoded]
      rfl)

/-! ## Expiry: the reach of lookups while the clock advances (claim C16) -/

theorem timed_interleaved (now h : Time) (st : Store) (pending : List (Str × Bytes))
    (ht : Timed now h st pending) : Interleaved st pending := by
  induction ht with
  | start t0 => exact Interleaved.start
  | verbS env args now h st st2 pending _ _ hs ih =>
    exact Interleaved.verbS env args st st2 pending ih hs
  | verbC t args now h st st2 pending _ _ hs ih =>
    exact Interleaved.verbC args st st2 pending ih hs
  | verbR t args now h st st2 pending _ _ hs ih =>
    exact Interleaved.verbR args st st2 pending ih hs
  | eLock env t args id decomped now h st st1 pending _ _ hb ih =>
    exact Interleaved.eLock env args id decomped st st1 pending ih hb
  | eRelock env t id decomped now h st st2 pending _ _ hm hf ih =>
    exact Interleaved.eRelock env id decomped st st2 pending ih hm hf
  | reap t now h st pending _ _ ih => exact Interleaved.reap t st pending ih

theorem timed_notBefore (now h : Time) (st : Store) (pending : List (Str × Bytes))
    (ht : Timed now h st pending) : h ≤ now ∧ st.notBefore h := by
  induction ht with
  | start t0 => exact ⟨Int.le_refl _, fun k d hk => by simp [Store.empty] at hk⟩
  | verbS env args now h st st2 pending _ hnow hs ih =>
    have hle : h ≤ env.now := Int.le_trans ih.1 hnow
    refine ⟨hle, ?_⟩
    rcases pokeS_store env st st2 args hs with e | ⟨n, e⟩
    · rw [e]
      exact ih.2
    · rw [e]
      intro k d hk
      by_cases hkr : k = env.rnd.val
      · simp only [GoMap.set, if_pos hkr, Option.some.injEq] at hk
        rw [← hk]
        exact Int.le_trans hle (Int.le_of_lt (Int.lt_add_of_pos_right _ (by decide)))
      · simp only [GoMap.set, if_neg hkr] at hk
        exact ih.2 k d hk
  | verbC t args now h st st2 pending _ hnow hs ih =>
    refine ⟨Int.le_trans ih.1 hnow, ?_⟩
    rcases pokeC_store st st2 args hs with e | ⟨id, long, new, -, e⟩
    · rw [e]
      exact ih.2
    · rw [e]
      exact ih.2
  | verbR t args now h st st2 pending _ hnow hs ih =>
    refine ⟨Int.le_trans ih.1 hnow, ?_⟩
    rw [pokeR_store st st2 args hs]
    exact ih.2
  | eLock env t args id decomped now h st st1 pending _ hnow hb ih =>
    refine ⟨Int.le_trans ih.1 hnow, ?_⟩
    obtain ⟨-, longReq, -, -, e⟩ := eBegin_ok env st st1 args id decomped hb
    rw [e]
    exact ih.2
  | eRelock env t id decomped now h st st2 pending _ hnow _ hf ih =>
    refine ⟨Int.le_trans ih.1 hnow, ?_⟩
    rcases eFinish_store env st st2 id _ hf with e | ⟨-, v, e⟩
    · rw [e]
      exact ih.2
    · rw [e]
      exact ih.2
  | reap t now h st pending _ _ _ => exact ⟨Int.le_refl _, notBefore_reap t st⟩

theorem timed_reaps (pending : List (Str × Bytes)) (ts : List Time) :
    ∀ (now h : Time) (st : Store), Timed now h st pending → List.Chain (· ≤ ·) now ts →
      ∃ now2 h2, Timed now2 h2 (ts.foldl (fun s t => reapLong t s) st) pending ∧
        now ≤ now2 ∧ (ts = [] → h2 = h) ∧ (ts ≠ [] → ts.getLast? = some h2) := by
  induction ts with
  | nil =>
    intro now h st ht _
    exact ⟨now, h, ht, Int.le_refl _, fun _ => rfl, fun hne => absurd rfl hne⟩
  | cons t ts ih =>
    intro now h st ht hc
    obtain ⟨hle, hc2⟩ := List.chain_cons.mp hc
    obtain ⟨now2, h2, ht2, hle2, hnil, hlast⟩ :=
      ih t t (reapLong t st) (Timed.reap t now h st pending ht hle) hc2
    refine ⟨now2, h2, ht2, Int.le_trans hle hle2, fun hn => absurd hn (by simp), fun _ => ?_⟩
    cases ts with
    | nil => simp [hnil rfl]
    | cons t2 ts2 =>
      have := hlast (by simp)
      simpa [List.getLast?_cons_cons] using this

/-- A whole call of `turnpoke` at time `env.now`, with the reaper runs that fall into the
HTTP call of `e` in the order of their times, is a timed run. -/
theorem timed_poke (env : Env) (req : Str) (now h : Time) (st st2 : Store)
    (pending : List (Str × Bytes)) (ht : Timed now h st pending) (hnow : now ≤ env.now)
    (hc : List.Chain (· ≤ ·) env.now env.reaps)
    (hs : (turnpoke env st req).store? = some st2) :
    ∃ now2 h2, Timed now2 h2 st2 pending := by
  unfold turnpoke at hs
  split at hs
  · rename_i method args _
    split_ifs at hs
    · exact ⟨_, _, Timed.verbS env args now h st st2 pending ht hnow hs⟩
    · exact ⟨_, _, Timed.verbC env.now args now h st st2 pending ht hnow hs⟩
    · unfold pokeE at hs
      split at hs
      · simp only [Outcome.store?, Option.some.injEq] at hs
        rw [← hs]
        exact ⟨_, _, ht⟩
      · rename_i id decomped st1 hb
        have h1 := Timed.eLock env env.now args id decomped now h st st1 pending ht hnow hb
        obtain ⟨now2, h2, h3, -, -, -⟩ := timed_reaps _ env.reaps env.now h st1 h1 hc
        have h4 := Timed.eRelock env now2 id decomped now2 h2 _ st2 _ h3 (Int.le_refl _)
          (List.mem_cons_self _ _) hs
        rw [List.erase_cons_head] at h4
        exact ⟨_, _, h4⟩
    · exact ⟨_, _, Timed.verbR env.now args now h st st2 pending ht hnow hs⟩
    · simp only [Outcome.store?, Option.some.injEq] at hs
      rw [← hs]
      exact ⟨_, _, ht⟩
  · simp only [Outcome.store?, Option.some.injEq] at hs
    rw [← hs]
    exact ⟨_, _, ht⟩

/-- C16, as stated, fails: `s:4` at time 0 creates a session with deadline 30 s; at time
31 s, the reaper not having run since the start, a `c` on that session still succeeds. -/
theorem expired_session_reachable_fails :
    ∃ st1 st2,
      Timed 0 0 st1 [] ∧
      turnpoke Env.quiet Store.empty (str "s:4") = .ok Env.quiet.rnd.val st1 ∧
      st1.longReqValidUntils Env.quiet.rnd.val = some 30000000000 ∧
      (30000000000 : Time) < ({ Env.quiet with now := 31000000000 } : Env).now ∧
      turnpoke { Env.quiet with now := 31000000000 } st1 (cmdC Env.quiet.rnd.val 0 [9]) =
        .ok Env.quiet.rnd.val st2 ∧
      Timed 31000000000 0 st2 [] := by
  have hpoke : turnpoke Env.quiet Store.empty (str "s:4") = .ok Env.quiet.rnd.val
      (Store.mk (Store.empty.longReqValidUntils.set Env.quiet.rnd.val (some 30000000000))
        (Store.empty.longReqs.set Env.quiet.rnd.val (some (List.replicate 4 0)))
        Store.empty.longResps) := rfl
  have ht1 : Timed 0 0
      (Store.mk (Store.empty.longReqValidUntils.set Env.quiet.rnd.val (some 30000000000))
        (Store.empty.longReqs.set Env.quiet.rnd.val (some (List.replicate 4 0)))
        Store.empty.longResps) [] :=
    Timed.verbS Env.quiet (str "4") 0 0 Store.empty _ [] (Timed.start 0) (Int.le_refl _) rfl
  have hc : ∃ st2, turnpoke { Env.quiet with now := 31000000000 }
      (Store.mk (Store.empty.longReqValidUntils.set Env.quiet.rnd.val (some 30000000000))
        (Store.empty.longReqs.set Env.quiet.rnd.val (some (List.replicate 4 0)))
        Store.empty.longResps) (cmdC Env.quiet.rnd.val 0 [9]) =
        .ok Env.quiet.rnd.val st2 := by
    rw [turnpoke_cmdC, if_pos (by decide)]
    have hs : (Store.empty.longReqs.set Env.quiet.rnd.val
        (some (List.replicate 4 (0 : Byte)))) Env.quiet.rnd.val =
        some (List.replicate 4 (0 : Byte)) := by simp [GoMap.set]
    simp only [hs]
    rw [if_neg (by decide), if_neg (by decide)]
    exact ⟨_, rfl⟩
  obtain ⟨st2, hst2⟩ := hc
  have hverb := hst2
  have hcs : ¬ str "c" = str "s" := by decide
  rw [cmdC, turnpoke_command _ _ _ _ (by decide), if_neg hcs, if_pos rfl] at hverb
  exact ⟨_, st2, ht1, hpoke, by simp [GoMap.set], by decide, hst2,
    Timed.verbC 31000000000 _ 0 0 _ st2 [] ht1 (by decide) (by rw [hverb]; rfl)⟩

/-- C16, amended: lookups do not consult the clock.  In a store reached while the clock
advances, with the reaper having last run at time `h`, every session with a request or
response buffer has a deadline that is not before `h`; so a `c`, `e` or `r` that finds a
session finds one whose deadline had not passed at the last reaper run.  A `c` issued
after the reaper has run past the deadline of its session (or on an id with no deadline at
all) fails with "Unknown request"; between the deadline and the next reaper run the
session is still found. -/
theorem sessions_not_reaped (now h : Time) (st : Store) (pending : List (Str × Bytes))
    (ht : Timed now h st pending) :
    h ≤ now ∧
    (∀ id, st.longReqs id ≠ none ∨ st.longResps id ≠ none →
      ∃ d, st.longReqValidUntils id = some d ∧ h ≤ d) ∧
    (∀ (env : Env) (id content payload : Bytes) (offset : Int) (st2 : Store),
      turnpoke env st (cmdC id offset content) = .ok payload st2 →
      ∃ d, st.longReqValidUntils id = some d ∧ h ≤ d) ∧
    (∀ (env : Env) (id payload : Bytes) (st2 : Store),
      turnpoke env st (cmdE id) = .ok payload st2 →
      ∃ d, st.longReqValidUntils id = some d ∧ h ≤ d) ∧
    (∀ (env : Env) (id payload : Bytes) (offset : Int) (st2 : Store),
      turnpoke env st (cmdR id offset) = .ok payload st2 →
      ∃ d, st.longReqValidUntils id = some d ∧ h ≤ d) ∧
    (∀ (t : Time) (env : Env) (id content : Bytes) (offset : Int),
      -2 ^ 63 ≤ offset ∧ offset < 2 ^ 63 →
      (∀ d, st.longReqValidUntils id = some d → d < t) →
      turnpoke env (reapLong t st) (cmdC id offset content) =
        .error .unknownRequest (reapLong t st)) := by
  have hg := interleaved_grouped st pending (timed_interleaved now h st pending ht)
  obtain ⟨hle, hn⟩ := timed_notBefore now h st pending ht
  have key : ∀ id, st.longReqs id ≠ none ∨ st.longResps id ≠ none →
      ∃ d, st.longReqValidUntils id = some d ∧ h ≤ d := by
    intro id hb
    cases hu : st.longReqValidUntils id with
    | none => exact absurd hu (hg id hb)
    | some d => exact ⟨d, rfl, hn id d hu⟩
  refine ⟨hle, key, ?_, ?_, ?_, ?_⟩
  · intro env id content payload offset st2 hok
    exact key id (Or.inl (turnpoke_cmdC_found env st st2 id content payload offset hok))
  · intro env id payload st2 hok
    exact key id (Or.inl (turnpoke_cmdE_found env st st2 id payload hok))
  · intro env id payload offset st2 hok
    exact key id (Or.inr (turnpoke_cmdR_found env st st2 id payload offset hok))
  · intro t env id content offset hr hpast
    have hmiss : (reapLong t st).longReqs id = none := by
      cases hu : st.longReqValidUntils id with
      | none =>
        have hnone : st.longReqs id = none := by
          by_contra hne
          exact hg id (Or.inl hne) hu
        simp [reapLong, expiredAt, hu, hnone]
      | some d =>
        have hlt := hpast d hu
        simp [reapLong, expiredAt, hu, hlt]
    rw [turnpoke_cmdC, if_pos hr, hmiss]

theorem sessions_not_reaped_witness :
    (5 : Time) ≤ 5 ∧
    (∀ id, (reapLong 5
        (Store.mk (Store.empty.longReqValidUntils.set Env.quiet.rnd.val (some 30000000000))
        (Store.empty.longReqs.set Env.quiet.rnd.val (some (List.replicate 4 0)))
        Store.empty.longResps)).longReqs id ≠ none ∨
        (reapLong 5
        (Store.mk (Store.empty.longReqValidUntils.set Env.quiet.rnd.val (some 30000000000))
        (Store.empty.longReqs.set Env.quiet.rnd.val (some (List.replicate 4 0)))
        Store.empty.longResps)).longResps id ≠ none →
      ∃ d, (reapLong 5
        (Store.mk (Store.empty.longReqValidUntils.set Env.quiet.rnd.val (some 30000000000))
        (Store.empty.longReqs.set Env.quiet.rnd.val (some (List.replicate 4 0)))
        Store.empty.longResps)).longReqValidUntils id = some d ∧ (5 : Time) ≤ d) ∧
    (∀ (env : Env) (id content payload : Bytes) (offset : Int) (st2 : Store),
      turnpoke env (reapLong 5
        (Store.mk (Store.empty.longReqValidUntils.set Env.quiet.rnd.val (some 30000000000))
        (Store.empty.longReqs.set Env.quiet.rnd.val (some (List.replicate 4 0)))
        Store.empty.longResps)) (cmdC id offset content) = .ok payload st2 →
      ∃ d, (reapLong 5
        (Store.mk (Store.empty.longReqValidUntils.set Env.quiet.rnd.val (some 30000000000))
        (Store.empty.longReqs.set Env.quiet.rnd.val (some (List.replicate 4 0)))
        Store.empty.longResps)).longReqValidUntils id = some d ∧ (5 : Time) ≤ d) ∧
    (∀ (env : Env) (id payload : Bytes) (st2 : Store),
      turnpoke env (reapLong 5
        (Store.mk (Store.empty.longReqValidUntils.set Env.quiet.rnd.val (some 30000000000))
        (Store.empty.longReqs.set Env.quiet.rnd.val (some (List.replicate 4 0)))
        Store.empty.longResps)) (cmdE id) = .ok payload st2 →
      ∃ d, (reapLong 5
        (Store.mk (Store.empty.longReqValidUntils.set Env.quiet.rnd.val (some 30000000000))
        (Store.empty.longReqs.set Env.quiet.rnd.val (some (List.replicate 4 0)))
        Store.empty.longResps)).longReqValidUntils id = some d ∧ (5 : Time) ≤ d) ∧
    (∀ (env : Env) (id payload : Bytes) (offset : Int) (st2 : Store),
      turnpoke env (reapLong 5
        (Store.mk (Store.empty.longReqValidUntils.set Env.quiet.rnd.val (some 30000000000))
        (Store.empty.longReqs.set Env.quiet.rnd.val (some (List.replicate 4 0)))
        Store.empty.longResps)) (cmdR id offset) = .ok payload st2 →
      ∃ d, (reapLong 5
        (Store.mk (Store.empty.longReqValidUntils.set Env.quiet.rnd.val (some 30000000000))
        (Store.empty.longReqs.set Env.quiet.rnd.val (some (List.replicate 4 0)))
        Store.empty.longResps)).longReqValidUntils id = some d ∧ (5 : Time) ≤ d) ∧
    (∀ (t : Time) (env : Env) (id content : Bytes) (offset : Int),
      -2 ^ 63 ≤ offset ∧ offset < 2 ^ 63 →
      (∀ d, (reapLong 5
        (Store.mk (Store.empty.longReqValidUntils.set Env.quiet.rnd.val (some 30000000000))
        (Store.empty.longReqs.set Env.quiet.rnd.val (some (List.replicate 4 0)))
        Store.empty.longResps)).longReqValidUntils id = some d → d < t) →
      turnpoke env (reapLong t (reapLong 5
        (Store.mk (Store.empty.longReqValidUntils.set Env.quiet.rnd.val (some 30000000000))
        (Store.empty.longReqs.set Env.quiet.rnd.val (some (List.replicate 4 0)))
        Store.empty.longResps))) (cmdC id offset content) =
        .error .unknownRequest (reapLong t (reapLong 5
        (Store.mk (Store.empty.longReqValidUntils.set Env.quiet.rnd.val (some 30000000000))
        (Store.empty.longReqs.set Env.quiet.rnd.val (some (List.replicate 4 0)))
        Store.empty.longResps)))) :=
  sessions_not_reaped 5 5
    (reapLong 5
        (Store.mk (Store.empty.longReqValidUntils.set Env.quiet.rnd.val (some 30000000000))
        (Store.empty.longReqs.set Env.quiet.rnd.val (some (List.replicate 4 0)))
        Store.empty.longResps)) []
    (Timed.reap 5 0 0 _ []
      (Timed.verbS Env.quiet (str "4") 0 0 Store.empty
        (Store.mk (Store.empty.longReqValidUntils.set Env.quiet.rnd.val (some 30000000000))
        (Store.empty.longReqs.set Env.quiet.rnd.val (some (List.replicate 4 0)))
        Store.empty.longResps) []
        (Timed.start 0) (Int.le_refl _) rfl)
      (by decide))

end Turnx
